import Mathlib

/-! # Height-field generator of `mountain-clouds-project/src/main.js`

Shallow embedding of `ProceduralMountain.noise2D` and its helpers
(`grad2D`, `fade`, `lerp`, the table `p`), followed by the properties
established about them.

Numbers are taken in exact arithmetic: the coordinate type is any linearly
ordered field with a floor function (`ℚ` for evaluation, `ℝ` for the
statements about the plane).  The values met on the hash path are modelled
separately (`Val`), because a JavaScript array read past the end of the
array yields `undefined`, `undefined + n` is `NaN`, and `&` turns both back
into `0`.  Rounding to double precision is modelled in one place, the
subtraction `x - Math.floor(x)` (`roundDouble`, `cellOffsetDouble`).
-/

namespace ProceduralMountain

/-! ## Data model -/

/-- Permutation table `p` (main.js, lines 175-186). -/
def p : List ℕ :=
  [151,160,137,91,90,15,131,13,201,95,96,53,194,233,7,225,140,36,103,30,69,142,
    8,99,37,240,21,10,23,190,6,148,247,120,234,75,0,26,197,62,94,252,219,203,117,
    35,11,32,57,177,33,88,237,149,56,87,174,20,125,136,171,168,68,175,74,165,71,
    134,139,48,27,166,77,146,158,231,83,111,229,122,60,211,133,230,220,105,92,41,
    55,46,245,40,244,102,143,54,65,25,63,161,1,216,80,73,209,76,132,187,208,89,
    18,169,200,196,135,130,116,188,159,86,164,100,109,198,173,186,3,64,52,217,226,
    250,124,123,5,202,38,147,118,126,255,82,85,212,207,206,59,227,47,16,58,17,182,
    189,28,42,223,183,170,213,119,248,152,2,44,154,163,70,221,153,101,155,167,43,
    172,9,129,22,39,253,19,98,108,110,79,113,224,232,178,185,112,104,218,246,97,
    228,251,34,242,193,238,210,144,12,191,179,162,241,81,51,145,235,249,14,239,
    107,49,192,214,31,181,199,106,157,184,84,204,176,115,121,50,45,127,4,150,254,
    138,236,205,93,222,114,67,29,24,72,243,141,128,195,78,66,215,61,156,180]

/-- The values that occur on the hash path of `noise2D`: an integer-valued
number, `NaN`, or `undefined`. -/
inductive Val
  | undefined
  | nan
  | int (n : ℤ)
  deriving DecidableEq

/-! ## JavaScript integer operators -/

/-- ECMAScript `ToInt32` on an integer-valued number: reduce modulo `2^32`
and read the result as a signed 32-bit integer. -/
def toInt32 (n : ℤ) : ℤ :=
  let m := n % 4294967296
  if 2147483648 ≤ m then m - 4294967296 else m

/-- JavaScript `a & b` on integer-valued numbers: the bitwise and of the two
32-bit two's complement patterns, read back as a signed 32-bit integer. -/
def bitAnd (a b : ℤ) : ℤ :=
  toInt32 (((a % 4294967296).toNat &&& (b % 4294967296).toNat : ℕ) : ℤ)

namespace Val

/-- The integer that `ToInt32` makes of a value: `undefined` and `NaN` give `0`. -/
def toInt : Val → ℤ
  | undefined => 0
  | nan => 0
  | int n => n

/-- JavaScript `v + k` for a number `k`: `undefined + k` and `NaN + k` are `NaN`. -/
def add : Val → ℤ → Val
  | int n, k => int (n + k)
  | _, _ => nan

/-- JavaScript `v & k`. -/
def and (v : Val) (k : ℤ) : ℤ := bitAnd v.toInt k

/-- A value is a proper table index when it is an integer within the bounds
of `p`. -/
def InBounds : Val → Prop
  | int n => 0 ≤ n ∧ n < (p.length : ℤ)
  | _ => False

instance : DecidablePred InBounds := fun v =>
  match v with
  | int n => inferInstanceAs (Decidable (0 ≤ n ∧ n < (p.length : ℤ)))
  | undefined => inferInstanceAs (Decidable False)
  | nan => inferInstanceAs (Decidable False)

end Val

/-- The array read `this.p[i]`: the entry when `i` is an integer index inside
the array, `undefined` otherwise (past the end, or `i` is `NaN`). -/
def pAt : Val → Val
  | Val.int n =>
    if n < 0 then Val.undefined
    else match p[n.toNat]? with
      | some v => Val.int v
      | none => Val.undefined
  | _ => Val.undefined

/-! ## The noise functions -/

section Noise

variable {α : Type} [LinearOrderedField α] [FloorRing α]

/-- Port of `fade(t)` (main.js, lines 166-168). -/
def fade (t : α) : α := t * t * t * (t * (t * 6 - 15) + 10)

/-- Port of `lerp(t, a, b)` (main.js, lines 170-172). -/
def lerp (t a b : α) : α := a + t * (b - a)

/-- Port of `grad2D(hash, x, y)` (main.js, lines 159-164). -/
def grad2D (hash : Val) (x y : α) : α :=
  let h := hash.and 3
  let u := if h < 2 then x else y
  let v := if h < 2 then y else x
  (if bitAnd h 1 ≠ 0 then -u else u) + (if bitAnd h 2 ≠ 0 then -2 * v else 2 * v)

/-- The cell index `Math.floor(x) & 255` (main.js, lines 141-142). -/
def cellIndex (x : α) : ℤ := bitAnd ⌊x⌋ 255

/-- The offset inside the cell, `x -= Math.floor(x)` (main.js, lines 144-145). -/
def cellOffset (x : α) : α := x - (⌊x⌋ : α)

/-- The index `A = this.p[X] + Y` (main.js, line 150). -/
def indexA (x y : α) : Val := (pAt (Val.int (cellIndex x))).add (cellIndex y)

/-- The index `B = this.p[X + 1] + Y` (main.js, line 151). -/
def indexB (x y : α) : Val := (pAt (Val.int (cellIndex x + 1))).add (cellIndex y)

/-- Port of `noise2D(x, y)` (main.js, lines 140-157). -/
def noise2D (x y : α) : α :=
  let fx := cellOffset x
  let fy := cellOffset y
  let u := fade fx
  let v := fade fy
  let A := indexA x y
  let B := indexB x y
  lerp v
    (lerp u (grad2D (pAt A) fx fy) (grad2D (pAt B) (fx - 1) fy))
    (lerp u (grad2D (pAt (A.add 1)) fx (fy - 1)) (grad2D (pAt (B.add 1)) (fx - 1) (fy - 1)))

/-- The six indices with which `noise2D(x, y)` reads the table, in the order
of the source: `X`, `X + 1`, `A`, `B`, `A + 1`, `B + 1`. -/
def tableReads (x y : α) : List Val :=
  [Val.int (cellIndex x), Val.int (cellIndex x + 1),
   indexA x y, indexB x y, (indexA x y).add 1, (indexB x y).add 1]

/-- The four corner hashes of `noise2D(x, y)`, as read from the table:
`p[A]`, `p[B]`, `p[A + 1]`, `p[B + 1]`. -/
def cornerHashes (x y : α) : List Val :=
  [pAt (indexA x y), pAt (indexB x y), pAt ((indexA x y).add 1), pAt ((indexB x y).add 1)]

end Noise

/-! ## Reference noise with wrapped table reads -/

section Reference

variable {α : Type} [LinearOrderedField α] [FloorRing α]

/-- Table read with the index reduced modulo 256 (the doubled-table reading
of the specification). -/
def tableMod (i : ℤ) : ℤ := (p.getD (i % 256).toNat 0 : ℕ)

/-- Corner hash of the specification, `table[table[X + dx] + Y + dy]`, every
read wrapped modulo 256. -/
def refHash (X Y dx dy : ℤ) : ℤ := tableMod (tableMod (X + dx) + Y + dy)

/-- Reference gradient noise following steps 1-7 of the specification: cell
index `floor mod 256`, offset `x - floor x`, quintic fade weights, the four
wrapped corner hashes, the 4-way gradient selector and the bilinear blend
(first along x, then along y). -/
def noise2DRef (x y : α) : α :=
  let X := ⌊x⌋ % 256
  let Y := ⌊y⌋ % 256
  let fx := x - (⌊x⌋ : α)
  let fy := y - (⌊y⌋ : α)
  let bottom := lerp (fade fx) (grad2D (Val.int (refHash X Y 0 0)) fx fy)
    (grad2D (Val.int (refHash X Y 1 0)) (fx - 1) fy)
  let top := lerp (fade fx) (grad2D (Val.int (refHash X Y 0 1)) fx (fy - 1))
    (grad2D (Val.int (refHash X Y 1 1)) (fx - 1) (fy - 1))
  lerp (fade fy) bottom top

end Reference

/-! ## Evaluation on JavaScript values

The same code once more, this time with every operator acting on JavaScript
values, so that `undefined` and `NaN` can travel through the arithmetic. -/

/-- A JavaScript value as it can occur while `noise2D` runs: `undefined`,
`NaN`, or a finite number. -/
inductive JSVal (α : Type)
  | undefined
  | nan
  | num (r : α)

namespace JSVal

variable {α : Type} [LinearOrderedField α] [FloorRing α]

/-- ECMAScript `ToNumber`: `undefined` becomes `NaN`. -/
def toNumber : JSVal α → JSVal α
  | undefined => nan
  | v => v

/-- JavaScript `a + b` on numbers and `undefined`. -/
def add (a b : JSVal α) : JSVal α :=
  match toNumber a, toNumber b with
  | num r, num s => num (r + s)
  | _, _ => nan

/-- JavaScript `a - b`. -/
def sub (a b : JSVal α) : JSVal α :=
  match toNumber a, toNumber b with
  | num r, num s => num (r - s)
  | _, _ => nan

/-- JavaScript `a * b`. -/
def mul (a b : JSVal α) : JSVal α :=
  match toNumber a, toNumber b with
  | num r, num s => num (r * s)
  | _, _ => nan

/-- JavaScript unary `-a`. -/
def neg (a : JSVal α) : JSVal α :=
  match toNumber a with
  | num r => num (-r)
  | _ => nan

/-- JavaScript `Math.floor(a)`. -/
def floor (a : JSVal α) : JSVal α :=
  match toNumber a with
  | num r => num ((⌊r⌋ : ℤ) : α)
  | _ => nan

/-- ECMAScript `ToInt32`: `NaN` and `undefined` give `0`, a finite number is
truncated towards zero and wrapped to 32 bits. -/
def toInt32 (a : JSVal α) : ℤ :=
  match toNumber a with
  | num r => ProceduralMountain.toInt32 (if 0 ≤ r then ⌊r⌋ else ⌈r⌉)
  | _ => 0

/-- JavaScript `a & b`. -/
def band (a b : JSVal α) : JSVal α := num ((bitAnd (toInt32 a) (toInt32 b) : ℤ) : α)

/-- JavaScript `a < b`: false as soon as one side is `NaN`. -/
def lt (a b : JSVal α) : Bool :=
  match toNumber a, toNumber b with
  | num r, num s => decide (r < s)
  | _, _ => false

/-- Truthiness of a value used as a condition. -/
def truthy : JSVal α → Bool
  | num r => decide (r ≠ 0)
  | _ => false

/-- The array read `this.p[i]` on a JavaScript value: an entry only for an
integer-valued index inside the array. -/
def index (i : JSVal α) : JSVal α :=
  match i with
  | num r =>
    if r = ((⌊r⌋ : ℤ) : α) ∧ 0 ≤ ⌊r⌋ then
      match p[(⌊r⌋).toNat]? with
      | some v => num (v : α)
      | none => undefined
    else undefined
  | _ => undefined

/-- An integer-valued hash-path value seen as a JavaScript value. -/
def ofVal : Val → JSVal α
  | Val.undefined => undefined
  | Val.nan => nan
  | Val.int n => num (n : α)

/-- Port of `fade(t)` on JavaScript values. -/
def fade (t : JSVal α) : JSVal α :=
  mul (mul (mul t t) t) (add (mul t (sub (mul t (num 6)) (num 15))) (num 10))

/-- Port of `lerp(t, a, b)` on JavaScript values. -/
def lerp (t a b : JSVal α) : JSVal α := add a (mul t (sub b a))

/-- Port of `grad2D(hash, x, y)` on JavaScript values. -/
def grad2D (hash x y : JSVal α) : JSVal α :=
  let h := band hash (num 3)
  let u := if lt h (num 2) then x else y
  let v := if lt h (num 2) then y else x
  add (if truthy (band h (num 1)) then neg u else u)
    (if truthy (band h (num 2)) then mul (num (-2)) v else mul (num 2) v)

/-- Port of `noise2D(x, y)` on JavaScript values. -/
def noise2D (x y : JSVal α) : JSVal α :=
  let X := band (floor x) (num 255)
  let Y := band (floor y) (num 255)
  let fx := sub x (floor x)
  let fy := sub y (floor y)
  let u := fade fx
  let v := fade fy
  let A := add (index X) Y
  let B := add (index (add X (num 1))) Y
  lerp v
    (lerp u (grad2D (index A) fx fy) (grad2D (index B) (sub fx (num 1)) fy))
    (lerp u (grad2D (index (add A (num 1))) fx (sub fy (num 1)))
      (grad2D (index (add B (num 1))) (sub fx (num 1)) (sub fy (num 1))))

end JSVal

/-! ## One cell of the lattice -/

section CellDef

variable {α : Type} [LinearOrderedField α]

/-- The value of `noise2D` inside one lattice cell, as a function of the cell
indices `X`, `Y` and of the offsets `fx`, `fy` (the body of `noise2D` after
its first four lines). -/
def cellNoise (X Y : ℤ) (fx fy : α) : α :=
  let u := fade fx
  let v := fade fy
  let A := (pAt (Val.int X)).add Y
  let B := (pAt (Val.int (X + 1))).add Y
  lerp v
    (lerp u (grad2D (pAt A) fx fy) (grad2D (pAt B) (fx - 1) fy))
    (lerp u (grad2D (pAt (A.add 1)) fx (fy - 1)) (grad2D (pAt (B.add 1)) (fx - 1) (fy - 1)))

end CellDef

/-! ## The table as a field of the object -/

section TableField

variable {α : Type} [LinearOrderedField α]

/-- The array read `tbl[i]` for an arbitrary table `tbl`. -/
def readTable (tbl : List ℕ) : Val → Val
  | Val.int n =>
    if n < 0 then Val.undefined
    else match tbl[n.toNat]? with
      | some v => Val.int v
      | none => Val.undefined
  | _ => Val.undefined

variable [FloorRing α]

/-- The body of `noise2D(x, y)` with the table `this.p` as a parameter. -/
def noise2DOn (tbl : List ℕ) (x y : α) : α :=
  let fx := cellOffset x
  let fy := cellOffset y
  let u := fade fx
  let v := fade fy
  let A := (readTable tbl (Val.int (cellIndex x))).add (cellIndex y)
  let B := (readTable tbl (Val.int (cellIndex x + 1))).add (cellIndex y)
  lerp v
    (lerp u (grad2D (readTable tbl A) fx fy) (grad2D (readTable tbl B) (fx - 1) fy))
    (lerp u (grad2D (readTable tbl (A.add 1)) fx (fy - 1))
      (grad2D (readTable tbl (B.add 1)) (fx - 1) (fy - 1)))

/-- A `ProceduralMountain` object: its table `p` and its other fields
(`geometry`, `material`, `mesh`). -/
structure Instance (β : Type) where
  p : List ℕ
  fields : β

end TableField

/-! ## Terrain height loops -/

section Terrain

variable {α : Type} [LinearOrderedField α]

/-- A mesh vertex of the plane geometry. -/
structure Vertex (α : Type) where
  x : α
  y : α
  z : α

/-- JavaScript `Math.sign` on a finite number. -/
def sign (h : α) : α := if 0 < h then 1 else if h < 0 then -1 else 0

/-- The centre peak `Math.max(0, 100 - distFromCenter * 0.3)` with
`distFromCenter = Math.sqrt(x * x + y * y)` (main.js, lines 103-105); `sqrt`
stands for `Math.sqrt`. -/
def centerPeak (sqrt : α → α) (x y : α) : α :=
  let distFromCenter := sqrt (x * x + y * y)
  max 0 (100 - distFromCenter * 0.3)

/-- The "sharp peaks" step
`Math.pow(Math.abs(height) / 100, 1.3) * 100 * Math.sign(height)` (main.js,
line 109); `pow` stands for `Math.pow`. -/
def sharpen (pow : α → α → α) (height : α) : α :=
  pow (|height| / 100) 1.3 * 100 * sign height

/-- Port of `simpleNoise(x, y)` (main-simple.js, lines 61-65; the same text in
main-final.js and main-aurora.js); `sin` and `cos` stand for `Math.sin` and
`Math.cos`. -/
def simpleNoise (sin cos : α → α) (x y : α) : α :=
  sin (x * 0.01) * cos (y * 0.01) * 50 +
    sin (x * 0.02) * cos (y * 0.02) * 25 +
    sin (x * 0.05) * cos (y * 0.05) * 10

/-- The height of one vertex in the simple variants before the clamp
(main-simple.js, lines 72-77; main-final.js, lines 63-66; main-aurora.js). -/
def simpleHeight (sin cos sqrt : α → α) (x y : α) : α :=
  let height := simpleNoise sin cos x y
  let dist := sqrt (x * x + y * y)
  let peak := max 0 (100 - dist * 0.3)
  height + peak

/-- The height loop of the simple variants: every vertex gets
`Math.max(height, 0)` as its `z`. -/
def simpleHeightLoop (sin cos sqrt : α → α) (position : List (Vertex α)) : List (Vertex α) :=
  position.map fun v => { v with z := max (simpleHeight sin cos sqrt v.x v.y) 0 }

variable [FloorRing α]

/-- The height of one vertex in main.js before the clamp (lines 86-109):
three octaves of `noise2D`, the centre peak and the sharpening step. -/
def createHeight (sqrt : α → α) (pow : α → α → α) (x y : α) : α :=
  let height : α := 0
  let amplitude : α := 60
  let frequency : α := 0.005
  let height := height + noise2D (x * frequency) (y * frequency) * amplitude
  let amplitude := amplitude * 0.5
  let frequency := frequency * 2
  let height := height + noise2D (x * frequency) (y * frequency) * amplitude
  let amplitude := amplitude * 0.5
  let frequency := frequency * 3
  let height := height + noise2D (x * frequency) (y * frequency) * amplitude
  let height := height + centerPeak sqrt x y
  sharpen pow height

/-- The height loop of main.js (lines 82-112): every vertex gets
`Math.max(height, 0)` as its `z`. -/
def createHeightLoop (sqrt : α → α) (pow : α → α → α) (position : List (Vertex α)) :
    List (Vertex α) :=
  position.map fun v => { v with z := max (createHeight sqrt pow v.x v.y) 0 }

end Terrain

/-! ## Star colours (main-stars.js) -/

section Stars

variable {α : Type} [LinearOrderedField α]

/-- A `THREE.Color(r, g, b)`. -/
structure Color (α : Type) where
  r : α
  g : α
  b : α

/-- The colour temperatures named in `starColors`. -/
inductive Temp
  | blue
  | white
  | yellow
  | orange
  | red
  deriving DecidableEq

/-- An entry of `starColors`. -/
structure StarColor (α : Type) where
  temp : Temp
  color : Color α
  weight : α

/-- The table `starColors` (main-stars.js, lines 94-100). -/
def starColors : List (StarColor α) :=
  [{ temp := Temp.blue, color := ⟨0.7, 0.8, 1.0⟩, weight := 0.1 },
   { temp := Temp.white, color := ⟨1.0, 1.0, 1.0⟩, weight := 0.5 },
   { temp := Temp.yellow, color := ⟨1.0, 0.95, 0.8⟩, weight := 0.25 },
   { temp := Temp.orange, color := ⟨1.0, 0.8, 0.6⟩, weight := 0.1 },
   { temp := Temp.red, color := ⟨1.0, 0.6, 0.4⟩, weight := 0.05 }]

/-- The loop of `getStarColor` (main-stars.js, lines 106-111) over the
remaining entries, with the running value of `cumulative`: the entry at which
the loop returns, or `none` when the loop runs to its end. -/
def starLoop (rand : α) : List (StarColor α) → α → Option (StarColor α)
  | [], _ => none
  | star :: rest, cumulative =>
    let cumulative := cumulative + star.weight
    if rand < cumulative then some star else starLoop rand rest cumulative

/-- Port of `getStarColor()` (main-stars.js, lines 102-113), as a function of
the draw `rand = Math.random()`. -/
def getStarColor (rand : α) : Color α :=
  match starLoop rand starColors 0 with
  | some star => star.color
  | none => ((starColors : List (StarColor α)).get ⟨1, by simp [starColors]⟩).color

end Stars

/-! ## Navigation dots (ScrollTrigger `onUpdate`) -/

section Dots

variable {α : Type} [LinearOrderedField α] [FloorRing α]

/-- The index of main.js, line 386:
`Math.floor(progress * sections.length)`. -/
def sectionIndexMain (progress : α) (n : ℕ) : ℤ := ⌊progress * (n : α)⌋

/-- The index of main-simple.js, line 261 (the same expression in
main-final.js, main-stars.js, main-sky.js, main-realistic.js, main-aurora.js):
`Math.min(Math.floor(progress * sections.length), sections.length - 1)`. -/
def sectionIndexClamped (progress : α) (n : ℕ) : ℤ :=
  min ⌊progress * (n : α)⌋ ((n : ℤ) - 1)

/-- The `active` flags of `n` dots after `dots.forEach((dot, i) => ...)`:
dot `i` is active exactly when `i === sectionIndex`. -/
def activeDots (n : ℕ) (sectionIndex : ℤ) : List Bool :=
  (List.range n).map fun (i : ℕ) => decide ((i : ℤ) = sectionIndex)

end Dots

/-! ## Mouse follow (main.js, lines 349-359 and 418-420) and scroll easing -/

section MouseFollow

variable {α : Type} [LinearOrderedField α]

/-- The object `mouse`. -/
structure Mouse (α : Type) where
  x : α
  y : α
  targetX : α
  targetY : α

/-- The initial value of `mouse`. -/
def Mouse.initial : Mouse α := ⟨0, 0, 0, 0⟩

/-- The `mousemove` handler (main.js, lines 356-359). -/
def onMouseMove (clientX clientY innerWidth innerHeight : α) (mouse : Mouse α) : Mouse α :=
  { mouse with
    targetX := (clientX / innerWidth) * 2 - 1
    targetY := -(clientY / innerHeight) * 2 + 1 }

/-- The smooth mouse follow of `animate` (main.js, lines 418-420). -/
def smoothFollow (mouse : Mouse α) : Mouse α :=
  let x := mouse.x + (mouse.targetX - mouse.x) * 0.05
  let y := mouse.y + (mouse.targetY - mouse.y) * 0.05
  { mouse with x := x, y := y }

/-- The Lenis easing `(t) => Math.min(1, 1.001 - Math.pow(2, -10 * t))`
(main.js, line 277; main-simple.js, line 145); `pow` stands for `Math.pow`. -/
def easing (pow : α → α → α) (t : α) : α := min 1 (1.001 - pow 2 (-10 * t))

end MouseFollow

/-! ## The method call as a program on the object -/

section Effects

variable {α : Type} [LinearOrderedField α] [FloorRing α] {β : Type}

/-- The read `this.p[i]` as an operation on the object: it inspects the state
and leaves it as it is. -/
def readP (i : Val) : StateM (Instance β) Val := do
  let self ← get
  pure (readTable self.p i)

/-- Port of `noise2D(x, y)` (main.js, lines 140-157) as a program on the state
of the object `this`: each `this.p[...]` is a read of the state, in the order
of evaluation of the source; `fade`, `lerp` and `grad2D` do not touch `this`. -/
def noise2DM (x y : α) : StateM (Instance β) α := do
  let X := cellIndex x
  let Y := cellIndex y
  let fx := cellOffset x
  let fy := cellOffset y
  let u := fade fx
  let v := fade fy
  let A := (← readP (Val.int X)).add Y
  let B := (← readP (Val.int (X + 1))).add Y
  let hA ← readP A
  let hB ← readP B
  let hA1 ← readP (A.add 1)
  let hB1 ← readP (B.add 1)
  pure (lerp v
    (lerp u (grad2D hA fx fy) (grad2D hB (fx - 1) fy))
    (lerp u (grad2D hA1 fx (fy - 1)) (grad2D hB1 (fx - 1) (fy - 1))))

/-- The method call `this.noise2D(x, y)`: the result and the object after the
call. -/
def Instance.noise2D (self : Instance β) (x y : α) : α × Instance β :=
  Id.run ((noise2DM x y).run self)

end Effects

/-! ## Double precision

The subtraction `x -= Math.floor(x)` (main.js, line 144) is a binary64
operation: the exact difference is rounded to the nearest number with 53
significant bits, ties to even. `Math.floor` of a double is exact. The exponent
range is not modelled; an offset in `[0, 1]` is far from both ends of it. -/

/-- Nearest integer, ties to the even one. -/
def roundHalfEven (q : ℚ) : ℤ :=
  let f := ⌊q⌋
  let r := q - f
  if r < 1 / 2 then f else if 1 / 2 < r then f + 1 else if f % 2 = 0 then f else f + 1

/-- Rounding of an exact value to 53 significant bits, ties to even: with
`2 ^ e ≤ |q| < 2 ^ (e + 1)` the result is a multiple of `2 ^ (e - 52)`. -/
def roundDouble (q : ℚ) : ℚ :=
  if q = 0 then 0
  else
    let e := Int.log 2 |q|
    (roundHalfEven (q / 2 ^ (e - 52)) : ℚ) * 2 ^ (e - 52)

/-- The offset `x -= Math.floor(x)` as computed on a double `x`. -/
def cellOffsetDouble (x : ℚ) : ℚ := roundDouble (x - ⌊x⌋)

/-! ## Auxiliary facts -/

theorem bitAnd_255 (n : ℤ) : bitAnd n 255 = n % 256 := by
  unfold bitAnd toInt32
  have h255 : ((255 : ℤ) % 4294967296).toNat = 2 ^ 8 - 1 := by decide
  rw [h255, Nat.and_pow_two_sub_one_eq_mod]
  simp only []
  omega

theorem bitAnd_3 (n : ℤ) : bitAnd n 3 = n % 4 := by
  unfold bitAnd toInt32
  have h3 : ((3 : ℤ) % 4294967296).toNat = 2 ^ 2 - 1 := by decide
  rw [h3, Nat.and_pow_two_sub_one_eq_mod]
  simp only []
  omega

theorem Val.and_three_cases (hash : Val) :
    hash.and 3 = 0 ∨ hash.and 3 = 1 ∨ hash.and 3 = 2 ∨ hash.and 3 = 3 := by
  unfold Val.and
  rw [bitAnd_3]
  omega

section NoiseFacts

variable {α : Type} [LinearOrderedField α]

theorem grad2D_and0 {hash : Val} (h : hash.and 3 = 0) (x y : α) :
    grad2D hash x y = x + 2 * y := by
  have h1 : bitAnd 0 1 = 0 := by decide
  have h2 : bitAnd 0 2 = 0 := by decide
  simp [grad2D, h, h1, h2]

theorem grad2D_and1 {hash : Val} (h : hash.and 3 = 1) (x y : α) :
    grad2D hash x y = -x + 2 * y := by
  have h1 : bitAnd 1 1 = 1 := by decide
  have h2 : bitAnd 1 2 = 0 := by decide
  simp [grad2D, h, h1, h2]

theorem grad2D_and2 {hash : Val} (h : hash.and 3 = 2) (x y : α) :
    grad2D hash x y = y - 2 * x := by
  have h1 : bitAnd 2 1 = 0 := by decide
  have h2 : bitAnd 2 2 = 2 := by decide
  simp [grad2D, h, h1, h2]
  ring

theorem grad2D_and3 {hash : Val} (h : hash.and 3 = 3) (x y : α) :
    grad2D hash x y = -y - 2 * x := by
  have h1 : bitAnd 3 1 = 1 := by decide
  have h2 : bitAnd 3 2 = 2 := by decide
  simp [grad2D, h, h1, h2]
  ring

theorem grad2D_zero (hash : Val) : grad2D hash (0 : α) 0 = 0 := by
  rcases hash.and_three_cases with h | h | h | h
  · rw [grad2D_and0 h]; ring
  · rw [grad2D_and1 h]; ring
  · rw [grad2D_and2 h]; ring
  · rw [grad2D_and3 h]; ring

variable [FloorRing α]

theorem cellIndex_eq (x : α) : cellIndex x = ⌊x⌋ % 256 := bitAnd_255 _

theorem floor_add_256 (x : α) : ⌊x + 256⌋ = ⌊x⌋ + 256 := by
  have := Int.floor_add_int x 256
  simp

theorem cellIndex_add_256 (x : α) : cellIndex (x + 256) = cellIndex x := by
  rw [cellIndex_eq, cellIndex_eq, floor_add_256]
  omega

theorem cellOffset_add_256 (x : α) : cellOffset (x + 256) = cellOffset x := by
  unfold cellOffset
  rw [floor_add_256]
  push_cast
  ring

theorem cellOffset_intCast (m : ℤ) : cellOffset (m : α) = 0 := by
  simp [cellOffset]

theorem cellOffset_nonneg (x : α) : 0 ≤ cellOffset x :=
  sub_nonneg.mpr (Int.floor_le x)

theorem cellOffset_lt_one (x : α) : cellOffset x < 1 := by
  have := Int.lt_floor_add_one x
  unfold cellOffset
  linarith

theorem cellIndex_of_floor {x : α} {m : ℤ} (h : ⌊x⌋ = m) : cellIndex x = m % 256 := by
  rw [cellIndex_eq, h]

theorem cellOffset_of_floor {x : α} {m : ℤ} (h : ⌊x⌋ = m) : cellOffset x = x - (m : α) := by
  rw [cellOffset, h]

end NoiseFacts

theorem floor_neg_half : ⌊(-1 / 2 : ℝ)⌋ = -1 := by
  rw [Int.floor_eq_iff]
  norm_num

theorem floor_half : ⌊(1 / 2 : ℝ)⌋ = 0 := by
  rw [Int.floor_eq_iff]
  norm_num

set_option maxRecDepth 100000 in
/-- The table is a rearrangement of `0, 1, ..., 255`. -/
theorem p_perm_range : p.Perm (List.range 256) := by
  decide

set_option maxRecDepth 100000 in
theorem pAt_samples :
    pAt (Val.int 255) = Val.int 180 ∧ pAt (Val.int 256) = Val.undefined ∧
      pAt (Val.int 180) = Val.int 19 ∧ pAt (Val.int 181) = Val.int 98 ∧
      pAt Val.nan = Val.undefined := by
  decide

theorem cellIndex_neg_half : cellIndex (-1 / 2 : ℝ) = 255 := by
  rw [cellIndex_of_floor floor_neg_half]; decide

theorem cellIndex_half : cellIndex (1 / 2 : ℝ) = 0 := by
  rw [cellIndex_of_floor floor_half]; decide

theorem cellOffset_neg_half : cellOffset (-1 / 2 : ℝ) = 1 / 2 := by
  rw [cellOffset_of_floor floor_neg_half]; norm_num

theorem cellOffset_half : cellOffset (1 / 2 : ℝ) = 1 / 2 := by
  rw [cellOffset_of_floor floor_half]; norm_num

theorem indexA_sample : indexA (-1 / 2 : ℝ) (1 / 2) = Val.int 180 := by
  unfold indexA
  rw [cellIndex_neg_half, cellIndex_half, pAt_samples.1]
  rfl

theorem indexB_sample : indexB (-1 / 2 : ℝ) (1 / 2) = Val.nan := by
  unfold indexB
  rw [cellIndex_neg_half, cellIndex_half]
  have h : (255 : ℤ) + 1 = 256 := rfl
  rw [h, pAt_samples.2.1]
  rfl

section Range

variable {α : Type} [LinearOrderedField α]

theorem fade_one_sub (t : α) : fade (1 - t) = 1 - fade t := by
  unfold fade
  ring

theorem fade_nonneg {t : α} (h0 : 0 ≤ t) : 0 ≤ fade t := by
  have h : fade t = t ^ 3 * (6 * (t - 5 / 4) ^ 2 + 5 / 8) := by
    unfold fade
    ring
  rw [h]
  positivity

theorem fade_le_one {t : α} (h1 : t ≤ 1) : fade t ≤ 1 := by
  have h := fade_nonneg (sub_nonneg.mpr h1)
  rw [fade_one_sub] at h
  linarith

/-- The weights of the two ends of a cell never both favour the far end:
`(1 - fade t) t + fade t (1 - t) ≤ 1/2`. -/
theorem offset_mix_le (t : α) : (1 - fade t) * t + fade t * (1 - t) ≤ 1 / 2 := by
  have h : 1 / 2 - ((1 - fade t) * t + fade t * (1 - t)) =
      2 * (t - 1 / 2) ^ 2 * (6 * (t * (1 - t)) ^ 2 + 2 * (t * (1 - t)) + 1) := by
    unfold fade
    ring
  have h2 : 0 ≤ 6 * (t * (1 - t)) ^ 2 + 2 * (t * (1 - t)) + 1 := by
    nlinarith [sq_nonneg (t * (1 - t)), sq_nonneg (t * (1 - t) + 1)]
  have h3 : 0 ≤ 2 * (t - 1 / 2) ^ 2 * (6 * (t * (1 - t)) ^ 2 + 2 * (t * (1 - t)) + 1) := by
    positivity
  linarith

/-- On `[0, 1]` the near-end weight times the offset stays below `7/20`
(Bernstein form of degree 11). -/
theorem offset_weight_le {t : α} (h0 : 0 ≤ t) (h1 : t ≤ 1) : t * (1 - fade t) ≤ 7 / 20 := by
  obtain ⟨s, hs⟩ : ∃ s : α, s = 1 - t := ⟨_, rfl⟩
  have hs0 : 0 ≤ s := by rw [hs]; exact sub_nonneg.mpr h1
  have key : 7 / 20 - t * (1 - fade t) =
      7 / 20 * t ^ 0 * s ^ 11 + 57 / 20 * t ^ 1 * s ^ 10 + 37 / 4 * t ^ 2 * s ^ 9 +
        51 / 4 * t ^ 3 * s ^ 8 + 11 / 2 * t ^ 4 * s ^ 7 + 67 / 10 * t ^ 5 * s ^ 6 +
        357 / 10 * t ^ 6 * s ^ 5 + 121 / 2 * t ^ 7 * s ^ 4 + 191 / 4 * t ^ 8 * s ^ 3 +
        77 / 4 * t ^ 9 * s ^ 2 + 77 / 20 * t ^ 10 * s ^ 1 + 7 / 20 * t ^ 11 * s ^ 0 := by
    rw [hs]
    unfold fade
    ring
  have hpos : 0 ≤ 7 / 20 * t ^ 0 * s ^ 11 + 57 / 20 * t ^ 1 * s ^ 10 + 37 / 4 * t ^ 2 * s ^ 9 +
        51 / 4 * t ^ 3 * s ^ 8 + 11 / 2 * t ^ 4 * s ^ 7 + 67 / 10 * t ^ 5 * s ^ 6 +
        357 / 10 * t ^ 6 * s ^ 5 + 121 / 2 * t ^ 7 * s ^ 4 + 191 / 4 * t ^ 8 * s ^ 3 +
        77 / 4 * t ^ 9 * s ^ 2 + 77 / 20 * t ^ 10 * s ^ 1 + 7 / 20 * t ^ 11 * s ^ 0 := by
    positivity
  linarith

/-- On `[0, 1]`, `(1 - fade t) t + (7/20) fade t ≤ 1/2` (Bernstein form of
degree 10). -/
theorem offset_blend_le {t : α} (h0 : 0 ≤ t) (h1 : t ≤ 1) :
    (1 - fade t) * t + fade t * (7 / 20) ≤ 1 / 2 := by
  obtain ⟨s, hs⟩ : ∃ s : α, s = 1 - t := ⟨_, rfl⟩
  have hs0 : 0 ≤ s := by rw [hs]; exact sub_nonneg.mpr h1
  have key : 1 / 2 - ((1 - fade t) * t + fade t * (7 / 20)) =
      1 / 2 * t ^ 0 * s ^ 10 + 4 * t ^ 1 * s ^ 9 + 27 / 2 * t ^ 2 * s ^ 8 +
        41 / 2 * t ^ 3 * s ^ 7 + 47 / 4 * t ^ 4 * s ^ 6 + 9 / 10 * t ^ 5 * s ^ 5 +
        23 / 4 * t ^ 6 * s ^ 4 + 23 / 2 * t ^ 7 * s ^ 3 + 27 / 4 * t ^ 8 * s ^ 2 +
        3 / 2 * t ^ 9 * s ^ 1 + 3 / 20 * t ^ 10 * s ^ 0 := by
    rw [hs]
    unfold fade
    ring
  have hpos : 0 ≤ 1 / 2 * t ^ 0 * s ^ 10 + 4 * t ^ 1 * s ^ 9 + 27 / 2 * t ^ 2 * s ^ 8 +
        41 / 2 * t ^ 3 * s ^ 7 + 47 / 4 * t ^ 4 * s ^ 6 + 9 / 10 * t ^ 5 * s ^ 5 +
        23 / 4 * t ^ 6 * s ^ 4 + 23 / 2 * t ^ 7 * s ^ 3 + 27 / 4 * t ^ 8 * s ^ 2 +
        3 / 2 * t ^ 9 * s ^ 1 + 3 / 20 * t ^ 10 * s ^ 0 := by
    positivity
  linarith

/-- Bilinear blend of four corner values, each below the largest dot product
that a gradient of `grad2D` can give at that corner, stays below `3/2`. -/
theorem blend_le {x y a b c d : α} (hx0 : 0 ≤ x) (hx1 : x ≤ 1) (hy0 : 0 ≤ y) (hy1 : y ≤ 1)
    (ha : a ≤ x + 2 * y) (hb : b ≤ (1 - x) + y + max (1 - x) y)
    (hc : c ≤ max (x - 2 * (1 - y)) ((1 - y) - 2 * x)) (hd : d ≤ 2 * (1 - x) + (1 - y)) :
    lerp (fade y) (lerp (fade x) a b) (lerp (fade x) c d) ≤ 3 / 2 := by
  have hu0 := fade_nonneg hx0
  have hu1 := fade_le_one hx1
  have hv0 := fade_nonneg hy0
  have hv1 := fade_le_one hy1
  have hmx := offset_mix_le x
  have hmy := offset_mix_le y
  have hwx := offset_weight_le hx0 hx1
  have hwy := offset_weight_le hy0 hy1
  have hwx' := offset_weight_le (sub_nonneg.mpr hx1) (sub_le_self 1 hx0)
  have hwy' := offset_weight_le (sub_nonneg.mpr hy1) (sub_le_self 1 hy0)
  have hbx := offset_blend_le (sub_nonneg.mpr hx1) (sub_le_self 1 hx0)
  have hby := offset_blend_le hy0 hy1
  rw [fade_one_sub] at hwx' hwy' hbx
  generalize fade x = u at *
  generalize fade y = v at *
  have hu1' : 0 ≤ 1 - u := sub_nonneg.mpr hu1
  have hv1' : 0 ≤ 1 - v := sub_nonneg.mpr hv1
  have hx1' : 0 ≤ 1 - x := sub_nonneg.mpr hx1
  have hy1' : 0 ≤ 1 - y := sub_nonneg.mpr hy1
  have e1 := mul_nonneg (mul_nonneg hu1' hv1') (sub_nonneg.mpr ha)
  have e4 := mul_nonneg (mul_nonneg hu0 hv0) (sub_nonneg.mpr hd)
  unfold lerp
  rcases le_total (x + y) 1 with hxy | hxy
  · have hb' : b ≤ 2 * (1 - x) + y := by
      rw [max_eq_left (by linarith)] at hb
      linarith
    have hc' : c ≤ (1 - y) - 2 * x := by
      rw [max_eq_right (by linarith)] at hc
      exact hc
    have e2 := mul_nonneg (mul_nonneg hu0 hv1') (sub_nonneg.mpr hb')
    have e3 := mul_nonneg (mul_nonneg hu1' hv0) (sub_nonneg.mpr hc')
    have e5 := mul_nonneg hu1' (sub_nonneg.mpr hwy)
    have e6 := mul_nonneg hv0 (mul_nonneg hu1' hx0)
    linarith
  · have hb' : b ≤ (1 - x) + 2 * y := by
      rw [max_eq_right (by linarith)] at hb
      linarith
    have hc' : c ≤ x - 2 * (1 - y) := by
      rw [max_eq_left (by linarith)] at hc
      exact hc
    have e2 := mul_nonneg (mul_nonneg hu0 hv1') (sub_nonneg.mpr hb')
    have e3 := mul_nonneg (mul_nonneg hu1' hv0) (sub_nonneg.mpr hc')
    have e5 := mul_nonneg hv0 (sub_nonneg.mpr hwx')
    have e6 := mul_nonneg hu1' (mul_nonneg hv0 hy1')
    linarith

end Range

section Corners

variable {α : Type} [LinearOrderedField α]

/-- Whatever the hash, the four corner dot products are bounded above by the
largest value that one of the four gradients of `grad2D` can give there. -/
theorem grad2D_upper (h00 h10 h01 h11 : Val) {x y : α}
    (hx0 : 0 ≤ x) (hx1 : x ≤ 1) (hy0 : 0 ≤ y) (hy1 : y ≤ 1) :
    grad2D h00 x y ≤ x + 2 * y ∧
      grad2D h10 (x - 1) y ≤ (1 - x) + y + max (1 - x) y ∧
      grad2D h01 x (y - 1) ≤ max (x - 2 * (1 - y)) ((1 - y) - 2 * x) ∧
      grad2D h11 (x - 1) (y - 1) ≤ 2 * (1 - x) + (1 - y) := by
  have m1 := le_max_left (1 - x) y
  have m2 := le_max_right (1 - x) y
  have m3 := le_max_left (x - 2 * (1 - y)) ((1 - y) - 2 * x)
  have m4 := le_max_right (x - 2 * (1 - y)) ((1 - y) - 2 * x)
  refine ⟨?_, ?_, ?_, ?_⟩
  · rcases h00.and_three_cases with h | h | h | h
    · rw [grad2D_and0 h]
    · rw [grad2D_and1 h]; linarith
    · rw [grad2D_and2 h]; linarith
    · rw [grad2D_and3 h]; linarith
  · rcases h10.and_three_cases with h | h | h | h
    · rw [grad2D_and0 h]; linarith
    · rw [grad2D_and1 h]; linarith
    · rw [grad2D_and2 h]; linarith
    · rw [grad2D_and3 h]; linarith
  · rcases h01.and_three_cases with h | h | h | h
    · rw [grad2D_and0 h]; linarith
    · rw [grad2D_and1 h]; linarith
    · rw [grad2D_and2 h]; linarith
    · rw [grad2D_and3 h]; linarith
  · rcases h11.and_three_cases with h | h | h | h
    · rw [grad2D_and0 h]; linarith
    · rw [grad2D_and1 h]; linarith
    · rw [grad2D_and2 h]; linarith
    · rw [grad2D_and3 h]; linarith

/-- The negated corner dot products obey the same bounds with the roles of
the two axes exchanged. -/
theorem grad2D_lower (h00 h10 h01 h11 : Val) {x y : α}
    (hx0 : 0 ≤ x) (hx1 : x ≤ 1) (hy0 : 0 ≤ y) (hy1 : y ≤ 1) :
    -grad2D h00 x y ≤ y + 2 * x ∧
      -grad2D h01 x (y - 1) ≤ (1 - y) + x + max (1 - y) x ∧
      -grad2D h10 (x - 1) y ≤ max (y - 2 * (1 - x)) ((1 - x) - 2 * y) ∧
      -grad2D h11 (x - 1) (y - 1) ≤ 2 * (1 - y) + (1 - x) := by
  have m1 := le_max_left (1 - y) x
  have m2 := le_max_right (1 - y) x
  have m3 := le_max_left (y - 2 * (1 - x)) ((1 - x) - 2 * y)
  have m4 := le_max_right (y - 2 * (1 - x)) ((1 - x) - 2 * y)
  refine ⟨?_, ?_, ?_, ?_⟩
  · rcases h00.and_three_cases with h | h | h | h
    · rw [grad2D_and0 h]; linarith
    · rw [grad2D_and1 h]; linarith
    · rw [grad2D_and2 h]; linarith
    · rw [grad2D_and3 h]; linarith
  · rcases h01.and_three_cases with h | h | h | h
    · rw [grad2D_and0 h]; linarith
    · rw [grad2D_and1 h]; linarith
    · rw [grad2D_and2 h]; linarith
    · rw [grad2D_and3 h]; linarith
  · rcases h10.and_three_cases with h | h | h | h
    · rw [grad2D_and0 h]; linarith
    · rw [grad2D_and1 h]; linarith
    · rw [grad2D_and2 h]; linarith
    · rw [grad2D_and3 h]; linarith
  · rcases h11.and_three_cases with h | h | h | h
    · rw [grad2D_and0 h]; linarith
    · rw [grad2D_and1 h]; linarith
    · rw [grad2D_and2 h]; linarith
    · rw [grad2D_and3 h]; linarith

/-- The blend of `noise2D` stays in `[-3/2, 3/2]` for any four hashes and any
offsets in the unit square. -/
theorem blend_range (h00 h10 h01 h11 : Val) {x y : α}
    (hx0 : 0 ≤ x) (hx1 : x ≤ 1) (hy0 : 0 ≤ y) (hy1 : y ≤ 1) :
    -(3 / 2) ≤ lerp (fade y) (lerp (fade x) (grad2D h00 x y) (grad2D h10 (x - 1) y))
        (lerp (fade x) (grad2D h01 x (y - 1)) (grad2D h11 (x - 1) (y - 1))) ∧
      lerp (fade y) (lerp (fade x) (grad2D h00 x y) (grad2D h10 (x - 1) y))
        (lerp (fade x) (grad2D h01 x (y - 1)) (grad2D h11 (x - 1) (y - 1))) ≤ 3 / 2 := by
  constructor
  · obtain ⟨la, lc, lb, ld⟩ := grad2D_lower h00 h10 h01 h11 hx0 hx1 hy0 hy1
    have h := blend_le hy0 hy1 hx0 hx1 la lc lb ld
    have e : lerp (fade x) (lerp (fade y) (-grad2D h00 x y) (-grad2D h01 x (y - 1)))
        (lerp (fade y) (-grad2D h10 (x - 1) y) (-grad2D h11 (x - 1) (y - 1))) =
        -lerp (fade y) (lerp (fade x) (grad2D h00 x y) (grad2D h10 (x - 1) y))
          (lerp (fade x) (grad2D h01 x (y - 1)) (grad2D h11 (x - 1) (y - 1))) := by
      unfold lerp
      ring
    rw [e] at h
    linarith
  · obtain ⟨ua, ub, uc, ud⟩ := grad2D_upper h00 h10 h01 h11 hx0 hx1 hy0 hy1
    exact blend_le hx0 hx1 hy0 hy1 ua ub uc ud

end Corners

/-! ### The jump across the line `x = 0` -/

theorem floor_zero_real : ⌊(0 : ℝ)⌋ = 0 := Int.floor_zero

set_option maxRecDepth 100000 in
theorem pAt_origin :
    pAt (Val.int 0) = Val.int 151 ∧ pAt (Val.int 151) = Val.int 17 ∧
      pAt (Val.int 152) = Val.int 182 := by
  decide

/-- Value of `noise2D` on the line `x = 0` at `y = 1/2`. -/
theorem noise2D_zero_half : noise2D (0 : ℝ) (1 / 2) = 1 / 4 := by
  obtain ⟨h0, h151, h152⟩ := pAt_origin
  have hX : cellIndex (0 : ℝ) = 0 := by
    rw [cellIndex_of_floor floor_zero_real]; decide
  have hfx : cellOffset (0 : ℝ) = 0 := by
    rw [cellOffset_of_floor floor_zero_real]; norm_num
  have hA : indexA (0 : ℝ) (1 / 2) = Val.int 151 := by
    unfold indexA
    rw [hX, cellIndex_half, h0]
    rfl
  have hA1 : (Val.int 151).add 1 = Val.int 152 := rfl
  have e17 : (Val.int 17).and 3 = 1 := by decide
  have e182 : (Val.int 182).and 3 = 2 := by decide
  have hf0 : fade (0 : ℝ) = 0 := by unfold fade; ring
  have hl : ∀ a b : ℝ, lerp 0 a b = a := by intro a b; unfold lerp; ring
  simp only [noise2D, hA, hfx, cellOffset_half, hA1, h151, h152, grad2D_and1 e17,
    grad2D_and2 e182, hf0, hl]
  unfold fade lerp
  norm_num

/-- Value of `noise2D` in the cell to the left of the line `x = 0`, at `y = 1/2`. -/
theorem noise2D_left_of_zero {e : ℝ} (h1 : -1 < e) (h0 : e < 0) :
    noise2D (0 + e) (1 / 2) =
      lerp (1 / 2) (lerp (fade (e + 1)) (-(1 / 2) - 2 * (e + 1)) (e + 1))
        (lerp (fade (e + 1)) (-(1 / 2) - 2 * (e + 1)) (e - 1)) := by
  obtain ⟨h255, h256, h180, h181, hnan⟩ := pAt_samples
  have hfl : ⌊(0 + e : ℝ)⌋ = -1 := by
    rw [Int.floor_eq_iff]
    constructor
    · push_cast; linarith
    · push_cast; linarith
  have hX : cellIndex (0 + e : ℝ) = 255 := by
    rw [cellIndex_of_floor hfl]; decide
  have hfx : cellOffset (0 + e : ℝ) = e + 1 := by
    rw [cellOffset_of_floor hfl]; push_cast; ring
  have hA : indexA (0 + e : ℝ) (1 / 2) = Val.int 180 := by
    unfold indexA
    rw [hX, cellIndex_half, h255]
    rfl
  have hB : indexB (0 + e : ℝ) (1 / 2) = Val.nan := by
    unfold indexB
    rw [hX, cellIndex_half]
    have h : (255 : ℤ) + 1 = 256 := rfl
    rw [h, h256]
    rfl
  have hA1 : (Val.int 180).add 1 = Val.int 181 := rfl
  have hB1 : Val.nan.add 1 = Val.nan := rfl
  have e19 : (Val.int 19).and 3 = 3 := by decide
  have e98 : (Val.int 98).and 3 = 2 := by decide
  have eu : Val.undefined.and 3 = 0 := by decide
  have hfh : fade (1 / 2 : ℝ) = 1 / 2 := by unfold fade; norm_num
  simp only [noise2D, hA, hB, hfx, cellOffset_half, hA1, hB1, h180, h181, hnan,
    grad2D_and3 e19, grad2D_and2 e98, grad2D_and0 eu, hfh]
  unfold lerp fade
  ring

/-! ### Agreement with the evaluation on JavaScript values -/

theorem toInt32_emod (n : ℤ) : toInt32 n % 4294967296 = n % 4294967296 := by
  unfold toInt32
  simp only []
  split <;> omega

theorem bitAnd_toInt32 (a b : ℤ) : bitAnd (toInt32 a) (toInt32 b) = bitAnd a b := by
  unfold bitAnd
  rw [toInt32_emod, toInt32_emod]

namespace JSVal

variable {α : Type} [LinearOrderedField α]

theorem add_ofVal (v : Val) (k : ℤ) :
    add (ofVal v : JSVal α) (num (k : α)) = ofVal (v.add k) := by
  cases v with
  | undefined => rfl
  | nan => rfl
  | int n => simp [add, toNumber, ofVal, Val.add]

theorem fade_num (t : α) : fade (num t) = num (ProceduralMountain.fade t) := rfl

theorem lerp_num (t a b : α) :
    lerp (num t) (num a) (num b) = num (ProceduralMountain.lerp t a b) := rfl

variable [FloorRing α]

theorem toInt32_intCast (k : ℤ) : toInt32 (num (k : α)) = ProceduralMountain.toInt32 k := by
  simp [toInt32, toNumber]

theorem toInt32_ofVal (v : Val) :
    toInt32 (ofVal v : JSVal α) = ProceduralMountain.toInt32 v.toInt := by
  cases v with
  | undefined => rfl
  | nan => rfl
  | int n => exact toInt32_intCast n

theorem band_intCast (a b : ℤ) :
    band (num (a : α)) (num (b : α)) = num ((bitAnd a b : ℤ) : α) := by
  unfold band
  rw [toInt32_intCast, toInt32_intCast, bitAnd_toInt32]

theorem band_ofVal (v : Val) (k : ℤ) :
    band (ofVal v : JSVal α) (num (k : α)) = num ((v.and k : ℤ) : α) := by
  unfold band
  rw [toInt32_ofVal, toInt32_intCast, bitAnd_toInt32]
  rfl

theorem index_ofVal (v : Val) : index (ofVal v : JSVal α) = ofVal (pAt v) := by
  cases v with
  | undefined => rfl
  | nan => rfl
  | int n =>
    show index (num (n : α)) = ofVal (pAt (Val.int n))
    unfold index pAt
    simp only []
    rw [Int.floor_intCast]
    by_cases hn : n < 0
    · rw [if_neg (by intro h; omega), if_pos hn]
      rfl
    · rw [if_pos ⟨rfl, by omega⟩, if_neg hn]
      generalize p[n.toNat]? = o
      cases o with
      | none => rfl
      | some w =>
        show num (w : α) = num (((w : ℕ) : ℤ) : α)
        rw [Int.cast_natCast]

theorem grad2D_ofVal (v : Val) (x y : α) :
    grad2D (ofVal v) (num x) (num y) = num (ProceduralMountain.grad2D v x y) := by
  have e3 : (3 : α) = ((3 : ℤ) : α) := by norm_num
  have e2 : (2 : α) = ((2 : ℤ) : α) := by norm_num
  have e1 : (1 : α) = ((1 : ℤ) : α) := by norm_num
  unfold grad2D
  simp only []
  rw [e3, band_ofVal, e1, e2, band_intCast, band_intCast]
  rcases v.and_three_cases with h | h | h | h
  · have h1 : bitAnd 0 1 = 0 := by decide
    have h2 : bitAnd 0 2 = 0 := by decide
    rw [grad2D_and0 h, h, h1, h2]
    simp [lt, toNumber, truthy, add, mul]
  · have h1 : bitAnd 1 1 = 1 := by decide
    have h2 : bitAnd 1 2 = 0 := by decide
    rw [grad2D_and1 h, h, h1, h2]
    simp [lt, toNumber, truthy, add, mul, neg]
  · have h1 : bitAnd 2 1 = 0 := by decide
    have h2 : bitAnd 2 2 = 2 := by decide
    rw [grad2D_and2 h, h, h1, h2]
    norm_num [lt, toNumber, truthy, add, mul]
    ring
  · have h1 : bitAnd 3 1 = 1 := by decide
    have h2 : bitAnd 3 2 = 2 := by decide
    rw [grad2D_and3 h, h, h1, h2]
    norm_num [lt, toNumber, truthy, add, mul, neg]
    ring

theorem noise2D_num (x y : α) :
    noise2D (num x) (num y) = num (ProceduralMountain.noise2D x y) := by
  have e255 : (255 : α) = ((255 : ℤ) : α) := by norm_num
  have e1 : (1 : α) = ((1 : ℤ) : α) := by norm_num
  have hX : band (floor (num x)) (num (255 : α)) = ofVal (Val.int (cellIndex x)) := by
    rw [e255]
    exact band_intCast _ _
  have hY : band (floor (num y)) (num (255 : α)) = num ((cellIndex y : ℤ) : α) := by
    rw [e255]
    exact band_intCast _ _
  have hX1 : add (ofVal (Val.int (cellIndex x)) : JSVal α) (num 1) =
      ofVal (Val.int (cellIndex x + 1)) := by
    rw [e1, add_ofVal]
    rfl
  have hfx : sub (num x) (floor (num x)) = num (cellOffset x) := rfl
  have hfy : sub (num y) (floor (num y)) = num (cellOffset y) := rfl
  have hs : ∀ t : α, sub (num t) (num 1) = num (t - 1) := fun _ => rfl
  have hadd1 : ∀ v : Val, add (ofVal v : JSVal α) (num 1) = ofVal (v.add 1) := by
    intro v
    rw [e1, add_ofVal]
  unfold noise2D
  simp only [hX, hY, hX1, hfx, hfy, hs, hadd1, add_ofVal, index_ofVal, grad2D_ofVal, fade_num,
    lerp_num]
  rfl

end JSVal

/-! ### Continuity across the lattice lines inside one period -/

section CellFacts

variable {α : Type} [LinearOrderedField α]

theorem Val.add_add_one (v : Val) (Y : ℤ) : (v.add Y).add 1 = v.add (Y + 1) := by
  cases v with
  | undefined => rfl
  | nan => rfl
  | int n =>
    show Val.int (n + Y + 1) = Val.int (n + (Y + 1))
    rw [add_assoc]

theorem fade_zero : fade (0 : α) = 0 := by
  unfold fade
  ring

theorem fade_one : fade (1 : α) = 1 := by
  unfold fade
  ring

theorem lerp_zero (a b : α) : lerp 0 a b = a := by
  unfold lerp
  ring

theorem lerp_one (a b : α) : lerp 1 a b = b := by
  unfold lerp
  ring

/-- The right edge of a cell carries the values of the left edge of the cell
with the next index. -/
theorem cellNoise_one_left (X Y : ℤ) (fy : α) :
    cellNoise X Y 1 fy = cellNoise (X + 1) Y 0 fy := by
  simp only [cellNoise, fade_zero, fade_one, lerp_zero, lerp_one, sub_self]

/-- The upper edge of a cell carries the values of the lower edge of the cell
with the next index. -/
theorem cellNoise_one_up (X Y : ℤ) (fx : α) :
    cellNoise X Y fx 1 = cellNoise X (Y + 1) fx 0 := by
  simp only [cellNoise, fade_zero, fade_one, lerp_zero, lerp_one, sub_self, Val.add_add_one]

variable [FloorRing α]

theorem noise2D_eq_cellNoise (x y : α) :
    noise2D x y = cellNoise (cellIndex x) (cellIndex y) (cellOffset x) (cellOffset y) := rfl

theorem cellIndex_intCast (n : ℤ) : cellIndex (n : α) = n % 256 := by
  rw [cellIndex_eq, Int.floor_intCast]

end CellFacts

theorem continuous_grad2D (h : Val) {f g : ℝ → ℝ} (hf : Continuous f) (hg : Continuous g) :
    Continuous (fun s => grad2D h (f s) (g s)) := by
  rcases h.and_three_cases with hk | hk | hk | hk
  · simp only [grad2D_and0 hk]
    fun_prop
  · simp only [grad2D_and1 hk]
    fun_prop
  · simp only [grad2D_and2 hk]
    fun_prop
  · simp only [grad2D_and3 hk]
    fun_prop

theorem continuous_fade {f : ℝ → ℝ} (hf : Continuous f) : Continuous (fun s => fade (f s)) := by
  unfold fade
  fun_prop

theorem continuous_lerp {t a b : ℝ → ℝ} (ht : Continuous t) (ha : Continuous a)
    (hb : Continuous b) : Continuous (fun s => lerp (t s) (a s) (b s)) := by
  unfold lerp
  fun_prop

theorem continuous_cellNoise (X Y : ℤ) {f g : ℝ → ℝ} (hf : Continuous f) (hg : Continuous g) :
    Continuous (fun s => cellNoise X Y (f s) (g s)) := by
  unfold cellNoise
  have hf1 : Continuous (fun s => f s - 1) := hf.sub continuous_const
  have hg1 : Continuous (fun s => g s - 1) := hg.sub continuous_const
  exact continuous_lerp (continuous_fade hg)
    (continuous_lerp (continuous_fade hf) (continuous_grad2D _ hf hg)
      (continuous_grad2D _ hf1 hg))
    (continuous_lerp (continuous_fade hf) (continuous_grad2D _ hf hg1)
      (continuous_grad2D _ hf1 hg1))

theorem floor_of_mem_Ioo_right {n : ℤ} {x : ℝ} (hx : x ∈ Set.Ioo (n : ℝ) (n + 1)) : ⌊x⌋ = n := by
  rw [Int.floor_eq_iff]
  exact ⟨hx.1.le, hx.2⟩

theorem floor_of_mem_Ioo_left {n : ℤ} {x : ℝ} (hx : x ∈ Set.Ioo ((n : ℝ) - 1) n) :
    ⌊x⌋ = n - 1 := by
  rw [Int.floor_eq_iff]
  push_cast
  exact ⟨hx.1.le, by linarith [hx.2]⟩

theorem tendsto_of_eventuallyEq {f g : ℝ → ℝ} {l : Filter ℝ} {a : ℝ} (hl : l ≤ nhds a)
    (hg : Continuous g) (hfg : g =ᶠ[l] f) : Filter.Tendsto f l (nhds (g a)) :=
  ((hg.tendsto a).mono_left hl).congr' hfg

/-- From the right `noise2D` is continuous in `x` at every lattice line. -/
theorem noise2D_tendsto_right_x (n : ℤ) (t : ℝ) :
    Filter.Tendsto (fun x : ℝ => noise2D x t) (nhdsWithin (n : ℝ) (Set.Ioi (n : ℝ)))
      (nhds (noise2D (n : ℝ) t)) := by
  have hg : Continuous (fun x : ℝ =>
      cellNoise (n % 256) (cellIndex t) (x - (n : ℝ)) (cellOffset t)) :=
    continuous_cellNoise _ _ (continuous_id.sub continuous_const) continuous_const
  have hmem : Set.Ioo (n : ℝ) (n + 1) ∈ nhdsWithin (n : ℝ) (Set.Ioi (n : ℝ)) :=
    Ioo_mem_nhdsWithin_Ioi' (by linarith)
  have hev : (fun x : ℝ => cellNoise (n % 256) (cellIndex t) (x - (n : ℝ)) (cellOffset t))
      =ᶠ[nhdsWithin (n : ℝ) (Set.Ioi (n : ℝ))] (fun x : ℝ => noise2D x t) := by
    filter_upwards [hmem] with x hx
    have hfl := floor_of_mem_Ioo_right hx
    rw [noise2D_eq_cellNoise, cellIndex_of_floor hfl, cellOffset_of_floor hfl]
  have h := tendsto_of_eventuallyEq nhdsWithin_le_nhds hg hev
  have hval : cellNoise (n % 256) (cellIndex t) ((n : ℝ) - (n : ℝ)) (cellOffset t) =
      noise2D (n : ℝ) t := by
    rw [noise2D_eq_cellNoise, cellIndex_intCast, cellOffset_intCast, sub_self]
  rw [← hval]
  exact h

/-- From the right `noise2D` is continuous in `y` at every lattice line. -/
theorem noise2D_tendsto_right_y (n : ℤ) (t : ℝ) :
    Filter.Tendsto (fun y : ℝ => noise2D t y) (nhdsWithin (n : ℝ) (Set.Ioi (n : ℝ)))
      (nhds (noise2D t (n : ℝ))) := by
  have hg : Continuous (fun y : ℝ =>
      cellNoise (cellIndex t) (n % 256) (cellOffset t) (y - (n : ℝ))) :=
    continuous_cellNoise _ _ continuous_const (continuous_id.sub continuous_const)
  have hmem : Set.Ioo (n : ℝ) (n + 1) ∈ nhdsWithin (n : ℝ) (Set.Ioi (n : ℝ)) :=
    Ioo_mem_nhdsWithin_Ioi' (by linarith)
  have hev : (fun y : ℝ => cellNoise (cellIndex t) (n % 256) (cellOffset t) (y - (n : ℝ)))
      =ᶠ[nhdsWithin (n : ℝ) (Set.Ioi (n : ℝ))] (fun y : ℝ => noise2D t y) := by
    filter_upwards [hmem] with y hy
    have hfl := floor_of_mem_Ioo_right hy
    rw [noise2D_eq_cellNoise, cellIndex_of_floor hfl, cellOffset_of_floor hfl]
  have h := tendsto_of_eventuallyEq nhdsWithin_le_nhds hg hev
  have hval : cellNoise (cellIndex t) (n % 256) (cellOffset t) ((n : ℝ) - (n : ℝ)) =
      noise2D t (n : ℝ) := by
    rw [noise2D_eq_cellNoise, cellIndex_intCast, cellOffset_intCast, sub_self]
  rw [← hval]
  exact h

/-- From the left `noise2D` is continuous in `x` at the lattice lines that are
not multiples of 256. -/
theorem noise2D_tendsto_left_x (n : ℤ) (hn : n % 256 ≠ 0) (t : ℝ) :
    Filter.Tendsto (fun x : ℝ => noise2D x t) (nhdsWithin (n : ℝ) (Set.Iio (n : ℝ)))
      (nhds (noise2D (n : ℝ) t)) := by
  have hg : Continuous (fun x : ℝ =>
      cellNoise ((n - 1) % 256) (cellIndex t) (x - ((n : ℝ) - 1)) (cellOffset t)) :=
    continuous_cellNoise _ _ (continuous_id.sub continuous_const) continuous_const
  have hmem : Set.Ioo ((n : ℝ) - 1) n ∈ nhdsWithin (n : ℝ) (Set.Iio (n : ℝ)) :=
    Ioo_mem_nhdsWithin_Iio' (by linarith)
  have hev : (fun x : ℝ =>
        cellNoise ((n - 1) % 256) (cellIndex t) (x - ((n : ℝ) - 1)) (cellOffset t))
      =ᶠ[nhdsWithin (n : ℝ) (Set.Iio (n : ℝ))] (fun x : ℝ => noise2D x t) := by
    filter_upwards [hmem] with x hx
    have hfl := floor_of_mem_Ioo_left hx
    rw [noise2D_eq_cellNoise, cellIndex_of_floor hfl, cellOffset_of_floor hfl]
    push_cast
    rfl
  have h := tendsto_of_eventuallyEq nhdsWithin_le_nhds hg hev
  have hidx : (n - 1) % 256 + 1 = n % 256 := by omega
  have hval : cellNoise ((n - 1) % 256) (cellIndex t) ((n : ℝ) - ((n : ℝ) - 1)) (cellOffset t) =
      noise2D (n : ℝ) t := by
    have e : (n : ℝ) - ((n : ℝ) - 1) = 1 := by ring
    rw [e, cellNoise_one_left, hidx, noise2D_eq_cellNoise, cellIndex_intCast,
      cellOffset_intCast]
  rw [← hval]
  exact h

/-- From the left `noise2D` is continuous in `y` at the lattice lines that are
not multiples of 256. -/
theorem noise2D_tendsto_left_y (n : ℤ) (hn : n % 256 ≠ 0) (t : ℝ) :
    Filter.Tendsto (fun y : ℝ => noise2D t y) (nhdsWithin (n : ℝ) (Set.Iio (n : ℝ)))
      (nhds (noise2D t (n : ℝ))) := by
  have hg : Continuous (fun y : ℝ =>
      cellNoise (cellIndex t) ((n - 1) % 256) (cellOffset t) (y - ((n : ℝ) - 1))) :=
    continuous_cellNoise _ _ continuous_const (continuous_id.sub continuous_const)
  have hmem : Set.Ioo ((n : ℝ) - 1) n ∈ nhdsWithin (n : ℝ) (Set.Iio (n : ℝ)) :=
    Ioo_mem_nhdsWithin_Iio' (by linarith)
  have hev : (fun y : ℝ =>
        cellNoise (cellIndex t) ((n - 1) % 256) (cellOffset t) (y - ((n : ℝ) - 1)))
      =ᶠ[nhdsWithin (n : ℝ) (Set.Iio (n : ℝ))] (fun y : ℝ => noise2D t y) := by
    filter_upwards [hmem] with y hy
    have hfl := floor_of_mem_Ioo_left hy
    rw [noise2D_eq_cellNoise, cellIndex_of_floor hfl, cellOffset_of_floor hfl]
    push_cast
    rfl
  have h := tendsto_of_eventuallyEq nhdsWithin_le_nhds hg hev
  have hidx : (n - 1) % 256 + 1 = n % 256 := by omega
  have hval : cellNoise (cellIndex t) ((n - 1) % 256) (cellOffset t) ((n : ℝ) - ((n : ℝ) - 1)) =
      noise2D t (n : ℝ) := by
    have e : (n : ℝ) - ((n : ℝ) - 1) = 1 := by ring
    rw [e, cellNoise_one_up, hidx, noise2D_eq_cellNoise, cellIndex_intCast,
      cellOffset_intCast]
  rw [← hval]
  exact h

theorem readTable_p (v : Val) : readTable p v = pAt v := by
  cases v with
  | undefined => rfl
  | nan => rfl
  | int n =>
    unfold readTable pAt
    simp only []

theorem noise2DOn_p {α : Type} [LinearOrderedField α] [FloorRing α] (x y : α) :
    noise2DOn p x y = noise2D x y := by
  simp only [noise2DOn, noise2D, indexA, indexB, readTable_p]

theorem fade_hasDerivAt (t : ℝ) :
    HasDerivAt (fun s : ℝ => fade s) (30 * t ^ 4 - 60 * t ^ 3 + 30 * t ^ 2) t := by
  have e : (fun s : ℝ => fade s) = fun s => 6 * s ^ 5 - 15 * s ^ 4 + 10 * s ^ 3 := by
    funext s
    unfold fade
    ring
  rw [e]
  have h := (((hasDerivAt_pow 5 t).const_mul 6).sub ((hasDerivAt_pow 4 t).const_mul 15)).add
    ((hasDerivAt_pow 3 t).const_mul 10)
  convert h using 1
  norm_num
  ring

theorem deriv_fade : deriv (fun s : ℝ => fade s) = fun t => 30 * t ^ 4 - 60 * t ^ 3 + 30 * t ^ 2 :=
  funext fun t => (fade_hasDerivAt t).deriv

theorem deriv_fade_hasDerivAt (t : ℝ) :
    HasDerivAt (deriv (fun s : ℝ => fade s)) (120 * t ^ 3 - 180 * t ^ 2 + 60 * t) t := by
  rw [deriv_fade]
  have h := (((hasDerivAt_pow 4 t).const_mul 30).sub ((hasDerivAt_pow 3 t).const_mul 60)).add
    ((hasDerivAt_pow 2 t).const_mul 30)
  convert h using 1
  norm_num
  ring

theorem floor_add_half (m : ℤ) : ⌊(m : ℝ) + 1 / 2⌋ = m := by
  rw [Int.floor_eq_iff]
  constructor <;> linarith

theorem sign_pos {h : ℝ} (hh : 0 < h) : sign h = 1 := by
  unfold sign
  rw [if_pos hh]

theorem sign_neg {h : ℝ} (hh : h < 0) : sign h = -1 := by
  unfold sign
  rw [if_neg (not_lt.mpr hh.le), if_pos hh]

theorem sign_zero : sign (0 : ℝ) = 0 := by
  unfold sign
  simp

theorem sharpen_pos {h : ℝ} (hh : 0 < h) : 0 < sharpen (fun a b : ℝ => a ^ b) h := by
  unfold sharpen
  rw [sign_pos hh]
  have hb : 0 < |h| / 100 := by positivity
  have := Real.rpow_pos_of_pos hb 1.3
  positivity

theorem sharpen_neg_of_neg {h : ℝ} (hh : h < 0) : sharpen (fun a b : ℝ => a ^ b) h < 0 := by
  unfold sharpen
  rw [sign_neg hh]
  have hb : 0 < |h| / 100 := by
    have : 0 < |h| := abs_pos.mpr hh.ne
    positivity
  have := Real.rpow_pos_of_pos hb 1.3
  nlinarith

theorem sharpen_zero : sharpen (fun a b : ℝ => a ^ b) 0 = 0 := by
  unfold sharpen
  rw [sign_zero, mul_zero]

section Tight

theorem bern_term_nonneg {c y r : ℝ} (hc : 0 ≤ c) (hy : 0 ≤ y) (hr : 0 ≤ r) (j k : ℕ) :
    0 ≤ c * (y ^ j * r ^ k) :=
  mul_nonneg hc (mul_nonneg (pow_nonneg hy j) (pow_nonneg hr k))

theorem bern_row_nonneg {r r' c0 c1 c2 c3 c4 c5 c6 c7 : ℝ} (hr : 0 ≤ r) (hr' : 0 ≤ r')
    (h0 : 0 ≤ c0) (h1 : 0 ≤ c1) (h2 : 0 ≤ c2) (h3 : 0 ≤ c3) (h4 : 0 ≤ c4) (h5 : 0 ≤ c5)
    (h6 : 0 ≤ c6) (h7 : 0 ≤ c7) :
    0 ≤ c0 * (r ^ (0 : ℕ) * r' ^ (7 : ℕ)) + c1 * (r ^ (1 : ℕ) * r' ^ (6 : ℕ)) +
      c2 * (r ^ (2 : ℕ) * r' ^ (5 : ℕ)) + c3 * (r ^ (3 : ℕ) * r' ^ (4 : ℕ)) +
      c4 * (r ^ (4 : ℕ) * r' ^ (3 : ℕ)) + c5 * (r ^ (5 : ℕ) * r' ^ (2 : ℕ)) +
      c6 * (r ^ (6 : ℕ) * r' ^ (1 : ℕ)) + c7 * (r ^ (7 : ℕ) * r' ^ (0 : ℕ)) := by
  have t := fun (c : ℝ) (hc : 0 ≤ c) (j k : ℕ) => bern_term_nonneg hc hr hr' j k
  exact add_nonneg (add_nonneg (add_nonneg (add_nonneg (add_nonneg (add_nonneg (add_nonneg
    (t _ h0 _ _) (t _ h1 _ _)) (t _ h2 _ _)) (t _ h3 _ _)) (t _ h4 _ _)) (t _ h5 _ _)) (t _ h6 _ _))
    (t _ h7 _ _)

/-- Tensor Bernstein form of degree 7 of `6 / 5` minus the blend of the
largest corner dot products, on the part `0 ≤ x ≤ 1 / 2`, `0 ≤ y ≤ 1 / 2` of the unit
square. -/
theorem blend_cert_lo_lo {x y : ℝ} (hxa : 0 ≤ x) (hxb : x ≤ 1 / 2) (hyc : 0 ≤ y)
    (hyd : y ≤ 1 / 2) :
    lerp (fade y) (lerp (fade x) (x + 2 * y) ((1 - x) + 2 * y))
      (lerp (fade x) (x - 2 * (1 - y)) (2 * (1 - x) + (1 - y))) ≤ 6 / 5 := by
  obtain ⟨s, hs⟩ : ∃ s : ℝ, s = x - 0 := ⟨_, rfl⟩
  obtain ⟨s', hs'⟩ : ∃ s' : ℝ, s' = 1 / 2 - x := ⟨_, rfl⟩
  obtain ⟨r, hr⟩ : ∃ r : ℝ, r = y - 0 := ⟨_, rfl⟩
  obtain ⟨r', hr'⟩ : ∃ r' : ℝ, r' = 1 / 2 - y := ⟨_, rfl⟩
  have hs0 : 0 ≤ s := by rw [hs]; exact sub_nonneg.mpr hxa
  have hs0' : 0 ≤ s' := by rw [hs']; exact sub_nonneg.mpr hxb
  have hr0 : 0 ≤ r := by rw [hr]; exact sub_nonneg.mpr hyc
  have hr0' : 0 ≤ r' := by rw [hr']; exact sub_nonneg.mpr hyd
  have key : 6 / 5 - lerp (fade y) (lerp (fade x) (x + 2 * y) ((1 - x) + 2 * y))
      (lerp (fade x) (x - 2 * (1 - y)) (2 * (1 - x) + (1 - y))) =
        s ^ (0 : ℕ) * s' ^ (7 : ℕ) *
          (98304 / 5 * (r ^ (0 : ℕ) * r' ^ (7 : ℕ)) + 606208 / 5 * (r ^ (1 : ℕ) * r' ^ (6 : ℕ)) +
            1572864 / 5 * (r ^ (2 : ℕ) * r' ^ (5 : ℕ)) + 483328 * (r ^ (3 : ℕ) * r' ^ (4 : ℕ)) +
            493568 * (r ^ (4 : ℕ) * r' ^ (3 : ℕ)) + 1634304 / 5 * (r ^ (5 : ℕ) * r' ^ (2 : ℕ)) +
            616448 / 5 * (r ^ (6 : ℕ) * r' ^ (1 : ℕ)) + 98304 / 5 * (r ^ (7 : ℕ) * r' ^ (0 : ℕ))) +
        s ^ (1 : ℕ) * s' ^ (6 : ℕ) *
          (647168 / 5 * (r ^ (0 : ℕ) * r' ^ (7 : ℕ)) + 3956736 / 5 * (r ^ (1 : ℕ) * r' ^ (6 : ℕ)) +
            10149888 / 5 * (r ^ (2 : ℕ) * r' ^ (5 : ℕ)) + 3096576 * (r ^ (3 : ℕ) * r' ^ (4 : ℕ)) +
            3168256 * (r ^ (4 : ℕ) * r' ^ (3 : ℕ)) + 10579968 / 5 * (r ^ (5 : ℕ) * r' ^ (2 : ℕ)) +
            4028416 / 5 * (r ^ (6 : ℕ) * r' ^ (1 : ℕ)) + 647168 / 5 * (r ^ (7 : ℕ) * r' ^ (0 : ℕ))) +
        s ^ (2 : ℕ) * s' ^ (5 : ℕ) *
          (1818624 / 5 * (r ^ (0 : ℕ) * r' ^ (7 : ℕ)) + 11010048 / 5 * (r ^ (1 : ℕ) * r' ^ (6 : ℕ)) +
            27869184 / 5 * (r ^ (2 : ℕ) * r' ^ (5 : ℕ)) + 8429568 * (r ^ (3 : ℕ) * r' ^ (4 : ℕ)) +
            8644608 * (r ^ (4 : ℕ) * r' ^ (3 : ℕ)) + 29159424 / 5 * (r ^ (5 : ℕ) * r' ^ (2 : ℕ)) +
            11225088 / 5 * (r ^ (6 : ℕ) * r' ^ (1 : ℕ)) + 1818624 / 5 * (r ^ (7 : ℕ) * r' ^ (0 : ℕ))) +
        s ^ (3 : ℕ) * s' ^ (4 : ℕ) *
          (544768 * (r ^ (0 : ℕ) * r' ^ (7 : ℕ)) + 3239936 * (r ^ (1 : ℕ) * r' ^ (6 : ℕ)) +
            7999488 * (r ^ (2 : ℕ) * r' ^ (5 : ℕ)) + 11796480 * (r ^ (3 : ℕ) * r' ^ (4 : ℕ)) +
            11962880 * (r ^ (4 : ℕ) * r' ^ (3 : ℕ)) + 8116608 * (r ^ (5 : ℕ) * r' ^ (2 : ℕ)) +
            3165056 * (r ^ (6 : ℕ) * r' ^ (1 : ℕ)) + 519168 * (r ^ (7 : ℕ) * r' ^ (0 : ℕ))) +
        s ^ (4 : ℕ) * s' ^ (3 : ℕ) *
          (478208 * (r ^ (0 : ℕ) * r' ^ (7 : ℕ)) + 2774016 * (r ^ (1 : ℕ) * r' ^ (6 : ℕ)) +
            6601728 * (r ^ (2 : ℕ) * r' ^ (5 : ℕ)) + 9249280 * (r ^ (3 : ℕ) * r' ^ (4 : ℕ)) +
            9012480 * (r ^ (4 : ℕ) * r' ^ (3 : ℕ)) + 6064608 * (r ^ (5 : ℕ) * r' ^ (2 : ℕ)) +
            2395616 * (r ^ (6 : ℕ) * r' ^ (1 : ℕ)) + 400128 * (r ^ (7 : ℕ) * r' ^ (0 : ℕ))) +
        s ^ (5 : ℕ) * s' ^ (2 : ℕ) *
          (1281024 / 5 * (r ^ (0 : ℕ) * r' ^ (7 : ℕ)) + 7246848 / 5 * (r ^ (1 : ℕ) * r' ^ (6 : ℕ)) +
            16579584 / 5 * (r ^ (2 : ℕ) * r' ^ (5 : ℕ)) + 4295808 * (r ^ (3 : ℕ) * r' ^ (4 : ℕ)) +
            3826848 * (r ^ (4 : ℕ) * r' ^ (3 : ℕ)) + 12328704 / 5 * (r ^ (5 : ℕ) * r' ^ (2 : ℕ)) +
            4899168 / 5 * (r ^ (6 : ℕ) * r' ^ (1 : ℕ)) + 839424 / 5 * (r ^ (7 : ℕ) * r' ^ (0 : ℕ))) +
        s ^ (6 : ℕ) * s' ^ (1 : ℕ) *
          (401408 / 5 * (r ^ (0 : ℕ) * r' ^ (7 : ℕ)) + 2236416 / 5 * (r ^ (1 : ℕ) * r' ^ (6 : ℕ)) +
            4988928 / 5 * (r ^ (2 : ℕ) * r' ^ (5 : ℕ)) + 1187456 * (r ^ (3 : ℕ) * r' ^ (4 : ℕ)) +
            913056 * (r ^ (4 : ℕ) * r' ^ (3 : ℕ)) + 2623008 / 5 * (r ^ (5 : ℕ) * r' ^ (2 : ℕ)) +
            1022336 / 5 * (r ^ (6 : ℕ) * r' ^ (1 : ℕ)) + 181248 / 5 * (r ^ (7 : ℕ) * r' ^ (0 : ℕ))) +
        s ^ (7 : ℕ) * s' ^ (0 : ℕ) *
          (57344 / 5 * (r ^ (0 : ℕ) * r' ^ (7 : ℕ)) + 319488 / 5 * (r ^ (1 : ℕ) * r' ^ (6 : ℕ)) +
            712704 / 5 * (r ^ (2 : ℕ) * r' ^ (5 : ℕ)) + 160768 * (r ^ (3 : ℕ) * r' ^ (4 : ℕ)) +
            105728 * (r ^ (4 : ℕ) * r' ^ (3 : ℕ)) + 248064 / 5 * (r ^ (5 : ℕ) * r' ^ (2 : ℕ)) +
            89088 / 5 * (r ^ (6 : ℕ) * r' ^ (1 : ℕ)) + 16384 / 5 * (r ^ (7 : ℕ) * r' ^ (0 : ℕ))) := by
    rw [hs, hs', hr, hr']
    unfold lerp fade
    ring
  have h0 : 0 ≤ s ^ (0 : ℕ) * s' ^ (7 : ℕ) *
          (98304 / 5 * (r ^ (0 : ℕ) * r' ^ (7 : ℕ)) + 606208 / 5 * (r ^ (1 : ℕ) * r' ^ (6 : ℕ)) +
            1572864 / 5 * (r ^ (2 : ℕ) * r' ^ (5 : ℕ)) + 483328 * (r ^ (3 : ℕ) * r' ^ (4 : ℕ)) +
            493568 * (r ^ (4 : ℕ) * r' ^ (3 : ℕ)) + 1634304 / 5 * (r ^ (5 : ℕ) * r' ^ (2 : ℕ)) +
            616448 / 5 * (r ^ (6 : ℕ) * r' ^ (1 : ℕ)) + 98304 / 5 * (r ^ (7 : ℕ) * r' ^ (0 : ℕ))) :=
    mul_nonneg (mul_nonneg (pow_nonneg hs0 _) (pow_nonneg hs0' _))
      (bern_row_nonneg hr0 hr0' (by norm_num) (by norm_num) (by norm_num) (by norm_num) (by norm_num) (by norm_num) (by norm_num) (by norm_num))
  have h1 : 0 ≤ s ^ (1 : ℕ) * s' ^ (6 : ℕ) *
          (647168 / 5 * (r ^ (0 : ℕ) * r' ^ (7 : ℕ)) + 3956736 / 5 * (r ^ (1 : ℕ) * r' ^ (6 : ℕ)) +
            10149888 / 5 * (r ^ (2 : ℕ) * r' ^ (5 : ℕ)) + 3096576 * (r ^ (3 : ℕ) * r' ^ (4 : ℕ)) +
            3168256 * (r ^ (4 : ℕ) * r' ^ (3 : ℕ)) + 10579968 / 5 * (r ^ (5 : ℕ) * r' ^ (2 : ℕ)) +
            4028416 / 5 * (r ^ (6 : ℕ) * r' ^ (1 : ℕ)) + 647168 / 5 * (r ^ (7 : ℕ) * r' ^ (0 : ℕ))) :=
    mul_nonneg (mul_nonneg (pow_nonneg hs0 _) (pow_nonneg hs0' _))
      (bern_row_nonneg hr0 hr0' (by norm_num) (by norm_num) (by norm_num) (by norm_num) (by norm_num) (by norm_num) (by norm_num) (by norm_num))
  have h2 : 0 ≤ s ^ (2 : ℕ) * s' ^ (5 : ℕ) *
          (1818624 / 5 * (r ^ (0 : ℕ) * r' ^ (7 : ℕ)) + 11010048 / 5 * (r ^ (1 : ℕ) * r' ^ (6 : ℕ)) +
            27869184 / 5 * (r ^ (2 : ℕ) * r' ^ (5 : ℕ)) + 8429568 * (r ^ (3 : ℕ) * r' ^ (4 : ℕ)) +
            8644608 * (r ^ (4 : ℕ) * r' ^ (3 : ℕ)) + 29159424 / 5 * (r ^ (5 : ℕ) * r' ^ (2 : ℕ)) +
            11225088 / 5 * (r ^ (6 : ℕ) * r' ^ (1 : ℕ)) + 1818624 / 5 * (r ^ (7 : ℕ) * r' ^ (0 : ℕ))) :=
    mul_nonneg (mul_nonneg (pow_nonneg hs0 _) (pow_nonneg hs0' _))
      (bern_row_nonneg hr0 hr0' (by norm_num) (by norm_num) (by norm_num) (by norm_num) (by norm_num) (by norm_num) (by norm_num) (by norm_num))
  have h3 : 0 ≤ s ^ (3 : ℕ) * s' ^ (4 : ℕ) *
          (544768 * (r ^ (0 : ℕ) * r' ^ (7 : ℕ)) + 3239936 * (r ^ (1 : ℕ) * r' ^ (6 : ℕ)) +
            7999488 * (r ^ (2 : ℕ) * r' ^ (5 : ℕ)) + 11796480 * (r ^ (3 : ℕ) * r' ^ (4 : ℕ)) +
            11962880 * (r ^ (4 : ℕ) * r' ^ (3 : ℕ)) + 8116608 * (r ^ (5 : ℕ) * r' ^ (2 : ℕ)) +
            3165056 * (r ^ (6 : ℕ) * r' ^ (1 : ℕ)) + 519168 * (r ^ (7 : ℕ) * r' ^ (0 : ℕ))) :=
    mul_nonneg (mul_nonneg (pow_nonneg hs0 _) (pow_nonneg hs0' _))
      (bern_row_nonneg hr0 hr0' (by norm_num) (by norm_num) (by norm_num) (by norm_num) (by norm_num) (by norm_num) (by norm_num) (by norm_num))
  have h4 : 0 ≤ s ^ (4 : ℕ) * s' ^ (3 : ℕ) *
          (478208 * (r ^ (0 : ℕ) * r' ^ (7 : ℕ)) + 2774016 * (r ^ (1 : ℕ) * r' ^ (6 : ℕ)) +
            6601728 * (r ^ (2 : ℕ) * r' ^ (5 : ℕ)) + 9249280 * (r ^ (3 : ℕ) * r' ^ (4 : ℕ)) +
            9012480 * (r ^ (4 : ℕ) * r' ^ (3 : ℕ)) + 6064608 * (r ^ (5 : ℕ) * r' ^ (2 : ℕ)) +
            2395616 * (r ^ (6 : ℕ) * r' ^ (1 : ℕ)) + 400128 * (r ^ (7 : ℕ) * r' ^ (0 : ℕ))) :=
    mul_nonneg (mul_nonneg (pow_nonneg hs0 _) (pow_nonneg hs0' _))
      (bern_row_nonneg hr0 hr0' (by norm_num) (by norm_num) (by norm_num) (by norm_num) (by norm_num) (by norm_num) (by norm_num) (by norm_num))
  have h5 : 0 ≤ s ^ (5 : ℕ) * s' ^ (2 : ℕ) *
          (1281024 / 5 * (r ^ (0 : ℕ) * r' ^ (7 : ℕ)) + 7246848 / 5 * (r ^ (1 : ℕ) * r' ^ (6 : ℕ)) +
            16579584 / 5 * (r ^ (2 : ℕ) * r' ^ (5 : ℕ)) + 4295808 * (r ^ (3 : ℕ) * r' ^ (4 : ℕ)) +
            3826848 * (r ^ (4 : ℕ) * r' ^ (3 : ℕ)) + 12328704 / 5 * (r ^ (5 : ℕ) * r' ^ (2 : ℕ)) +
            4899168 / 5 * (r ^ (6 : ℕ) * r' ^ (1 : ℕ)) + 839424 / 5 * (r ^ (7 : ℕ) * r' ^ (0 : ℕ))) :=
    mul_nonneg (mul_nonneg (pow_nonneg hs0 _) (pow_nonneg hs0' _))
      (bern_row_nonneg hr0 hr0' (by norm_num) (by norm_num) (by norm_num) (by norm_num) (by norm_num) (by norm_num) (by norm_num) (by norm_num))
  have h6 : 0 ≤ s ^ (6 : ℕ) * s' ^ (1 : ℕ) *
          (401408 / 5 * (r ^ (0 : ℕ) * r' ^ (7 : ℕ)) + 2236416 / 5 * (r ^ (1 : ℕ) * r' ^ (6 : ℕ)) +
            4988928 / 5 * (r ^ (2 : ℕ) * r' ^ (5 : ℕ)) + 1187456 * (r ^ (3 : ℕ) * r' ^ (4 : ℕ)) +
            913056 * (r ^ (4 : ℕ) * r' ^ (3 : ℕ)) + 2623008 / 5 * (r ^ (5 : ℕ) * r' ^ (2 : ℕ)) +
            1022336 / 5 * (r ^ (6 : ℕ) * r' ^ (1 : ℕ)) + 181248 / 5 * (r ^ (7 : ℕ) * r' ^ (0 : ℕ))) :=
    mul_nonneg (mul_nonneg (pow_nonneg hs0 _) (pow_nonneg hs0' _))
      (bern_row_nonneg hr0 hr0' (by norm_num) (by norm_num) (by norm_num) (by norm_num) (by norm_num) (by norm_num) (by norm_num) (by norm_num))
  have h7 : 0 ≤ s ^ (7 : ℕ) * s' ^ (0 : ℕ) *
          (57344 / 5 * (r ^ (0 : ℕ) * r' ^ (7 : ℕ)) + 319488 / 5 * (r ^ (1 : ℕ) * r' ^ (6 : ℕ)) +
            712704 / 5 * (r ^ (2 : ℕ) * r' ^ (5 : ℕ)) + 160768 * (r ^ (3 : ℕ) * r' ^ (4 : ℕ)) +
            105728 * (r ^ (4 : ℕ) * r' ^ (3 : ℕ)) + 248064 / 5 * (r ^ (5 : ℕ) * r' ^ (2 : ℕ)) +
            89088 / 5 * (r ^ (6 : ℕ) * r' ^ (1 : ℕ)) + 16384 / 5 * (r ^ (7 : ℕ) * r' ^ (0 : ℕ))) :=
    mul_nonneg (mul_nonneg (pow_nonneg hs0 _) (pow_nonneg hs0' _))
      (bern_row_nonneg hr0 hr0' (by norm_num) (by norm_num) (by norm_num) (by norm_num) (by norm_num) (by norm_num) (by norm_num) (by norm_num))
  have hpos : 0 ≤ 6 / 5 - lerp (fade y) (lerp (fade x) (x + 2 * y) ((1 - x) + 2 * y))
      (lerp (fade x) (x - 2 * (1 - y)) (2 * (1 - x) + (1 - y))) := by
    rw [key]
    exact add_nonneg (add_nonneg (add_nonneg (add_nonneg (add_nonneg (add_nonneg (add_nonneg (h0) h1) h2) h3) h4) h5) h6) h7
  exact sub_nonneg.mp hpos

/-- Tensor Bernstein form of degree 7 of `6 / 5` minus the blend of the
largest corner dot products, on the part `0 ≤ x ≤ 1 / 2`, `1 / 2 ≤ y ≤ 1` of the unit
square. -/
theorem blend_cert_lo_hi {x y : ℝ} (hxa : 0 ≤ x) (hxb : x ≤ 1 / 2) (hyc : 1 / 2 ≤ y)
    (hyd : y ≤ 1) :
    lerp (fade y) (lerp (fade x) (x + 2 * y) ((1 - x) + 2 * y))
      (lerp (fade x) (x - 2 * (1 - y)) (2 * (1 - x) + (1 - y))) ≤ 6 / 5 := by
  obtain ⟨s, hs⟩ : ∃ s : ℝ, s = x - 0 := ⟨_, rfl⟩
  obtain ⟨s', hs'⟩ : ∃ s' : ℝ, s' = 1 / 2 - x := ⟨_, rfl⟩
  obtain ⟨r, hr⟩ : ∃ r : ℝ, r = y - 1 / 2 := ⟨_, rfl⟩
  obtain ⟨r', hr'⟩ : ∃ r' : ℝ, r' = 1 - y := ⟨_, rfl⟩
  have hs0 : 0 ≤ s := by rw [hs]; exact sub_nonneg.mpr hxa
  have hs0' : 0 ≤ s' := by rw [hs']; exact sub_nonneg.mpr hxb
  have hr0 : 0 ≤ r := by rw [hr]; exact sub_nonneg.mpr hyc
  have hr0' : 0 ≤ r' := by rw [hr']; exact sub_nonneg.mpr hyd
  have key : 6 / 5 - lerp (fade y) (lerp (fade x) (x + 2 * y) ((1 - x) + 2 * y))
      (lerp (fade x) (x - 2 * (1 - y)) (2 * (1 - x) + (1 - y))) =
        s ^ (0 : ℕ) * s' ^ (7 : ℕ) *
          (98304 / 5 * (r ^ (0 : ℕ) * r' ^ (7 : ℕ)) + 759808 / 5 * (r ^ (1 : ℕ) * r' ^ (6 : ℕ)) +
            2494464 / 5 * (r ^ (2 : ℕ) * r' ^ (5 : ℕ)) + 882688 * (r ^ (3 : ℕ) * r' ^ (4 : ℕ)) +
            892928 * (r ^ (4 : ℕ) * r' ^ (3 : ℕ)) + 2555904 / 5 * (r ^ (5 : ℕ) * r' ^ (2 : ℕ)) +
            770048 / 5 * (r ^ (6 : ℕ) * r' ^ (1 : ℕ)) + 98304 / 5 * (r ^ (7 : ℕ) * r' ^ (0 : ℕ))) +
        s ^ (1 : ℕ) * s' ^ (6 : ℕ) *
          (647168 / 5 * (r ^ (0 : ℕ) * r' ^ (7 : ℕ)) + 5031936 / 5 * (r ^ (1 : ℕ) * r' ^ (6 : ℕ)) +
            16601088 / 5 * (r ^ (2 : ℕ) * r' ^ (5 : ℕ)) + 5892096 * (r ^ (3 : ℕ) * r' ^ (4 : ℕ)) +
            5963776 * (r ^ (4 : ℕ) * r' ^ (3 : ℕ)) + 17031168 / 5 * (r ^ (5 : ℕ) * r' ^ (2 : ℕ)) +
            5103616 / 5 * (r ^ (6 : ℕ) * r' ^ (1 : ℕ)) + 647168 / 5 * (r ^ (7 : ℕ) * r' ^ (0 : ℕ))) +
        s ^ (2 : ℕ) * s' ^ (5 : ℕ) *
          (1818624 / 5 * (r ^ (0 : ℕ) * r' ^ (7 : ℕ)) + 14235648 / 5 * (r ^ (1 : ℕ) * r' ^ (6 : ℕ)) +
            47222784 / 5 * (r ^ (2 : ℕ) * r' ^ (5 : ℕ)) + 16816128 * (r ^ (3 : ℕ) * r' ^ (4 : ℕ)) +
            17031168 * (r ^ (4 : ℕ) * r' ^ (3 : ℕ)) + 48513024 / 5 * (r ^ (5 : ℕ) * r' ^ (2 : ℕ)) +
            14450688 / 5 * (r ^ (6 : ℕ) * r' ^ (1 : ℕ)) + 1818624 / 5 * (r ^ (7 : ℕ) * r' ^ (0 : ℕ))) +
        s ^ (3 : ℕ) * s' ^ (4 : ℕ) *
          (519168 * (r ^ (0 : ℕ) * r' ^ (7 : ℕ)) + 4103296 * (r ^ (1 : ℕ) * r' ^ (6 : ℕ)) +
            13746048 * (r ^ (2 : ℕ) * r' ^ (5 : ℕ)) + 24666880 * (r ^ (3 : ℕ) * r' ^ (4 : ℕ)) +
            25082880 * (r ^ (4 : ℕ) * r' ^ (3 : ℕ)) + 14266368 * (r ^ (5 : ℕ) * r' ^ (2 : ℕ)) +
            4212736 * (r ^ (6 : ℕ) * r' ^ (1 : ℕ)) + 524288 * (r ^ (7 : ℕ) * r' ^ (0 : ℕ))) +
        s ^ (4 : ℕ) * s' ^ (3 : ℕ) *
          (400128 * (r ^ (0 : ℕ) * r' ^ (7 : ℕ)) + 3206176 * (r ^ (1 : ℕ) * r' ^ (6 : ℕ)) +
            10927968 * (r ^ (2 : ℕ) * r' ^ (5 : ℕ)) + 19932480 * (r ^ (3 : ℕ) * r' ^ (4 : ℕ)) +
            20506880 * (r ^ (4 : ℕ) * r' ^ (3 : ℕ)) + 11701248 * (r ^ (5 : ℕ) * r' ^ (2 : ℕ)) +
            3426816 * (r ^ (6 : ℕ) * r' ^ (1 : ℕ)) + 421888 * (r ^ (7 : ℕ) * r' ^ (0 : ℕ))) +
        s ^ (5 : ℕ) * s' ^ (2 : ℕ) *
          (839424 / 5 * (r ^ (0 : ℕ) * r' ^ (7 : ℕ)) + 6852768 / 5 * (r ^ (1 : ℕ) * r' ^ (6 : ℕ)) +
            24050304 / 5 * (r ^ (2 : ℕ) * r' ^ (5 : ℕ)) + 9048288 * (r ^ (3 : ℕ) * r' ^ (4 : ℕ)) +
            9552768 * (r ^ (4 : ℕ) * r' ^ (3 : ℕ)) + 27661824 / 5 * (r ^ (5 : ℕ) * r' ^ (2 : ℕ)) +
            8099328 / 5 * (r ^ (6 : ℕ) * r' ^ (1 : ℕ)) + 996864 / 5 * (r ^ (7 : ℕ) * r' ^ (0 : ℕ))) +
        s ^ (6 : ℕ) * s' ^ (1 : ℕ) *
          (181248 / 5 * (r ^ (0 : ℕ) * r' ^ (7 : ℕ)) + 1515136 / 5 * (r ^ (1 : ℕ) * r' ^ (6 : ℕ)) +
            5579808 / 5 * (r ^ (2 : ℕ) * r' ^ (5 : ℕ)) + 2214816 * (r ^ (3 : ℕ) * r' ^ (4 : ℕ)) +
            2452096 * (r ^ (4 : ℕ) * r' ^ (3 : ℕ)) + 7346688 / 5 * (r ^ (5 : ℕ) * r' ^ (2 : ℕ)) +
            2190336 / 5 * (r ^ (6 : ℕ) * r' ^ (1 : ℕ)) + 275968 / 5 * (r ^ (7 : ℕ) * r' ^ (0 : ℕ))) +
        s ^ (7 : ℕ) * s' ^ (0 : ℕ) *
          (16384 / 5 * (r ^ (0 : ℕ) * r' ^ (7 : ℕ)) + 140288 / 5 * (r ^ (1 : ℕ) * r' ^ (6 : ℕ)) +
            555264 / 5 * (r ^ (2 : ℕ) * r' ^ (5 : ℕ)) + 238848 * (r ^ (3 : ℕ) * r' ^ (4 : ℕ)) +
            283648 * (r ^ (4 : ℕ) * r' ^ (3 : ℕ)) + 897024 / 5 * (r ^ (5 : ℕ) * r' ^ (2 : ℕ)) +
            278528 / 5 * (r ^ (6 : ℕ) * r' ^ (1 : ℕ)) + 36864 / 5 * (r ^ (7 : ℕ) * r' ^ (0 : ℕ))) := by
    rw [hs, hs', hr, hr']
    unfold lerp fade
    ring
  have h0 : 0 ≤ s ^ (0 : ℕ) * s' ^ (7 : ℕ) *
          (98304 / 5 * (r ^ (0 : ℕ) * r' ^ (7 : ℕ)) + 759808 / 5 * (r ^ (1 : ℕ) * r' ^ (6 : ℕ)) +
            2494464 / 5 * (r ^ (2 : ℕ) * r' ^ (5 : ℕ)) + 882688 * (r ^ (3 : ℕ) * r' ^ (4 : ℕ)) +
            892928 * (r ^ (4 : ℕ) * r' ^ (3 : ℕ)) + 2555904 / 5 * (r ^ (5 : ℕ) * r' ^ (2 : ℕ)) +
            770048 / 5 * (r ^ (6 : ℕ) * r' ^ (1 : ℕ)) + 98304 / 5 * (r ^ (7 : ℕ) * r' ^ (0 : ℕ))) :=
    mul_nonneg (mul_nonneg (pow_nonneg hs0 _) (pow_nonneg hs0' _))
      (bern_row_nonneg hr0 hr0' (by norm_num) (by norm_num) (by norm_num) (by norm_num) (by norm_num) (by norm_num) (by norm_num) (by norm_num))
  have h1 : 0 ≤ s ^ (1 : ℕ) * s' ^ (6 : ℕ) *
          (647168 / 5 * (r ^ (0 : ℕ) * r' ^ (7 : ℕ)) + 5031936 / 5 * (r ^ (1 : ℕ) * r' ^ (6 : ℕ)) +
            16601088 / 5 * (r ^ (2 : ℕ) * r' ^ (5 : ℕ)) + 5892096 * (r ^ (3 : ℕ) * r' ^ (4 : ℕ)) +
            5963776 * (r ^ (4 : ℕ) * r' ^ (3 : ℕ)) + 17031168 / 5 * (r ^ (5 : ℕ) * r' ^ (2 : ℕ)) +
            5103616 / 5 * (r ^ (6 : ℕ) * r' ^ (1 : ℕ)) + 647168 / 5 * (r ^ (7 : ℕ) * r' ^ (0 : ℕ))) :=
    mul_nonneg (mul_nonneg (pow_nonneg hs0 _) (pow_nonneg hs0' _))
      (bern_row_nonneg hr0 hr0' (by norm_num) (by norm_num) (by norm_num) (by norm_num) (by norm_num) (by norm_num) (by norm_num) (by norm_num))
  have h2 : 0 ≤ s ^ (2 : ℕ) * s' ^ (5 : ℕ) *
          (1818624 / 5 * (r ^ (0 : ℕ) * r' ^ (7 : ℕ)) + 14235648 / 5 * (r ^ (1 : ℕ) * r' ^ (6 : ℕ)) +
            47222784 / 5 * (r ^ (2 : ℕ) * r' ^ (5 : ℕ)) + 16816128 * (r ^ (3 : ℕ) * r' ^ (4 : ℕ)) +
            17031168 * (r ^ (4 : ℕ) * r' ^ (3 : ℕ)) + 48513024 / 5 * (r ^ (5 : ℕ) * r' ^ (2 : ℕ)) +
            14450688 / 5 * (r ^ (6 : ℕ) * r' ^ (1 : ℕ)) + 1818624 / 5 * (r ^ (7 : ℕ) * r' ^ (0 : ℕ))) :=
    mul_nonneg (mul_nonneg (pow_nonneg hs0 _) (pow_nonneg hs0' _))
      (bern_row_nonneg hr0 hr0' (by norm_num) (by norm_num) (by norm_num) (by norm_num) (by norm_num) (by norm_num) (by norm_num) (by norm_num))
  have h3 : 0 ≤ s ^ (3 : ℕ) * s' ^ (4 : ℕ) *
          (519168 * (r ^ (0 : ℕ) * r' ^ (7 : ℕ)) + 4103296 * (r ^ (1 : ℕ) * r' ^ (6 : ℕ)) +
            13746048 * (r ^ (2 : ℕ) * r' ^ (5 : ℕ)) + 24666880 * (r ^ (3 : ℕ) * r' ^ (4 : ℕ)) +
            25082880 * (r ^ (4 : ℕ) * r' ^ (3 : ℕ)) + 14266368 * (r ^ (5 : ℕ) * r' ^ (2 : ℕ)) +
            4212736 * (r ^ (6 : ℕ) * r' ^ (1 : ℕ)) + 524288 * (r ^ (7 : ℕ) * r' ^ (0 : ℕ))) :=
    mul_nonneg (mul_nonneg (pow_nonneg hs0 _) (pow_nonneg hs0' _))
      (bern_row_nonneg hr0 hr0' (by norm_num) (by norm_num) (by norm_num) (by norm_num) (by norm_num) (by norm_num) (by norm_num) (by norm_num))
  have h4 : 0 ≤ s ^ (4 : ℕ) * s' ^ (3 : ℕ) *
          (400128 * (r ^ (0 : ℕ) * r' ^ (7 : ℕ)) + 3206176 * (r ^ (1 : ℕ) * r' ^ (6 : ℕ)) +
            10927968 * (r ^ (2 : ℕ) * r' ^ (5 : ℕ)) + 19932480 * (r ^ (3 : ℕ) * r' ^ (4 : ℕ)) +
            20506880 * (r ^ (4 : ℕ) * r' ^ (3 : ℕ)) + 11701248 * (r ^ (5 : ℕ) * r' ^ (2 : ℕ)) +
            3426816 * (r ^ (6 : ℕ) * r' ^ (1 : ℕ)) + 421888 * (r ^ (7 : ℕ) * r' ^ (0 : ℕ))) :=
    mul_nonneg (mul_nonneg (pow_nonneg hs0 _) (pow_nonneg hs0' _))
      (bern_row_nonneg hr0 hr0' (by norm_num) (by norm_num) (by norm_num) (by norm_num) (by norm_num) (by norm_num) (by norm_num) (by norm_num))
  have h5 : 0 ≤ s ^ (5 : ℕ) * s' ^ (2 : ℕ) *
          (839424 / 5 * (r ^ (0 : ℕ) * r' ^ (7 : ℕ)) + 6852768 / 5 * (r ^ (1 : ℕ) * r' ^ (6 : ℕ)) +
            24050304 / 5 * (r ^ (2 : ℕ) * r' ^ (5 : ℕ)) + 9048288 * (r ^ (3 : ℕ) * r' ^ (4 : ℕ)) +
            9552768 * (r ^ (4 : ℕ) * r' ^ (3 : ℕ)) + 27661824 / 5 * (r ^ (5 : ℕ) * r' ^ (2 : ℕ)) +
            8099328 / 5 * (r ^ (6 : ℕ) * r' ^ (1 : ℕ)) + 996864 / 5 * (r ^ (7 : ℕ) * r' ^ (0 : ℕ))) :=
    mul_nonneg (mul_nonneg (pow_nonneg hs0 _) (pow_nonneg hs0' _))
      (bern_row_nonneg hr0 hr0' (by norm_num) (by norm_num) (by norm_num) (by norm_num) (by norm_num) (by norm_num) (by norm_num) (by norm_num))
  have h6 : 0 ≤ s ^ (6 : ℕ) * s' ^ (1 : ℕ) *
          (181248 / 5 * (r ^ (0 : ℕ) * r' ^ (7 : ℕ)) + 1515136 / 5 * (r ^ (1 : ℕ) * r' ^ (6 : ℕ)) +
            5579808 / 5 * (r ^ (2 : ℕ) * r' ^ (5 : ℕ)) + 2214816 * (r ^ (3 : ℕ) * r' ^ (4 : ℕ)) +
            2452096 * (r ^ (4 : ℕ) * r' ^ (3 : ℕ)) + 7346688 / 5 * (r ^ (5 : ℕ) * r' ^ (2 : ℕ)) +
            2190336 / 5 * (r ^ (6 : ℕ) * r' ^ (1 : ℕ)) + 275968 / 5 * (r ^ (7 : ℕ) * r' ^ (0 : ℕ))) :=
    mul_nonneg (mul_nonneg (pow_nonneg hs0 _) (pow_nonneg hs0' _))
      (bern_row_nonneg hr0 hr0' (by norm_num) (by norm_num) (by norm_num) (by norm_num) (by norm_num) (by norm_num) (by norm_num) (by norm_num))
  have h7 : 0 ≤ s ^ (7 : ℕ) * s' ^ (0 : ℕ) *
          (16384 / 5 * (r ^ (0 : ℕ) * r' ^ (7 : ℕ)) + 140288 / 5 * (r ^ (1 : ℕ) * r' ^ (6 : ℕ)) +
            555264 / 5 * (r ^ (2 : ℕ) * r' ^ (5 : ℕ)) + 238848 * (r ^ (3 : ℕ) * r' ^ (4 : ℕ)) +
            283648 * (r ^ (4 : ℕ) * r' ^ (3 : ℕ)) + 897024 / 5 * (r ^ (5 : ℕ) * r' ^ (2 : ℕ)) +
            278528 / 5 * (r ^ (6 : ℕ) * r' ^ (1 : ℕ)) + 36864 / 5 * (r ^ (7 : ℕ) * r' ^ (0 : ℕ))) :=
    mul_nonneg (mul_nonneg (pow_nonneg hs0 _) (pow_nonneg hs0' _))
      (bern_row_nonneg hr0 hr0' (by norm_num) (by norm_num) (by norm_num) (by norm_num) (by norm_num) (by norm_num) (by norm_num) (by norm_num))
  have hpos : 0 ≤ 6 / 5 - lerp (fade y) (lerp (fade x) (x + 2 * y) ((1 - x) + 2 * y))
      (lerp (fade x) (x - 2 * (1 - y)) (2 * (1 - x) + (1 - y))) := by
    rw [key]
    exact add_nonneg (add_nonneg (add_nonneg (add_nonneg (add_nonneg (add_nonneg (add_nonneg (h0) h1) h2) h3) h4) h5) h6) h7
  exact sub_nonneg.mp hpos

/-- Tensor Bernstein form of degree 7 of `6 / 5` minus the blend of the
largest corner dot products, on the part `1 / 2 ≤ x ≤ 1`, `0 ≤ y ≤ 1 / 2` of the unit
square. -/
theorem blend_cert_hi_lo {x y : ℝ} (hxa : 1 / 2 ≤ x) (hxb : x ≤ 1) (hyc : 0 ≤ y)
    (hyd : y ≤ 1 / 2) :
    lerp (fade y) (lerp (fade x) (x + 2 * y) ((1 - x) + 2 * y))
      (lerp (fade x) (x - 2 * (1 - y)) (2 * (1 - x) + (1 - y))) ≤ 6 / 5 := by
  obtain ⟨s, hs⟩ : ∃ s : ℝ, s = x - 1 / 2 := ⟨_, rfl⟩
  obtain ⟨s', hs'⟩ : ∃ s' : ℝ, s' = 1 - x := ⟨_, rfl⟩
  obtain ⟨r, hr⟩ : ∃ r : ℝ, r = y - 0 := ⟨_, rfl⟩
  obtain ⟨r', hr'⟩ : ∃ r' : ℝ, r' = 1 / 2 - y := ⟨_, rfl⟩
  have hs0 : 0 ≤ s := by rw [hs]; exact sub_nonneg.mpr hxa
  have hs0' : 0 ≤ s' := by rw [hs']; exact sub_nonneg.mpr hxb
  have hr0 : 0 ≤ r := by rw [hr]; exact sub_nonneg.mpr hyc
  have hr0' : 0 ≤ r' := by rw [hr']; exact sub_nonneg.mpr hyd
  have key : 6 / 5 - lerp (fade y) (lerp (fade x) (x + 2 * y) ((1 - x) + 2 * y))
      (lerp (fade x) (x - 2 * (1 - y)) (2 * (1 - x) + (1 - y))) =
        s ^ (0 : ℕ) * s' ^ (7 : ℕ) *
          (57344 / 5 * (r ^ (0 : ℕ) * r' ^ (7 : ℕ)) + 319488 / 5 * (r ^ (1 : ℕ) * r' ^ (6 : ℕ)) +
            712704 / 5 * (r ^ (2 : ℕ) * r' ^ (5 : ℕ)) + 160768 * (r ^ (3 : ℕ) * r' ^ (4 : ℕ)) +
            105728 * (r ^ (4 : ℕ) * r' ^ (3 : ℕ)) + 248064 / 5 * (r ^ (5 : ℕ) * r' ^ (2 : ℕ)) +
            89088 / 5 * (r ^ (6 : ℕ) * r' ^ (1 : ℕ)) + 16384 / 5 * (r ^ (7 : ℕ) * r' ^ (0 : ℕ))) +
        s ^ (1 : ℕ) * s' ^ (6 : ℕ) *
          (401408 / 5 * (r ^ (0 : ℕ) * r' ^ (7 : ℕ)) + 2236416 / 5 * (r ^ (1 : ℕ) * r' ^ (6 : ℕ)) +
            4988928 / 5 * (r ^ (2 : ℕ) * r' ^ (5 : ℕ)) + 1063296 * (r ^ (3 : ℕ) * r' ^ (4 : ℕ)) +
            567136 * (r ^ (4 : ℕ) * r' ^ (3 : ℕ)) + 849888 / 5 * (r ^ (5 : ℕ) * r' ^ (2 : ℕ)) +
            224896 / 5 * (r ^ (6 : ℕ) * r' ^ (1 : ℕ)) + 48128 / 5 * (r ^ (7 : ℕ) * r' ^ (0 : ℕ))) +
        s ^ (2 : ℕ) * s' ^ (5 : ℕ) *
          (1281024 / 5 * (r ^ (0 : ℕ) * r' ^ (7 : ℕ)) + 7246848 / 5 * (r ^ (1 : ℕ) * r' ^ (6 : ℕ)) +
            16579584 / 5 * (r ^ (2 : ℕ) * r' ^ (5 : ℕ)) + 3550848 * (r ^ (3 : ℕ) * r' ^ (4 : ℕ)) +
            1751328 * (r ^ (4 : ℕ) * r' ^ (3 : ℕ)) + 1689984 / 5 * (r ^ (5 : ℕ) * r' ^ (2 : ℕ)) +
            114528 / 5 * (r ^ (6 : ℕ) * r' ^ (1 : ℕ)) + 40704 / 5 * (r ^ (7 : ℕ) * r' ^ (0 : ℕ))) +
        s ^ (3 : ℕ) * s' ^ (4 : ℕ) *
          (478208 * (r ^ (0 : ℕ) * r' ^ (7 : ℕ)) + 2774016 * (r ^ (1 : ℕ) * r' ^ (6 : ℕ)) +
            6601728 * (r ^ (2 : ℕ) * r' ^ (5 : ℕ)) + 7476480 * (r ^ (3 : ℕ) * r' ^ (4 : ℕ)) +
            4076480 * (r ^ (4 : ℕ) * r' ^ (3 : ℕ)) + 1008288 * (r ^ (5 : ℕ) * r' ^ (2 : ℕ)) +
            123616 * (r ^ (6 : ℕ) * r' ^ (1 : ℕ)) + 21248 * (r ^ (7 : ℕ) * r' ^ (0 : ℕ))) +
        s ^ (4 : ℕ) * s' ^ (3 : ℕ) *
          (544768 * (r ^ (0 : ℕ) * r' ^ (7 : ℕ)) + 3239936 * (r ^ (1 : ℕ) * r' ^ (6 : ℕ)) +
            7999488 * (r ^ (2 : ℕ) * r' ^ (5 : ℕ)) + 9671680 * (r ^ (3 : ℕ) * r' ^ (4 : ℕ)) +
            6055680 * (r ^ (4 : ℕ) * r' ^ (3 : ℕ)) + 2076288 * (r ^ (5 : ℕ) * r' ^ (2 : ℕ)) +
            456576 * (r ^ (6 : ℕ) * r' ^ (1 : ℕ)) + 68608 * (r ^ (7 : ℕ) * r' ^ (0 : ℕ))) +
        s ^ (5 : ℕ) * s' ^ (2 : ℕ) *
          (1818624 / 5 * (r ^ (0 : ℕ) * r' ^ (7 : ℕ)) + 11010048 / 5 * (r ^ (1 : ℕ) * r' ^ (6 : ℕ)) +
            27869184 / 5 * (r ^ (2 : ℕ) * r' ^ (5 : ℕ)) + 7077888 * (r ^ (3 : ℕ) * r' ^ (4 : ℕ)) +
            4896768 * (r ^ (4 : ℕ) * r' ^ (3 : ℕ)) + 10059264 / 5 * (r ^ (5 : ℕ) * r' ^ (2 : ℕ)) +
            2692608 / 5 * (r ^ (6 : ℕ) * r' ^ (1 : ℕ)) + 405504 / 5 * (r ^ (7 : ℕ) * r' ^ (0 : ℕ))) +
        s ^ (6 : ℕ) * s' ^ (1 : ℕ) *
          (647168 / 5 * (r ^ (0 : ℕ) * r' ^ (7 : ℕ)) + 3956736 / 5 * (r ^ (1 : ℕ) * r' ^ (6 : ℕ)) +
            10149888 / 5 * (r ^ (2 : ℕ) * r' ^ (5 : ℕ)) + 2656256 * (r ^ (3 : ℕ) * r' ^ (4 : ℕ)) +
            1952256 * (r ^ (4 : ℕ) * r' ^ (3 : ℕ)) + 4412928 / 5 * (r ^ (5 : ℕ) * r' ^ (2 : ℕ)) +
            1289216 / 5 * (r ^ (6 : ℕ) * r' ^ (1 : ℕ)) + 196608 / 5 * (r ^ (7 : ℕ) * r' ^ (0 : ℕ))) +
        s ^ (7 : ℕ) * s' ^ (0 : ℕ) *
          (98304 / 5 * (r ^ (0 : ℕ) * r' ^ (7 : ℕ)) + 606208 / 5 * (r ^ (1 : ℕ) * r' ^ (6 : ℕ)) +
            1572864 / 5 * (r ^ (2 : ℕ) * r' ^ (5 : ℕ)) + 421888 * (r ^ (3 : ℕ) * r' ^ (4 : ℕ)) +
            324608 * (r ^ (4 : ℕ) * r' ^ (3 : ℕ)) + 781824 / 5 * (r ^ (5 : ℕ) * r' ^ (2 : ℕ)) +
            240128 / 5 * (r ^ (6 : ℕ) * r' ^ (1 : ℕ)) + 36864 / 5 * (r ^ (7 : ℕ) * r' ^ (0 : ℕ))) := by
    rw [hs, hs', hr, hr']
    unfold lerp fade
    ring
  have h0 : 0 ≤ s ^ (0 : ℕ) * s' ^ (7 : ℕ) *
          (57344 / 5 * (r ^ (0 : ℕ) * r' ^ (7 : ℕ)) + 319488 / 5 * (r ^ (1 : ℕ) * r' ^ (6 : ℕ)) +
            712704 / 5 * (r ^ (2 : ℕ) * r' ^ (5 : ℕ)) + 160768 * (r ^ (3 : ℕ) * r' ^ (4 : ℕ)) +
            105728 * (r ^ (4 : ℕ) * r' ^ (3 : ℕ)) + 248064 / 5 * (r ^ (5 : ℕ) * r' ^ (2 : ℕ)) +
            89088 / 5 * (r ^ (6 : ℕ) * r' ^ (1 : ℕ)) + 16384 / 5 * (r ^ (7 : ℕ) * r' ^ (0 : ℕ))) :=
    mul_nonneg (mul_nonneg (pow_nonneg hs0 _) (pow_nonneg hs0' _))
      (bern_row_nonneg hr0 hr0' (by norm_num) (by norm_num) (by norm_num) (by norm_num) (by norm_num) (by norm_num) (by norm_num) (by norm_num))
  have h1 : 0 ≤ s ^ (1 : ℕ) * s' ^ (6 : ℕ) *
          (401408 / 5 * (r ^ (0 : ℕ) * r' ^ (7 : ℕ)) + 2236416 / 5 * (r ^ (1 : ℕ) * r' ^ (6 : ℕ)) +
            4988928 / 5 * (r ^ (2 : ℕ) * r' ^ (5 : ℕ)) + 1063296 * (r ^ (3 : ℕ) * r' ^ (4 : ℕ)) +
            567136 * (r ^ (4 : ℕ) * r' ^ (3 : ℕ)) + 849888 / 5 * (r ^ (5 : ℕ) * r' ^ (2 : ℕ)) +
            224896 / 5 * (r ^ (6 : ℕ) * r' ^ (1 : ℕ)) + 48128 / 5 * (r ^ (7 : ℕ) * r' ^ (0 : ℕ))) :=
    mul_nonneg (mul_nonneg (pow_nonneg hs0 _) (pow_nonneg hs0' _))
      (bern_row_nonneg hr0 hr0' (by norm_num) (by norm_num) (by norm_num) (by norm_num) (by norm_num) (by norm_num) (by norm_num) (by norm_num))
  have h2 : 0 ≤ s ^ (2 : ℕ) * s' ^ (5 : ℕ) *
          (1281024 / 5 * (r ^ (0 : ℕ) * r' ^ (7 : ℕ)) + 7246848 / 5 * (r ^ (1 : ℕ) * r' ^ (6 : ℕ)) +
            16579584 / 5 * (r ^ (2 : ℕ) * r' ^ (5 : ℕ)) + 3550848 * (r ^ (3 : ℕ) * r' ^ (4 : ℕ)) +
            1751328 * (r ^ (4 : ℕ) * r' ^ (3 : ℕ)) + 1689984 / 5 * (r ^ (5 : ℕ) * r' ^ (2 : ℕ)) +
            114528 / 5 * (r ^ (6 : ℕ) * r' ^ (1 : ℕ)) + 40704 / 5 * (r ^ (7 : ℕ) * r' ^ (0 : ℕ))) :=
    mul_nonneg (mul_nonneg (pow_nonneg hs0 _) (pow_nonneg hs0' _))
      (bern_row_nonneg hr0 hr0' (by norm_num) (by norm_num) (by norm_num) (by norm_num) (by norm_num) (by norm_num) (by norm_num) (by norm_num))
  have h3 : 0 ≤ s ^ (3 : ℕ) * s' ^ (4 : ℕ) *
          (478208 * (r ^ (0 : ℕ) * r' ^ (7 : ℕ)) + 2774016 * (r ^ (1 : ℕ) * r' ^ (6 : ℕ)) +
            6601728 * (r ^ (2 : ℕ) * r' ^ (5 : ℕ)) + 7476480 * (r ^ (3 : ℕ) * r' ^ (4 : ℕ)) +
            4076480 * (r ^ (4 : ℕ) * r' ^ (3 : ℕ)) + 1008288 * (r ^ (5 : ℕ) * r' ^ (2 : ℕ)) +
            123616 * (r ^ (6 : ℕ) * r' ^ (1 : ℕ)) + 21248 * (r ^ (7 : ℕ) * r' ^ (0 : ℕ))) :=
    mul_nonneg (mul_nonneg (pow_nonneg hs0 _) (pow_nonneg hs0' _))
      (bern_row_nonneg hr0 hr0' (by norm_num) (by norm_num) (by norm_num) (by norm_num) (by norm_num) (by norm_num) (by norm_num) (by norm_num))
  have h4 : 0 ≤ s ^ (4 : ℕ) * s' ^ (3 : ℕ) *
          (544768 * (r ^ (0 : ℕ) * r' ^ (7 : ℕ)) + 3239936 * (r ^ (1 : ℕ) * r' ^ (6 : ℕ)) +
            7999488 * (r ^ (2 : ℕ) * r' ^ (5 : ℕ)) + 9671680 * (r ^ (3 : ℕ) * r' ^ (4 : ℕ)) +
            6055680 * (r ^ (4 : ℕ) * r' ^ (3 : ℕ)) + 2076288 * (r ^ (5 : ℕ) * r' ^ (2 : ℕ)) +
            456576 * (r ^ (6 : ℕ) * r' ^ (1 : ℕ)) + 68608 * (r ^ (7 : ℕ) * r' ^ (0 : ℕ))) :=
    mul_nonneg (mul_nonneg (pow_nonneg hs0 _) (pow_nonneg hs0' _))
      (bern_row_nonneg hr0 hr0' (by norm_num) (by norm_num) (by norm_num) (by norm_num) (by norm_num) (by norm_num) (by norm_num) (by norm_num))
  have h5 : 0 ≤ s ^ (5 : ℕ) * s' ^ (2 : ℕ) *
          (1818624 / 5 * (r ^ (0 : ℕ) * r' ^ (7 : ℕ)) + 11010048 / 5 * (r ^ (1 : ℕ) * r' ^ (6 : ℕ)) +
            27869184 / 5 * (r ^ (2 : ℕ) * r' ^ (5 : ℕ)) + 7077888 * (r ^ (3 : ℕ) * r' ^ (4 : ℕ)) +
            4896768 * (r ^ (4 : ℕ) * r' ^ (3 : ℕ)) + 10059264 / 5 * (r ^ (5 : ℕ) * r' ^ (2 : ℕ)) +
            2692608 / 5 * (r ^ (6 : ℕ) * r' ^ (1 : ℕ)) + 405504 / 5 * (r ^ (7 : ℕ) * r' ^ (0 : ℕ))) :=
    mul_nonneg (mul_nonneg (pow_nonneg hs0 _) (pow_nonneg hs0' _))
      (bern_row_nonneg hr0 hr0' (by norm_num) (by norm_num) (by norm_num) (by norm_num) (by norm_num) (by norm_num) (by norm_num) (by norm_num))
  have h6 : 0 ≤ s ^ (6 : ℕ) * s' ^ (1 : ℕ) *
          (647168 / 5 * (r ^ (0 : ℕ) * r' ^ (7 : ℕ)) + 3956736 / 5 * (r ^ (1 : ℕ) * r' ^ (6 : ℕ)) +
            10149888 / 5 * (r ^ (2 : ℕ) * r' ^ (5 : ℕ)) + 2656256 * (r ^ (3 : ℕ) * r' ^ (4 : ℕ)) +
            1952256 * (r ^ (4 : ℕ) * r' ^ (3 : ℕ)) + 4412928 / 5 * (r ^ (5 : ℕ) * r' ^ (2 : ℕ)) +
            1289216 / 5 * (r ^ (6 : ℕ) * r' ^ (1 : ℕ)) + 196608 / 5 * (r ^ (7 : ℕ) * r' ^ (0 : ℕ))) :=
    mul_nonneg (mul_nonneg (pow_nonneg hs0 _) (pow_nonneg hs0' _))
      (bern_row_nonneg hr0 hr0' (by norm_num) (by norm_num) (by norm_num) (by norm_num) (by norm_num) (by norm_num) (by norm_num) (by norm_num))
  have h7 : 0 ≤ s ^ (7 : ℕ) * s' ^ (0 : ℕ) *
          (98304 / 5 * (r ^ (0 : ℕ) * r' ^ (7 : ℕ)) + 606208 / 5 * (r ^ (1 : ℕ) * r' ^ (6 : ℕ)) +
            1572864 / 5 * (r ^ (2 : ℕ) * r' ^ (5 : ℕ)) + 421888 * (r ^ (3 : ℕ) * r' ^ (4 : ℕ)) +
            324608 * (r ^ (4 : ℕ) * r' ^ (3 : ℕ)) + 781824 / 5 * (r ^ (5 : ℕ) * r' ^ (2 : ℕ)) +
            240128 / 5 * (r ^ (6 : ℕ) * r' ^ (1 : ℕ)) + 36864 / 5 * (r ^ (7 : ℕ) * r' ^ (0 : ℕ))) :=
    mul_nonneg (mul_nonneg (pow_nonneg hs0 _) (pow_nonneg hs0' _))
      (bern_row_nonneg hr0 hr0' (by norm_num) (by norm_num) (by norm_num) (by norm_num) (by norm_num) (by norm_num) (by norm_num) (by norm_num))
  have hpos : 0 ≤ 6 / 5 - lerp (fade y) (lerp (fade x) (x + 2 * y) ((1 - x) + 2 * y))
      (lerp (fade x) (x - 2 * (1 - y)) (2 * (1 - x) + (1 - y))) := by
    rw [key]
    exact add_nonneg (add_nonneg (add_nonneg (add_nonneg (add_nonneg (add_nonneg (add_nonneg (h0) h1) h2) h3) h4) h5) h6) h7
  exact sub_nonneg.mp hpos

/-- Tensor Bernstein form of degree 7 of `6 / 5` minus the blend of the
largest corner dot products, on the part `1 / 2 ≤ x ≤ 1`, `1 / 2 ≤ y ≤ 1` of the unit
square. -/
theorem blend_cert_hi_hi {x y : ℝ} (hxa : 1 / 2 ≤ x) (hxb : x ≤ 1) (hyc : 1 / 2 ≤ y)
    (hyd : y ≤ 1) :
    lerp (fade y) (lerp (fade x) (x + 2 * y) ((1 - x) + 2 * y))
      (lerp (fade x) (x - 2 * (1 - y)) (2 * (1 - x) + (1 - y))) ≤ 6 / 5 := by
  obtain ⟨s, hs⟩ : ∃ s : ℝ, s = x - 1 / 2 := ⟨_, rfl⟩
  obtain ⟨s', hs'⟩ : ∃ s' : ℝ, s' = 1 - x := ⟨_, rfl⟩
  obtain ⟨r, hr⟩ : ∃ r : ℝ, r = y - 1 / 2 := ⟨_, rfl⟩
  obtain ⟨r', hr'⟩ : ∃ r' : ℝ, r' = 1 - y := ⟨_, rfl⟩
  have hs0 : 0 ≤ s := by rw [hs]; exact sub_nonneg.mpr hxa
  have hs0' : 0 ≤ s' := by rw [hs']; exact sub_nonneg.mpr hxb
  have hr0 : 0 ≤ r := by rw [hr]; exact sub_nonneg.mpr hyc
  have hr0' : 0 ≤ r' := by rw [hr']; exact sub_nonneg.mpr hyd
  have key : 6 / 5 - lerp (fade y) (lerp (fade x) (x + 2 * y) ((1 - x) + 2 * y))
      (lerp (fade x) (x - 2 * (1 - y)) (2 * (1 - x) + (1 - y))) =
        s ^ (0 : ℕ) * s' ^ (7 : ℕ) *
          (16384 / 5 * (r ^ (0 : ℕ) * r' ^ (7 : ℕ)) + 140288 / 5 * (r ^ (1 : ℕ) * r' ^ (6 : ℕ)) +
            555264 / 5 * (r ^ (2 : ℕ) * r' ^ (5 : ℕ)) + 238848 * (r ^ (3 : ℕ) * r' ^ (4 : ℕ)) +
            283648 * (r ^ (4 : ℕ) * r' ^ (3 : ℕ)) + 897024 / 5 * (r ^ (5 : ℕ) * r' ^ (2 : ℕ)) +
            278528 / 5 * (r ^ (6 : ℕ) * r' ^ (1 : ℕ)) + 36864 / 5 * (r ^ (7 : ℕ) * r' ^ (0 : ℕ))) +
        s ^ (1 : ℕ) * s' ^ (6 : ℕ) *
          (48128 / 5 * (r ^ (0 : ℕ) * r' ^ (7 : ℕ)) + 448896 / 5 * (r ^ (1 : ℕ) * r' ^ (6 : ℕ)) +
            2193888 / 5 * (r ^ (2 : ℕ) * r' ^ (5 : ℕ)) + 1129056 * (r ^ (3 : ℕ) * r' ^ (4 : ℕ)) +
            1518976 * (r ^ (4 : ℕ) * r' ^ (3 : ℕ)) + 5211648 / 5 * (r ^ (5 : ℕ) * r' ^ (2 : ℕ)) +
            1709056 / 5 * (r ^ (6 : ℕ) * r' ^ (1 : ℕ)) + 240128 / 5 * (r ^ (7 : ℕ) * r' ^ (0 : ℕ))) +
        s ^ (2 : ℕ) * s' ^ (5 : ℕ) *
          (40704 / 5 * (r ^ (0 : ℕ) * r' ^ (7 : ℕ)) + 455328 / 5 * (r ^ (1 : ℕ) * r' ^ (6 : ℕ)) +
            3734784 / 5 * (r ^ (2 : ℕ) * r' ^ (5 : ℕ)) + 2533728 * (r ^ (3 : ℕ) * r' ^ (4 : ℕ)) +
            3954048 * (r ^ (4 : ℕ) * r' ^ (3 : ℕ)) + 14851584 / 5 * (r ^ (5 : ℕ) * r' ^ (2 : ℕ)) +
            5211648 / 5 * (r ^ (6 : ℕ) * r' ^ (1 : ℕ)) + 781824 / 5 * (r ^ (7 : ℕ) * r' ^ (0 : ℕ))) +
        s ^ (3 : ℕ) * s' ^ (4 : ℕ) *
          (21248 * (r ^ (0 : ℕ) * r' ^ (7 : ℕ)) + 173856 * (r ^ (1 : ℕ) * r' ^ (6 : ℕ)) +
            1309728 * (r ^ (2 : ℕ) * r' ^ (5 : ℕ)) + 4538880 * (r ^ (3 : ℕ) * r' ^ (4 : ℕ)) +
            7316480 * (r ^ (4 : ℕ) * r' ^ (3 : ℕ)) + 5695488 * (r ^ (5 : ℕ) * r' ^ (2 : ℕ)) +
            2085376 * (r ^ (6 : ℕ) * r' ^ (1 : ℕ)) + 324608 * (r ^ (7 : ℕ) * r' ^ (0 : ℕ))) +
        s ^ (4 : ℕ) * s' ^ (3 : ℕ) *
          (68608 * (r ^ (0 : ℕ) * r' ^ (7 : ℕ)) + 503936 * (r ^ (1 : ℕ) * r' ^ (6 : ℕ)) +
            2360448 * (r ^ (2 : ℕ) * r' ^ (5 : ℕ)) + 6522880 * (r ^ (3 : ℕ) * r' ^ (4 : ℕ)) +
            9646080 * (r ^ (4 : ℕ) * r' ^ (3 : ℕ)) + 7323648 * (r ^ (5 : ℕ) * r' ^ (2 : ℕ)) +
            2697216 * (r ^ (6 : ℕ) * r' ^ (1 : ℕ)) + 421888 * (r ^ (7 : ℕ) * r' ^ (0 : ℕ))) +
        s ^ (5 : ℕ) * s' ^ (2 : ℕ) *
          (405504 / 5 * (r ^ (0 : ℕ) * r' ^ (7 : ℕ)) + 2984448 / 5 * (r ^ (1 : ℕ) * r' ^ (6 : ℕ)) +
            11810304 / 5 * (r ^ (2 : ℕ) * r' ^ (5 : ℕ)) + 5618688 * (r ^ (3 : ℕ) * r' ^ (4 : ℕ)) +
            7630848 * (r ^ (4 : ℕ) * r' ^ (3 : ℕ)) + 27869184 / 5 * (r ^ (5 : ℕ) * r' ^ (2 : ℕ)) +
            10149888 / 5 * (r ^ (6 : ℕ) * r' ^ (1 : ℕ)) + 1572864 / 5 * (r ^ (7 : ℕ) * r' ^ (0 : ℕ))) +
        s ^ (6 : ℕ) * s' ^ (1 : ℕ) *
          (196608 / 5 * (r ^ (0 : ℕ) * r' ^ (7 : ℕ)) + 1463296 / 5 * (r ^ (1 : ℕ) * r' ^ (6 : ℕ)) +
            5457408 / 5 * (r ^ (2 : ℕ) * r' ^ (5 : ℕ)) + 2413056 * (r ^ (3 : ℕ) * r' ^ (4 : ℕ)) +
            3106816 * (r ^ (4 : ℕ) * r' ^ (3 : ℕ)) + 11010048 / 5 * (r ^ (5 : ℕ) * r' ^ (2 : ℕ)) +
            3956736 / 5 * (r ^ (6 : ℕ) * r' ^ (1 : ℕ)) + 606208 / 5 * (r ^ (7 : ℕ) * r' ^ (0 : ℕ))) +
        s ^ (7 : ℕ) * s' ^ (0 : ℕ) *
          (36864 / 5 * (r ^ (0 : ℕ) * r' ^ (7 : ℕ)) + 275968 / 5 * (r ^ (1 : ℕ) * r' ^ (6 : ℕ)) +
            996864 / 5 * (r ^ (2 : ℕ) * r' ^ (5 : ℕ)) + 421888 * (r ^ (3 : ℕ) * r' ^ (4 : ℕ)) +
            524288 * (r ^ (4 : ℕ) * r' ^ (3 : ℕ)) + 1818624 / 5 * (r ^ (5 : ℕ) * r' ^ (2 : ℕ)) +
            647168 / 5 * (r ^ (6 : ℕ) * r' ^ (1 : ℕ)) + 98304 / 5 * (r ^ (7 : ℕ) * r' ^ (0 : ℕ))) := by
    rw [hs, hs', hr, hr']
    unfold lerp fade
    ring
  have h0 : 0 ≤ s ^ (0 : ℕ) * s' ^ (7 : ℕ) *
          (16384 / 5 * (r ^ (0 : ℕ) * r' ^ (7 : ℕ)) + 140288 / 5 * (r ^ (1 : ℕ) * r' ^ (6 : ℕ)) +
            555264 / 5 * (r ^ (2 : ℕ) * r' ^ (5 : ℕ)) + 238848 * (r ^ (3 : ℕ) * r' ^ (4 : ℕ)) +
            283648 * (r ^ (4 : ℕ) * r' ^ (3 : ℕ)) + 897024 / 5 * (r ^ (5 : ℕ) * r' ^ (2 : ℕ)) +
            278528 / 5 * (r ^ (6 : ℕ) * r' ^ (1 : ℕ)) + 36864 / 5 * (r ^ (7 : ℕ) * r' ^ (0 : ℕ))) :=
    mul_nonneg (mul_nonneg (pow_nonneg hs0 _) (pow_nonneg hs0' _))
      (bern_row_nonneg hr0 hr0' (by norm_num) (by norm_num) (by norm_num) (by norm_num) (by norm_num) (by norm_num) (by norm_num) (by norm_num))
  have h1 : 0 ≤ s ^ (1 : ℕ) * s' ^ (6 : ℕ) *
          (48128 / 5 * (r ^ (0 : ℕ) * r' ^ (7 : ℕ)) + 448896 / 5 * (r ^ (1 : ℕ) * r' ^ (6 : ℕ)) +
            2193888 / 5 * (r ^ (2 : ℕ) * r' ^ (5 : ℕ)) + 1129056 * (r ^ (3 : ℕ) * r' ^ (4 : ℕ)) +
            1518976 * (r ^ (4 : ℕ) * r' ^ (3 : ℕ)) + 5211648 / 5 * (r ^ (5 : ℕ) * r' ^ (2 : ℕ)) +
            1709056 / 5 * (r ^ (6 : ℕ) * r' ^ (1 : ℕ)) + 240128 / 5 * (r ^ (7 : ℕ) * r' ^ (0 : ℕ))) :=
    mul_nonneg (mul_nonneg (pow_nonneg hs0 _) (pow_nonneg hs0' _))
      (bern_row_nonneg hr0 hr0' (by norm_num) (by norm_num) (by norm_num) (by norm_num) (by norm_num) (by norm_num) (by norm_num) (by norm_num))
  have h2 : 0 ≤ s ^ (2 : ℕ) * s' ^ (5 : ℕ) *
          (40704 / 5 * (r ^ (0 : ℕ) * r' ^ (7 : ℕ)) + 455328 / 5 * (r ^ (1 : ℕ) * r' ^ (6 : ℕ)) +
            3734784 / 5 * (r ^ (2 : ℕ) * r' ^ (5 : ℕ)) + 2533728 * (r ^ (3 : ℕ) * r' ^ (4 : ℕ)) +
            3954048 * (r ^ (4 : ℕ) * r' ^ (3 : ℕ)) + 14851584 / 5 * (r ^ (5 : ℕ) * r' ^ (2 : ℕ)) +
            5211648 / 5 * (r ^ (6 : ℕ) * r' ^ (1 : ℕ)) + 781824 / 5 * (r ^ (7 : ℕ) * r' ^ (0 : ℕ))) :=
    mul_nonneg (mul_nonneg (pow_nonneg hs0 _) (pow_nonneg hs0' _))
      (bern_row_nonneg hr0 hr0' (by norm_num) (by norm_num) (by norm_num) (by norm_num) (by norm_num) (by norm_num) (by norm_num) (by norm_num))
  have h3 : 0 ≤ s ^ (3 : ℕ) * s' ^ (4 : ℕ) *
          (21248 * (r ^ (0 : ℕ) * r' ^ (7 : ℕ)) + 173856 * (r ^ (1 : ℕ) * r' ^ (6 : ℕ)) +
            1309728 * (r ^ (2 : ℕ) * r' ^ (5 : ℕ)) + 4538880 * (r ^ (3 : ℕ) * r' ^ (4 : ℕ)) +
            7316480 * (r ^ (4 : ℕ) * r' ^ (3 : ℕ)) + 5695488 * (r ^ (5 : ℕ) * r' ^ (2 : ℕ)) +
            2085376 * (r ^ (6 : ℕ) * r' ^ (1 : ℕ)) + 324608 * (r ^ (7 : ℕ) * r' ^ (0 : ℕ))) :=
    mul_nonneg (mul_nonneg (pow_nonneg hs0 _) (pow_nonneg hs0' _))
      (bern_row_nonneg hr0 hr0' (by norm_num) (by norm_num) (by norm_num) (by norm_num) (by norm_num) (by norm_num) (by norm_num) (by norm_num))
  have h4 : 0 ≤ s ^ (4 : ℕ) * s' ^ (3 : ℕ) *
          (68608 * (r ^ (0 : ℕ) * r' ^ (7 : ℕ)) + 503936 * (r ^ (1 : ℕ) * r' ^ (6 : ℕ)) +
            2360448 * (r ^ (2 : ℕ) * r' ^ (5 : ℕ)) + 6522880 * (r ^ (3 : ℕ) * r' ^ (4 : ℕ)) +
            9646080 * (r ^ (4 : ℕ) * r' ^ (3 : ℕ)) + 7323648 * (r ^ (5 : ℕ) * r' ^ (2 : ℕ)) +
            2697216 * (r ^ (6 : ℕ) * r' ^ (1 : ℕ)) + 421888 * (r ^ (7 : ℕ) * r' ^ (0 : ℕ))) :=
    mul_nonneg (mul_nonneg (pow_nonneg hs0 _) (pow_nonneg hs0' _))
      (bern_row_nonneg hr0 hr0' (by norm_num) (by norm_num) (by norm_num) (by norm_num) (by norm_num) (by norm_num) (by norm_num) (by norm_num))
  have h5 : 0 ≤ s ^ (5 : ℕ) * s' ^ (2 : ℕ) *
          (405504 / 5 * (r ^ (0 : ℕ) * r' ^ (7 : ℕ)) + 2984448 / 5 * (r ^ (1 : ℕ) * r' ^ (6 : ℕ)) +
            11810304 / 5 * (r ^ (2 : ℕ) * r' ^ (5 : ℕ)) + 5618688 * (r ^ (3 : ℕ) * r' ^ (4 : ℕ)) +
            7630848 * (r ^ (4 : ℕ) * r' ^ (3 : ℕ)) + 27869184 / 5 * (r ^ (5 : ℕ) * r' ^ (2 : ℕ)) +
            10149888 / 5 * (r ^ (6 : ℕ) * r' ^ (1 : ℕ)) + 1572864 / 5 * (r ^ (7 : ℕ) * r' ^ (0 : ℕ))) :=
    mul_nonneg (mul_nonneg (pow_nonneg hs0 _) (pow_nonneg hs0' _))
      (bern_row_nonneg hr0 hr0' (by norm_num) (by norm_num) (by norm_num) (by norm_num) (by norm_num) (by norm_num) (by norm_num) (by norm_num))
  have h6 : 0 ≤ s ^ (6 : ℕ) * s' ^ (1 : ℕ) *
          (196608 / 5 * (r ^ (0 : ℕ) * r' ^ (7 : ℕ)) + 1463296 / 5 * (r ^ (1 : ℕ) * r' ^ (6 : ℕ)) +
            5457408 / 5 * (r ^ (2 : ℕ) * r' ^ (5 : ℕ)) + 2413056 * (r ^ (3 : ℕ) * r' ^ (4 : ℕ)) +
            3106816 * (r ^ (4 : ℕ) * r' ^ (3 : ℕ)) + 11010048 / 5 * (r ^ (5 : ℕ) * r' ^ (2 : ℕ)) +
            3956736 / 5 * (r ^ (6 : ℕ) * r' ^ (1 : ℕ)) + 606208 / 5 * (r ^ (7 : ℕ) * r' ^ (0 : ℕ))) :=
    mul_nonneg (mul_nonneg (pow_nonneg hs0 _) (pow_nonneg hs0' _))
      (bern_row_nonneg hr0 hr0' (by norm_num) (by norm_num) (by norm_num) (by norm_num) (by norm_num) (by norm_num) (by norm_num) (by norm_num))
  have h7 : 0 ≤ s ^ (7 : ℕ) * s' ^ (0 : ℕ) *
          (36864 / 5 * (r ^ (0 : ℕ) * r' ^ (7 : ℕ)) + 275968 / 5 * (r ^ (1 : ℕ) * r' ^ (6 : ℕ)) +
            996864 / 5 * (r ^ (2 : ℕ) * r' ^ (5 : ℕ)) + 421888 * (r ^ (3 : ℕ) * r' ^ (4 : ℕ)) +
            524288 * (r ^ (4 : ℕ) * r' ^ (3 : ℕ)) + 1818624 / 5 * (r ^ (5 : ℕ) * r' ^ (2 : ℕ)) +
            647168 / 5 * (r ^ (6 : ℕ) * r' ^ (1 : ℕ)) + 98304 / 5 * (r ^ (7 : ℕ) * r' ^ (0 : ℕ))) :=
    mul_nonneg (mul_nonneg (pow_nonneg hs0 _) (pow_nonneg hs0' _))
      (bern_row_nonneg hr0 hr0' (by norm_num) (by norm_num) (by norm_num) (by norm_num) (by norm_num) (by norm_num) (by norm_num) (by norm_num))
  have hpos : 0 ≤ 6 / 5 - lerp (fade y) (lerp (fade x) (x + 2 * y) ((1 - x) + 2 * y))
      (lerp (fade x) (x - 2 * (1 - y)) (2 * (1 - x) + (1 - y))) := by
    rw [key]
    exact add_nonneg (add_nonneg (add_nonneg (add_nonneg (add_nonneg (add_nonneg (add_nonneg (h0) h1) h2) h3) h4) h5) h6) h7
  exact sub_nonneg.mp hpos

/-- The blend of the four largest corner dot products for offsets with
`x + y ≥ 1` stays below `6/5` on the whole unit square. -/
theorem blend_cert {x y : ℝ} (hx0 : 0 ≤ x) (hx1 : x ≤ 1) (hy0 : 0 ≤ y) (hy1 : y ≤ 1) :
    lerp (fade y) (lerp (fade x) (x + 2 * y) ((1 - x) + 2 * y))
      (lerp (fade x) (x - 2 * (1 - y)) (2 * (1 - x) + (1 - y))) ≤ 6 / 5 := by
  rcases le_total x (1 / 2) with hx | hx <;> rcases le_total y (1 / 2) with hy | hy
  · exact blend_cert_lo_lo hx0 hx hy0 hy
  · exact blend_cert_lo_hi hx0 hx hy hy1
  · exact blend_cert_hi_lo hx hx1 hy0 hy
  · exact blend_cert_hi_hi hx hx1 hy hy1

/-- Bilinear blend of four corner values, each below the largest dot product
that a gradient of `grad2D` can give at that corner, stays below `6/5`. -/
theorem blend_le_tight {x y a b c d : ℝ} (hx0 : 0 ≤ x) (hx1 : x ≤ 1) (hy0 : 0 ≤ y)
    (hy1 : y ≤ 1) (ha : a ≤ x + 2 * y) (hb : b ≤ (1 - x) + y + max (1 - x) y)
    (hc : c ≤ max (x - 2 * (1 - y)) ((1 - y) - 2 * x)) (hd : d ≤ 2 * (1 - x) + (1 - y)) :
    lerp (fade y) (lerp (fade x) a b) (lerp (fade x) c d) ≤ 6 / 5 := by
  have hu0 := fade_nonneg hx0
  have hu1 := fade_le_one hx1
  have hv0 := fade_nonneg hy0
  have hv1 := fade_le_one hy1
  have h1 := blend_cert hx0 hx1 hy0 hy1
  have h2 := blend_cert (sub_nonneg.mpr hy1) (sub_le_self 1 hy0) (sub_nonneg.mpr hx1)
    (sub_le_self 1 hx0)
  rw [fade_one_sub, fade_one_sub] at h2
  generalize fade x = u at *
  generalize fade y = v at *
  have hu1' : 0 ≤ 1 - u := sub_nonneg.mpr hu1
  have hv1' : 0 ≤ 1 - v := sub_nonneg.mpr hv1
  have e1 := mul_nonneg (mul_nonneg hu1' hv1') (sub_nonneg.mpr ha)
  have e4 := mul_nonneg (mul_nonneg hu0 hv0) (sub_nonneg.mpr hd)
  unfold lerp at h1 h2 ⊢
  rcases le_total (x + y) 1 with hxy | hxy
  · have hb' : b ≤ 2 * (1 - x) + y := by
      rw [max_eq_left (by linarith)] at hb
      linarith
    have hc' : c ≤ (1 - y) - 2 * x := by
      rw [max_eq_right (by linarith)] at hc
      exact hc
    have e2 := mul_nonneg (mul_nonneg hu0 hv1') (sub_nonneg.mpr hb')
    have e3 := mul_nonneg (mul_nonneg hu1' hv0) (sub_nonneg.mpr hc')
    linarith
  · have hb' : b ≤ (1 - x) + 2 * y := by
      rw [max_eq_right (by linarith)] at hb
      linarith
    have hc' : c ≤ x - 2 * (1 - y) := by
      rw [max_eq_left (by linarith)] at hc
      exact hc
    have e2 := mul_nonneg (mul_nonneg hu0 hv1') (sub_nonneg.mpr hb')
    have e3 := mul_nonneg (mul_nonneg hu1' hv0) (sub_nonneg.mpr hc')
    linarith

/-- The blend of `noise2D` stays in `[-6/5, 6/5]` for any four hashes and any
offsets in the unit square. -/
theorem blend_range_tight (h00 h10 h01 h11 : Val) {x y : ℝ}
    (hx0 : 0 ≤ x) (hx1 : x ≤ 1) (hy0 : 0 ≤ y) (hy1 : y ≤ 1) :
    -(6 / 5) ≤ lerp (fade y) (lerp (fade x) (grad2D h00 x y) (grad2D h10 (x - 1) y))
        (lerp (fade x) (grad2D h01 x (y - 1)) (grad2D h11 (x - 1) (y - 1))) ∧
      lerp (fade y) (lerp (fade x) (grad2D h00 x y) (grad2D h10 (x - 1) y))
        (lerp (fade x) (grad2D h01 x (y - 1)) (grad2D h11 (x - 1) (y - 1))) ≤ 6 / 5 := by
  constructor
  · obtain ⟨la, lc, lb, ld⟩ := grad2D_lower h00 h10 h01 h11 hx0 hx1 hy0 hy1
    have h := blend_le_tight hy0 hy1 hx0 hx1 la lc lb ld
    have e : lerp (fade x) (lerp (fade y) (-grad2D h00 x y) (-grad2D h01 x (y - 1)))
        (lerp (fade y) (-grad2D h10 (x - 1) y) (-grad2D h11 (x - 1) (y - 1))) =
        -lerp (fade y) (lerp (fade x) (grad2D h00 x y) (grad2D h10 (x - 1) y))
          (lerp (fade x) (grad2D h01 x (y - 1)) (grad2D h11 (x - 1) (y - 1))) := by
      unfold lerp
      ring
    rw [e] at h
    linarith
  · obtain ⟨ua, ub, uc, ud⟩ := grad2D_upper h00 h10 h01 h11 hx0 hx1 hy0 hy1
    exact blend_le_tight hx0 hx1 hy0 hy1 ua ub uc ud

end Tight

theorem floor_five_halves : ⌊(5 / 2 : ℝ)⌋ = 2 := by
  rw [Int.floor_eq_iff]
  norm_num

theorem floor_three_quarters : ⌊(3 / 4 : ℝ)⌋ = 0 := by
  rw [Int.floor_eq_iff]
  norm_num

set_option maxRecDepth 100000 in
theorem pAt_cell_2_0 :
    pAt (Val.int 2) = Val.int 137 ∧ pAt (Val.int 3) = Val.int 91 ∧
      pAt (Val.int 137) = Val.int 147 ∧ pAt (Val.int 138) = Val.int 118 ∧
      pAt (Val.int 91) = Val.int 40 ∧ pAt (Val.int 92) = Val.int 244 := by
  decide

/-! ### In-range table reads -/

theorem p_length : p.length = 256 := by
  rw [p_perm_range.length_eq, List.length_range]

theorem tableMod_nonneg (i : ℤ) : 0 ≤ tableMod i := by
  unfold tableMod
  exact Int.natCast_nonneg _

theorem pAt_eq_tableMod {i : ℤ} (h0 : 0 ≤ i) (h1 : i < 256) :
    pAt (Val.int i) = Val.int (tableMod i) := by
  have hlt : i.toNat < p.length := by
    rw [p_length]
    omega
  obtain ⟨v, hv⟩ : ∃ v, p[i.toNat]? = some v := ⟨_, List.getElem?_eq_getElem hlt⟩
  have hmod : i % 256 = i := Int.emod_eq_of_lt h0 h1
  unfold pAt tableMod
  simp only []
  rw [if_neg (not_lt.mpr h0), hmod, List.getD_eq_getElem?_getD, hv]
  rfl

theorem pAt_of_not_inBounds {v : Val} (hv : ¬ v.InBounds) : pAt v = Val.undefined := by
  cases v with
  | undefined => rfl
  | nan => rfl
  | int n =>
    have hb : ¬ (0 ≤ n ∧ n < (p.length : ℤ)) := hv
    unfold pAt
    simp only []
    by_cases hn : n < 0
    · rw [if_pos hn]
    · rw [if_neg hn]
      have hge : p.length ≤ n.toNat := by
        have h2 : ¬ n < (p.length : ℤ) := fun h => hb ⟨not_lt.mp hn, h⟩
        omega
      rw [List.getElem?_eq_none hge]

theorem noise2D_eq_ref_of_inBounds {x y : ℝ} (hX : cellIndex x ≤ 254)
    (hA : tableMod (cellIndex x) + cellIndex y ≤ 254)
    (hB : tableMod (cellIndex x + 1) + cellIndex y ≤ 254) :
    noise2D x y = noise2DRef x y := by
  have hx := cellIndex_eq x
  have hy := cellIndex_eq y
  have hX0 : 0 ≤ cellIndex x := by omega
  have hY0 : 0 ≤ cellIndex y := by omega
  have tA := tableMod_nonneg (cellIndex x)
  have tB := tableMod_nonneg (cellIndex x + 1)
  have hpX := pAt_eq_tableMod hX0 (by omega)
  have hpX1 : pAt (Val.int (cellIndex x + 1)) = Val.int (tableMod (cellIndex x + 1)) :=
    pAt_eq_tableMod (by omega) (by omega)
  have hiA : indexA x y = Val.int (tableMod (cellIndex x) + cellIndex y) := by
    unfold indexA
    rw [hpX]
    rfl
  have hiB : indexB x y = Val.int (tableMod (cellIndex x + 1) + cellIndex y) := by
    unfold indexB
    rw [hpX1]
    rfl
  have hadd : ∀ k : ℤ, (Val.int k).add 1 = Val.int (k + 1) := fun _ => rfl
  have h00 := pAt_eq_tableMod (i := tableMod (cellIndex x) + cellIndex y) (by omega) (by omega)
  have h10 := pAt_eq_tableMod (i := tableMod (cellIndex x + 1) + cellIndex y) (by omega)
    (by omega)
  have h01 := pAt_eq_tableMod (i := tableMod (cellIndex x) + cellIndex y + 1) (by omega)
    (by omega)
  have h11 := pAt_eq_tableMod (i := tableMod (cellIndex x + 1) + cellIndex y + 1) (by omega)
    (by omega)
  simp only [noise2D, noise2DRef, refHash, add_zero, ← hx, ← hy, hiA, hiB, hadd, h00, h10, h01,
    h11]
  rfl

/-! ### The origin vertex and the centre peak -/

theorem noise2D_origin : noise2D (0 : ℝ) 0 = 0 := by
  have h0 : cellOffset (0 : ℝ) = 0 := by
    have := cellOffset_intCast (α := ℝ) 0
    simpa using this
  simp only [noise2D, h0, grad2D_zero, fade_zero, lerp_zero]

theorem centerPeak_eq (x y : ℝ) :
    centerPeak Real.sqrt x y = max 0 (100 - Real.sqrt (x * x + y * y) * 0.3) := rfl

theorem sqrt_two_lt : Real.sqrt 2 < 1.415 := by
  rw [Real.sqrt_lt' (by norm_num)]
  norm_num

theorem sqrt_mesh_le {x y : ℝ} (hx : |x| ≤ 200) (hy : |y| ≤ 200) :
    Real.sqrt (x * x + y * y) ≤ 200 * Real.sqrt 2 := by
  have hx2 : x * x ≤ 200 * 200 := by
    have := abs_le.mp hx
    nlinarith
  have hy2 : y * y ≤ 200 * 200 := by
    have := abs_le.mp hy
    nlinarith
  have h : Real.sqrt (x * x + y * y) ≤ Real.sqrt (200 ^ 2 * 2) :=
    Real.sqrt_le_sqrt (by nlinarith)
  rw [Real.sqrt_mul (by norm_num), Real.sqrt_sq (by norm_num)] at h
  exact h

/-! ### The active navigation dot -/

theorem activeDots_count_of_mem {n : ℕ} {k : ℤ} (h0 : 0 ≤ k) (h1 : k < n) :
    (activeDots n k).count true = 1 := by
  have hf : (fun i : ℕ => decide ((i : ℤ) = k)) = fun i : ℕ => i == k.toNat := by
    funext i
    rw [Bool.eq_iff_iff]
    simp only [decide_eq_true_eq, beq_iff_eq]
    omega
  have hmem : k.toNat ∈ List.range n := List.mem_range.2 (by omega)
  unfold activeDots
  rw [hf, List.count_eq_countP, List.countP_map]
  have hc : List.countP ((fun x => x == true) ∘ fun i : ℕ => i == k.toNat) (List.range n) =
      List.count k.toNat (List.range n) := by
    rw [List.count_eq_countP]
    congr 1
    funext i
    simp
  rw [hc]
  exact List.count_eq_one_of_mem (List.nodup_range n) hmem

theorem activeDots_count_of_ge {n : ℕ} {k : ℤ} (h : (n : ℤ) ≤ k) :
    (activeDots n k).count true = 0 := by
  unfold activeDots
  rw [List.count_eq_zero]
  intro hmem
  obtain ⟨i, hi, hd⟩ := List.mem_map.1 hmem
  have hlt := List.mem_range.1 hi
  have : (i : ℤ) = k := of_decide_eq_true hd
  omega

theorem floor_progress_bounds {n : ℕ} {progress : ℝ} (hp : progress ∈ Set.Icc (0 : ℝ) 1) :
    0 ≤ ⌊progress * (n : ℝ)⌋ ∧ ⌊progress * (n : ℝ)⌋ ≤ n := by
  have hn : (0 : ℝ) ≤ n := Nat.cast_nonneg n
  constructor
  · exact Int.floor_nonneg.2 (mul_nonneg hp.1 hn)
  · have h1 : progress * (n : ℝ) ≤ n := by
      have := mul_le_mul_of_nonneg_right hp.2 hn
      linarith
    have h2 : ⌊progress * (n : ℝ)⌋ ≤ ⌊(n : ℝ)⌋ := Int.floor_le_floor h1
    rw [Int.floor_natCast] at h2
    exact h2

/-! ### Mouse follow and easing -/

theorem easing_eq (t : ℝ) :
    easing (fun a b : ℝ => a ^ b) t = min 1 (1.001 - (2 : ℝ) ^ (-10 * t)) := rfl

/-! ### The state program, rounding to double precision, and the pointer state -/

theorem noise2D_run {α : Type} [LinearOrderedField α] [FloorRing α] {β : Type}
    (s : Instance β) (x y : α) : s.noise2D x y = (noise2DOn s.p x y, s) := rfl

theorem roundHalfEven_bounds (q : ℚ) : ⌊q⌋ ≤ roundHalfEven q ∧ roundHalfEven q ≤ ⌊q⌋ + 1 := by
  unfold roundHalfEven
  dsimp only
  split_ifs <;> constructor <;> omega

theorem roundHalfEven_intCast (n : ℤ) : roundHalfEven (n : ℚ) = n := by
  unfold roundHalfEven
  dsimp only
  rw [Int.floor_intCast, sub_self, if_pos (by norm_num)]

theorem roundHalfEven_up {q : ℚ} {f : ℤ} (h1 : (f : ℚ) + 1 / 2 < q) (h2 : q < (f : ℚ) + 1) :
    roundHalfEven q = f + 1 := by
  have hf : ⌊q⌋ = f := by
    rw [Int.floor_eq_iff]
    constructor <;> linarith
  unfold roundHalfEven
  dsimp only
  rw [hf, if_neg (by linarith), if_pos (by linarith)]

theorem int_log_two_eq {r : ℚ} {e : ℤ} (h0 : 0 < r) (hlo : (2 : ℚ) ^ e ≤ r)
    (hhi : r < (2 : ℚ) ^ (e + 1)) : Int.log 2 r = e := by
  have hb : 1 < 2 := by norm_num
  have h1 : e ≤ Int.log 2 r := (Int.zpow_le_iff_le_log hb h0).1 (by simpa using hlo)
  have h2 : Int.log 2 r < e + 1 := (Int.lt_zpow_iff_log_lt hb h0).1 (by simpa using hhi)
  omega

theorem roundDouble_unit_bounds {d : ℚ} (h0 : 0 ≤ d) (h1 : d < 1) :
    0 ≤ roundDouble d ∧ roundDouble d ≤ 1 := by
  unfold roundDouble
  by_cases hz : d = 0
  · rw [if_pos hz]
    norm_num
  · rw [if_neg hz]
    have hpos : 0 < d := lt_of_le_of_ne h0 (Ne.symm hz)
    rw [abs_of_pos hpos]
    dsimp only
    generalize he : Int.log 2 d = e
    have hb : 1 < 2 := by norm_num
    have hlt : d < (2 : ℚ) ^ (e + 1) := by
      have := Int.lt_zpow_succ_log_self hb d
      rw [he] at this
      simpa using this
    have hneg : e < 0 := by
      rw [← he]
      exact (Int.lt_zpow_iff_log_lt hb hpos).1 (by simpa using h1)
    have hu : (0 : ℚ) < 2 ^ (e - 52) := zpow_pos (by norm_num) _
    have hsplit : (2 : ℚ) ^ (e + 1) = 9007199254740992 * 2 ^ (e - 52) := by
      have : e + 1 = 53 + (e - 52) := by ring
      rw [this, zpow_add₀ (by norm_num)]
      norm_num
    have ht0 : 0 ≤ d / 2 ^ (e - 52) := div_nonneg h0 hu.le
    have ht1 : d / 2 ^ (e - 52) < ((9007199254740992 : ℤ) : ℚ) := by
      rw [div_lt_iff₀ hu]
      push_cast
      linarith
    have hf0 : 0 ≤ ⌊d / 2 ^ (e - 52)⌋ := Int.floor_nonneg.2 ht0
    have hf1 : ⌊d / 2 ^ (e - 52)⌋ < 9007199254740992 := Int.floor_lt.2 ht1
    obtain ⟨hr0, hr1⟩ := roundHalfEven_bounds (d / 2 ^ (e - 52))
    have hn0 : (0 : ℚ) ≤ (roundHalfEven (d / 2 ^ (e - 52)) : ℚ) := by
      exact_mod_cast (by omega : 0 ≤ roundHalfEven (d / 2 ^ (e - 52)))
    have hn1 : (roundHalfEven (d / 2 ^ (e - 52)) : ℚ) ≤ 9007199254740992 := by
      exact_mod_cast (by omega : roundHalfEven (d / 2 ^ (e - 52)) ≤ 9007199254740992)
    have hone : (2 : ℚ) ^ (e + 1) ≤ 1 := zpow_le_one_of_nonpos₀ (by norm_num) (by omega)
    constructor
    · exact mul_nonneg hn0 hu.le
    · calc (roundHalfEven (d / 2 ^ (e - 52)) : ℚ) * 2 ^ (e - 52)
          ≤ 9007199254740992 * 2 ^ (e - 52) := mul_le_mul_of_nonneg_right hn1 hu.le
        _ = (2 : ℚ) ^ (e + 1) := hsplit.symm
        _ ≤ 1 := hone

theorem cellOffsetDouble_bounds (q : ℚ) : 0 ≤ cellOffsetDouble q ∧ cellOffsetDouble q ≤ 1 :=
  roundDouble_unit_bounds (cellOffset_nonneg q) (cellOffset_lt_one q)

theorem roundDouble_tiny : roundDouble (-(1 / 2 ^ 60)) = -(1 / 2 ^ 60) := by
  have hl : Int.log 2 |(-(1 / 2 ^ 60) : ℚ)| = -60 := by
    rw [abs_neg, abs_of_pos (by norm_num)]
    apply int_log_two_eq <;> norm_num
  unfold roundDouble
  rw [if_neg (by norm_num)]
  dsimp only
  rw [hl]
  have ht : (-(1 / 2 ^ 60) : ℚ) / 2 ^ ((-60 : ℤ) - 52) = ((-4503599627370496 : ℤ) : ℚ) := by
    norm_num
  rw [ht, roundHalfEven_intCast]
  norm_num

theorem cellOffsetDouble_tiny : cellOffsetDouble (-(1 / 2 ^ 60)) = 1 := by
  have hf : ⌊(-(1 / 2 ^ 60) : ℚ)⌋ = -1 := by
    rw [Int.floor_eq_iff]
    constructor <;> norm_num
  have hd : (-(1 / 2 ^ 60) : ℚ) - ((-1 : ℤ) : ℚ) = 1152921504606846975 / 1152921504606846976 := by
    norm_num
  have hl : Int.log 2 |(1152921504606846975 / 1152921504606846976 : ℚ)| = -1 := by
    rw [abs_of_pos (by norm_num)]
    apply int_log_two_eq <;> norm_num
  have hr : roundHalfEven ((1152921504606846975 / 1152921504606846976 : ℚ) /
      2 ^ ((-1 : ℤ) - 52)) = 9007199254740991 + 1 := by
    apply roundHalfEven_up <;> norm_num
  unfold cellOffsetDouble roundDouble
  rw [hf, hd, if_neg (by norm_num)]
  dsimp only
  rw [hl, hr]
  norm_num

theorem cellOffsetDouble_five_halves : cellOffsetDouble (5 / 2) = 1 / 2 := by
  have hf : ⌊(5 / 2 : ℚ)⌋ = 2 := by
    rw [Int.floor_eq_iff]
    constructor <;> norm_num
  have hd : (5 / 2 : ℚ) - ((2 : ℤ) : ℚ) = 1 / 2 := by norm_num
  have hl : Int.log 2 |(1 / 2 : ℚ)| = -1 := by
    rw [abs_of_pos (by norm_num)]
    apply int_log_two_eq <;> norm_num
  have ht : (1 / 2 : ℚ) / 2 ^ ((-1 : ℤ) - 52) = ((4503599627370496 : ℤ) : ℚ) := by
    norm_num
  unfold cellOffsetDouble roundDouble
  rw [hf, hd, if_neg (by norm_num)]
  dsimp only
  rw [hl, ht, roundHalfEven_intCast]
  norm_num

theorem centerPeak_range (x y : ℝ) :
    0 ≤ centerPeak Real.sqrt x y ∧ centerPeak Real.sqrt x y ≤ 100 := by
  rw [centerPeak_eq]
  constructor
  · exact le_max_left _ _
  · apply max_le
    · norm_num
    · norm_num

theorem centerPeak_antitone {x y x' y' : ℝ}
    (hfar : Real.sqrt (x * x + y * y) ≤ Real.sqrt (x' * x' + y' * y')) :
    centerPeak Real.sqrt x' y' ≤ centerPeak Real.sqrt x y := by
  rw [centerPeak_eq, centerPeak_eq]
  apply max_le_max le_rfl
  norm_num
  linarith

theorem smoothFollow_stays {x t : ℝ} (hx : x ∈ Set.Icc (-1 : ℝ) 1) (ht : t ∈ Set.Icc (-1 : ℝ) 1) :
    x + (t - x) * 0.05 ∈ Set.Icc (-1 : ℝ) 1 := by
  obtain ⟨a, b⟩ := hx
  obtain ⟨c, d⟩ := ht
  constructor <;> norm_num <;> linarith

theorem smoothFollow_gap (x t : ℝ) : |t - (x + (t - x) * 0.05)| = 0.95 * |t - x| := by
  have hd : t - (x + (t - x) * 0.05) = 0.95 * (t - x) := by
    norm_num
    ring
  rw [hd, abs_mul, abs_of_nonneg (by norm_num : (0 : ℝ) ≤ 0.95)]

/-! ## Properties of the height-field generator -/

set_option maxRecDepth 100000 in
/-- C1 (evaluation at the failing input): at `(x, y) = (-1/2, 1/2)` the cell
index is `X = 255`, so `noise2D` reads the table at `X + 1 = 256`, past its
256 entries; the read yields `undefined`, the index `B` becomes `NaN`, and two
of the four corner hashes are `undefined` rather than integers in `[0, 255]`. -/
theorem tableReads_past_end :
    tableReads (-1 / 2 : ℝ) (1 / 2) =
        [Val.int 255, Val.int 256, Val.int 180, Val.nan, Val.int 181, Val.nan] ∧
      ¬ (∀ i ∈ tableReads (-1 / 2 : ℝ) (1 / 2), i.InBounds) ∧
      cornerHashes (-1 / 2 : ℝ) (1 / 2) =
        [Val.int 19, Val.undefined, Val.int 98, Val.undefined] := by
  obtain ⟨-, -, h180, h181, hnan⟩ := pAt_samples
  have hA1 : (Val.int 180).add 1 = Val.int 181 := rfl
  have hB1 : Val.nan.add 1 = Val.nan := rfl
  have hreads : tableReads (-1 / 2 : ℝ) (1 / 2) =
      [Val.int 255, Val.int 256, Val.int 180, Val.nan, Val.int 181, Val.nan] := by
    simp only [tableReads, cellIndex_neg_half, indexA_sample, indexB_sample, hA1, hB1]
    rfl
  refine ⟨hreads, ?_, ?_⟩
  · rw [hreads]
    decide
  · simp only [cornerHashes, indexA_sample, indexB_sample, hA1, hB1, h180, h181, hnan]

/-- C2 (evaluation at the failing input): on the lattice line `x = 0`, at
`y = 1/2`, `noise2D` jumps: its limit from the left is `0` while its value on
the line is `1/4`, so `noise2D (0 + e) (1/2)` does not tend to
`noise2D 0 (1/2)` as `e` tends to `0` from the left. -/
theorem noise2D_jump_at_zero :
    Filter.Tendsto (fun e : ℝ => noise2D (0 + e) (1 / 2)) (nhdsWithin 0 (Set.Iio 0)) (nhds 0) ∧
      noise2D (0 : ℝ) (1 / 2) = 1 / 4 ∧
      ¬ Filter.Tendsto (fun e : ℝ => noise2D (0 + e) (1 / 2)) (nhdsWithin 0 (Set.Iio 0))
        (nhds (noise2D (0 : ℝ) (1 / 2))) := by
  have hcont : Continuous (fun e : ℝ =>
      lerp (1 / 2) (lerp (fade (e + 1)) (-(1 / 2) - 2 * (e + 1)) (e + 1))
        (lerp (fade (e + 1)) (-(1 / 2) - 2 * (e + 1)) (e - 1))) := by
    unfold lerp fade
    fun_prop
  have hlim0 : Filter.Tendsto (fun e : ℝ =>
      lerp (1 / 2) (lerp (fade (e + 1)) (-(1 / 2) - 2 * (e + 1)) (e + 1))
        (lerp (fade (e + 1)) (-(1 / 2) - 2 * (e + 1)) (e - 1)))
      (nhdsWithin 0 (Set.Iio 0)) (nhds 0) := by
    have h := (hcont.tendsto 0).mono_left (nhdsWithin_le_nhds (s := Set.Iio 0))
    have hv : lerp (1 / 2 : ℝ) (lerp (fade (0 + 1)) (-(1 / 2) - 2 * (0 + 1)) (0 + 1))
        (lerp (fade (0 + 1)) (-(1 / 2) - 2 * (0 + 1)) (0 - 1)) = 0 := by
      unfold lerp fade
      norm_num
    rw [hv] at h
    exact h
  have hev : (fun e : ℝ => lerp (1 / 2) (lerp (fade (e + 1)) (-(1 / 2) - 2 * (e + 1)) (e + 1))
        (lerp (fade (e + 1)) (-(1 / 2) - 2 * (e + 1)) (e - 1)))
      =ᶠ[nhdsWithin 0 (Set.Iio 0)] (fun e : ℝ => noise2D (0 + e) (1 / 2)) := by
    have hmem : Set.Ioo (-1 : ℝ) 0 ∈ nhdsWithin (0 : ℝ) (Set.Iio 0) :=
      Ioo_mem_nhdsWithin_Iio' (by norm_num)
    filter_upwards [hmem] with e he
    exact (noise2D_left_of_zero he.1 he.2).symm
  have hleft := hlim0.congr' hev
  refine ⟨hleft, noise2D_zero_half, ?_⟩
  intro hbad
  have huniq := tendsto_nhds_unique hleft hbad
  rw [noise2D_zero_half] at huniq
  norm_num at huniq

/-- C3: in exact arithmetic `noise2D` has period 256 in each argument. -/
theorem noise2D_periodic (x y : ℝ) :
    noise2D (x + 256) y = noise2D x y ∧ noise2D x (y + 256) = noise2D x y := by
  constructor
  · simp only [noise2D, indexA, indexB, cellIndex_add_256, cellOffset_add_256]
  · simp only [noise2D, indexA, indexB, cellIndex_add_256, cellOffset_add_256]

/-- C4 (evaluation at the failing input): at `(x, y) = (-1/2, 1/2)` the code
returns `-1`, whereas the reference noise with table reads wrapped modulo 256
gives `-1/4`. -/
theorem noise2D_ne_reference :
    noise2D (-1 / 2 : ℝ) (1 / 2) = -1 ∧ noise2DRef (-1 / 2 : ℝ) (1 / 2) = -1 / 4 := by
  obtain ⟨-, -, h180, h181, hnan⟩ := pAt_samples
  have hA1 : (Val.int 180).add 1 = Val.int 181 := rfl
  have hB1 : Val.nan.add 1 = Val.nan := rfl
  constructor
  · have e19 : (Val.int 19).and 3 = 3 := by decide
    have e98 : (Val.int 98).and 3 = 2 := by decide
    have eu : Val.undefined.and 3 = 0 := by decide
    simp only [noise2D, indexA_sample, indexB_sample, cellOffset_neg_half, cellOffset_half,
      hA1, hB1, h180, h181, hnan, grad2D_and3 e19, grad2D_and2 e98, grad2D_and0 eu, fade, lerp]
    norm_num
  · have r00 : (Val.int (refHash 255 0 0 0)).and 3 = 3 := by decide
    have r10 : (Val.int (refHash 255 0 1 0)).and 3 = 1 := by decide
    have r01 : (Val.int (refHash 255 0 0 1)).and 3 = 2 := by decide
    have r11 : (Val.int (refHash 255 0 1 1)).and 3 = 2 := by decide
    have m255 : (-1 : ℤ) % 256 = 255 := by decide
    have m0 : (0 : ℤ) % 256 = 0 := by decide
    simp only [noise2DRef, floor_neg_half, floor_half, m255, m0,
      grad2D_and3 r00, grad2D_and1 r10, grad2D_and2 r01, grad2D_and2 r11, fade, lerp]
    norm_num

/-- C5: the table `p` has exactly 256 entries and every integer from 0 to 255
occurs in it exactly once. -/
theorem p_is_permutation : p.length = 256 ∧ ∀ v < 256, p.count v = 1 := by
  refine ⟨?_, fun v hv => ?_⟩
  · rw [p_perm_range.length_eq, List.length_range]
  · rw [p_perm_range.count_eq]
    exact List.count_eq_one_of_mem (List.nodup_range 256) (List.mem_range.2 hv)

/-- C6: at every lattice point (both coordinates integers) `noise2D` is `0`:
both offsets and both fade weights are `0` there, and the dot product of the
selected corner `p[A]` with the zero offset is `0`. -/
theorem noise2D_lattice (m n : ℤ) :
    noise2D (m : ℝ) (n : ℝ) = 0 ∧
      fade (cellOffset (m : ℝ)) = 0 ∧ fade (cellOffset (n : ℝ)) = 0 ∧
      grad2D (pAt (indexA (m : ℝ) (n : ℝ))) (cellOffset (m : ℝ)) (cellOffset (n : ℝ)) = 0 ∧
      noise2D (0 : ℝ) 0 = 0 ∧ noise2D (10 : ℝ) 10 = 0 := by
  have hf0 : fade (0 : ℝ) = 0 := by unfold fade; ring
  have key : ∀ a b : ℤ, noise2D (a : ℝ) (b : ℝ) = 0 := by
    intro a b
    simp only [noise2D, cellOffset_intCast, grad2D_zero, fade, lerp]
    ring
  refine ⟨key m n, ?_, ?_, ?_, ?_, ?_⟩
  · rw [cellOffset_intCast, hf0]
  · rw [cellOffset_intCast, hf0]
  · rw [cellOffset_intCast, cellOffset_intCast, grad2D_zero]
  · simpa using key 0 0
  · simpa using key 10 10

/-- C7: for every real `x` and `y`, `-1.5 ≤ noise2D(x, y) ≤ 1.5`. -/
theorem noise2D_range (x y : ℝ) : -(3 / 2) ≤ noise2D x y ∧ noise2D x y ≤ 3 / 2 :=
  blend_range _ _ _ _ (cellOffset_nonneg x) (cellOffset_lt_one x).le
    (cellOffset_nonneg y) (cellOffset_lt_one y).le

/-- C8: run on JavaScript values, `noise2D` at finite numbers `x` and `y`
returns a finite number (the value of `noise2D x y`), never `NaN` or
`undefined`; this covers the inputs whose table reads yield `undefined`. -/
theorem noise2D_never_fails (x y : ℝ) :
    JSVal.noise2D (JSVal.num x) (JSVal.num y) = JSVal.num (noise2D x y) :=
  JSVal.noise2D_num x y

/-- C9 (counterexample): `-2^(-60)` is a double (rounding leaves it as it is),
its floor is `-1`, and the offset the code computes for it, the double nearest
to `1 - 2^(-60)`, is exactly `1`; so the offset of a double is not always
below `1`. -/
theorem cellOffset_double_reaches_one :
    roundDouble (-(1 / 2 ^ 60)) = -(1 / 2 ^ 60) ∧ ⌊(-(1 / 2 ^ 60) : ℚ)⌋ = -1 ∧
      cellOffsetDouble (-(1 / 2 ^ 60)) = 1 ∧
      ¬ (∀ x : ℚ, roundDouble x = x → 0 ≤ cellOffsetDouble x ∧ cellOffsetDouble x < 1) := by
  have hf : ⌊(-(1 / 2 ^ 60) : ℚ)⌋ = -1 := by
    rw [Int.floor_eq_iff]
    constructor <;> norm_num
  refine ⟨roundDouble_tiny, hf, cellOffsetDouble_tiny, ?_⟩
  intro h
  have h1 := (h _ roundDouble_tiny).2
  rw [cellOffsetDouble_tiny] at h1
  exact lt_irrefl _ h1

/-- C9 (amended): the cell index `Math.floor(x) & 255` (`ToInt32` of both
operands, then the bitwise and) is `floor(x) mod 256`, a value in `0..255`,
for every `x` (negative or beyond the 32-bit range included); the offset
`x - floor(x)` lies in `[0, 1)` in exact arithmetic, and the offset computed in
double precision lies in `[0, 1]` (the value `1` is reached; at `5/2` it is
`1/2`). -/
theorem cellIndex_cellOffset_spec (x : ℝ) (q : ℚ) :
    cellIndex x = ⌊x⌋ % 256 ∧ bitAnd (toInt32 ⌊x⌋) (toInt32 255) = ⌊x⌋ % 256 ∧
      0 ≤ cellIndex x ∧ cellIndex x ≤ 255 ∧ 0 ≤ cellOffset x ∧ cellOffset x < 1 ∧
      cellIndex q = ⌊q⌋ % 256 ∧ 0 ≤ cellIndex q ∧ cellIndex q ≤ 255 ∧
      0 ≤ cellOffsetDouble q ∧ cellOffsetDouble q ≤ 1 ∧
      cellOffsetDouble (5 / 2) = 1 / 2 := by
  have h := cellIndex_eq x
  have hq := cellIndex_eq q
  have h2 : bitAnd (toInt32 ⌊x⌋) (toInt32 255) = ⌊x⌋ % 256 := by
    rw [bitAnd_toInt32]
    exact h
  exact ⟨h, h2, by omega, by omega, cellOffset_nonneg x, cellOffset_lt_one x, hq, by omega,
    by omega, (cellOffsetDouble_bounds q).1, (cellOffsetDouble_bounds q).2,
    cellOffsetDouble_five_halves⟩

/-- C10: `fade` as coded in Horner form is the quintic `6t^5 - 15t^4 + 10t^3`. -/
theorem fade_eq_quintic (t : ℝ) : fade t = 6 * t ^ 5 - 15 * t ^ 4 + 10 * t ^ 3 := by
  unfold fade
  ring

/-- C11: `fade 0 = 0`, `fade 1 = 1`, and the first and second derivatives of
`fade` vanish at `0` and at `1`. -/
theorem fade_endpoints :
    fade (0 : ℝ) = 0 ∧ fade (1 : ℝ) = 1 ∧
      deriv (fun t : ℝ => fade t) 0 = 0 ∧ deriv (fun t : ℝ => fade t) 1 = 0 ∧
      deriv (deriv (fun t : ℝ => fade t)) 0 = 0 ∧ deriv (deriv (fun t : ℝ => fade t)) 1 = 0 := by
  refine ⟨by unfold fade; ring, by unfold fade; ring, ?_, ?_, ?_, ?_⟩
  · rw [(fade_hasDerivAt 0).deriv]; norm_num
  · rw [(fade_hasDerivAt 1).deriv]; norm_num
  · rw [(deriv_fade_hasDerivAt 0).deriv]; norm_num
  · rw [(deriv_fade_hasDerivAt 1).deriv]; norm_num

/-- C12: `grad2D` depends on an integer hash only through `hash mod 4`, and for
`hash mod 4 = 0, 1, 2, 3` it is the dot product of `(x, y)` with `(1, 2)`,
`(-1, 2)`, `(-2, 1)`, `(-2, -1)`: four pairwise distinct directions. -/
theorem grad2D_low_bits (n : ℤ) (x y : ℝ) :
    grad2D (Val.int n) x y = grad2D (Val.int (n % 4)) x y ∧
      grad2D (Val.int n) x y =
        (if n % 4 = 0 then x + 2 * y else if n % 4 = 1 then -x + 2 * y
          else if n % 4 = 2 then y - 2 * x else -y - 2 * x) ∧
      grad2D (Val.int n) x y =
        (if n % 4 = 0 then 1 * x + 2 * y else if n % 4 = 1 then (-1) * x + 2 * y
          else if n % 4 = 2 then (-2) * x + 1 * y else (-2) * x + (-1) * y) ∧
      [((1 : ℤ), (2 : ℤ)), (-1, 2), (-2, 1), (-2, -1)].Nodup := by
  have hn : (Val.int n).and 3 = n % 4 := bitAnd_3 n
  have hm : (Val.int (n % 4)).and 3 = n % 4 := by
    have h := bitAnd_3 (n % 4)
    rw [Int.emod_emod_of_dvd n (by norm_num : (4 : ℤ) ∣ 4)] at h
    exact h
  have hc : n % 4 = 0 ∨ n % 4 = 1 ∨ n % 4 = 2 ∨ n % 4 = 3 := by omega
  refine ⟨?_, ?_, ?_, by decide⟩
  · rcases hc with h | h | h | h
    · rw [grad2D_and0 (hn.trans h), grad2D_and0 (hm.trans h)]
    · rw [grad2D_and1 (hn.trans h), grad2D_and1 (hm.trans h)]
    · rw [grad2D_and2 (hn.trans h), grad2D_and2 (hm.trans h)]
    · rw [grad2D_and3 (hn.trans h), grad2D_and3 (hm.trans h)]
  · rcases hc with h | h | h | h
    · rw [grad2D_and0 (hn.trans h), h]; simp
    · rw [grad2D_and1 (hn.trans h), h]; simp
    · rw [grad2D_and2 (hn.trans h), h]; simp
    · rw [grad2D_and3 (hn.trans h), h]; simp
  · rcases hc with h | h | h | h
    · rw [grad2D_and0 (hn.trans h), h]; simp
    · rw [grad2D_and1 (hn.trans h), h]; simp
    · rw [grad2D_and2 (hn.trans h), h]; simp; ring
    · rw [grad2D_and3 (hn.trans h), h]; simp; ring

/-- C13: `fade (1/2) = 1/2`, and at the centre of every cell `noise2D` is the
arithmetic mean of the four corner dot products. -/
theorem noise2D_cell_centre (m n : ℤ) :
    fade (1 / 2 : ℝ) = 1 / 2 ∧
      noise2D ((m : ℝ) + 1 / 2) ((n : ℝ) + 1 / 2) =
        (grad2D (pAt (indexA ((m : ℝ) + 1 / 2) ((n : ℝ) + 1 / 2))) (1 / 2 : ℝ) (1 / 2) +
          grad2D (pAt (indexB ((m : ℝ) + 1 / 2) ((n : ℝ) + 1 / 2))) (-1 / 2 : ℝ) (1 / 2) +
          grad2D (pAt ((indexA ((m : ℝ) + 1 / 2) ((n : ℝ) + 1 / 2)).add 1)) (1 / 2 : ℝ) (-1 / 2) +
          grad2D (pAt ((indexB ((m : ℝ) + 1 / 2) ((n : ℝ) + 1 / 2)).add 1)) (-1 / 2 : ℝ) (-1 / 2)) /
          4 := by
  have hf : fade (1 / 2 : ℝ) = 1 / 2 := by unfold fade; norm_num
  have hx : cellOffset ((m : ℝ) + 1 / 2) = 1 / 2 := by
    rw [cellOffset_of_floor (floor_add_half m)]; ring
  have hy : cellOffset ((n : ℝ) + 1 / 2) = 1 / 2 := by
    rw [cellOffset_of_floor (floor_add_half n)]; ring
  have e1 : (1 / 2 : ℝ) - 1 = -1 / 2 := by norm_num
  refine ⟨hf, ?_⟩
  simp only [noise2D, hx, hy, hf, e1]
  unfold lerp
  ring

set_option maxRecDepth 100000 in
/-- C14: each of the four values of `entry & 3`, hence each of the four
gradient directions of `grad2D`, is selected by exactly 64 of the 256 entries
of `p`. -/
theorem p_low_bits_uniform :
    p.countP (fun e => decide ((Val.int e).and 3 = 0)) = 64 ∧
      p.countP (fun e => decide ((Val.int e).and 3 = 1)) = 64 ∧
      p.countP (fun e => decide ((Val.int e).and 3 = 2)) = 64 ∧
      p.countP (fun e => decide ((Val.int e).and 3 = 3)) = 64 := by
  decide

/-- C15: with `noise2D` run as a program on the state of the object, a call
leaves the object (its table included) as it was, a second call at the same
`(x, y)` returns the same result, two objects with the same table `p` return
the same result whatever their other fields are, the result is the value
`noise2DOn` of `x`, `y` and the table, and for the table of the source it is
`noise2D x y`. -/
theorem noise2D_deterministic {β : Type} (s s' : Instance β) (x y : ℝ) (hp : s'.p = s.p) :
    (s.noise2D x y).2 = s ∧
      ((s.noise2D x y).2.noise2D x y).1 = (s.noise2D x y).1 ∧
      (s'.noise2D x y).1 = (s.noise2D x y).1 ∧
      (s.noise2D x y).1 = noise2DOn s.p x y ∧
      (∀ fields : β, ((Instance.mk p fields).noise2D x y).1 = noise2D x y) := by
  refine ⟨?_, ?_, ?_, ?_, ?_⟩
  · rw [noise2D_run]
  · rw [noise2D_run, noise2D_run]
  · rw [noise2D_run, noise2D_run, hp]
  · rw [noise2D_run]
  · intro fields
    rw [noise2D_run]
    exact noise2DOn_p x y

/-- Witness of C15: two objects with the table of the source and different
other fields, at `(5/2, 3/4)`. -/
theorem noise2D_deterministic_witness :
    (Instance.mk p (1 : ℕ)).p = (Instance.mk p (0 : ℕ)).p ∧
      ((Instance.mk p (1 : ℕ)).noise2D (5 / 2 : ℝ) (3 / 4)).1 =
        ((Instance.mk p (0 : ℕ)).noise2D (5 / 2 : ℝ) (3 / 4)).1 ∧
      ((Instance.mk p (0 : ℕ)).noise2D (5 / 2 : ℝ) (3 / 4)).2 = Instance.mk p (0 : ℕ) :=
  ⟨rfl, (noise2D_deterministic (Instance.mk p 0) (Instance.mk p 1) (5 / 2) (3 / 4) rfl).2.2.1,
    (noise2D_deterministic (Instance.mk p 0) (Instance.mk p 1) (5 / 2) (3 / 4) rfl).1⟩

/-- C16 (counterexample): `noise2D (5/2) (3/4) = -2145/2048 < -1`, so a single
octave does not stay in the unit range. -/
theorem noise2D_exceeds_unit_range :
    noise2D (5 / 2 : ℝ) (3 / 4) = -2145 / 2048 ∧
      ¬ (∀ x y : ℝ, -1 ≤ noise2D x y ∧ noise2D x y ≤ 1) := by
  obtain ⟨h2, h3, h137, h138, h91, h92⟩ := pAt_cell_2_0
  have hX : cellIndex (5 / 2 : ℝ) = 2 := by
    rw [cellIndex_of_floor floor_five_halves]; decide
  have hY : cellIndex (3 / 4 : ℝ) = 0 := by
    rw [cellIndex_of_floor floor_three_quarters]; decide
  have hfx : cellOffset (5 / 2 : ℝ) = 1 / 2 := by
    rw [cellOffset_of_floor floor_five_halves]; norm_num
  have hfy : cellOffset (3 / 4 : ℝ) = 3 / 4 := by
    rw [cellOffset_of_floor floor_three_quarters]; norm_num
  have hA : indexA (5 / 2 : ℝ) (3 / 4) = Val.int 137 := by
    unfold indexA
    rw [hX, hY, h2]
    rfl
  have hB : indexB (5 / 2 : ℝ) (3 / 4) = Val.int 91 := by
    unfold indexB
    rw [hX, hY]
    have h : (2 : ℤ) + 1 = 3 := rfl
    rw [h, h3]
    rfl
  have hA1 : (Val.int 137).add 1 = Val.int 138 := rfl
  have hB1 : (Val.int 91).add 1 = Val.int 92 := rfl
  have e147 : (Val.int 147).and 3 = 3 := by decide
  have e40 : (Val.int 40).and 3 = 0 := by decide
  have e118 : (Val.int 118).and 3 = 2 := by decide
  have e244 : (Val.int 244).and 3 = 0 := by decide
  have hval : noise2D (5 / 2 : ℝ) (3 / 4) = -2145 / 2048 := by
    simp only [noise2D, hA, hB, hfx, hfy, hA1, hB1, h137, h138, h91, h92,
      grad2D_and3 e147, grad2D_and0 e40, grad2D_and2 e118, grad2D_and0 e244, fade, lerp]
    norm_num
  refine ⟨hval, ?_⟩
  intro h
  have h1 := (h (5 / 2) (3 / 4)).1
  rw [hval] at h1
  norm_num at h1

/-- C16 (amended): for every real `x` and `y`, `-6/5 ≤ noise2D(x, y) ≤ 6/5`. -/
theorem noise2D_range_tight (x y : ℝ) : -(6 / 5) ≤ noise2D x y ∧ noise2D x y ≤ 6 / 5 :=
  blend_range_tight _ _ _ _ (cellOffset_nonneg x) (cellOffset_lt_one x).le
    (cellOffset_nonneg y) (cellOffset_lt_one y).le

/-- C17: in every mountain variant the `z` written for a vertex is
`max(height, 0)`, hence non-negative, whatever `Math.sqrt`, `Math.pow`,
`Math.sin` and `Math.cos` return. -/
theorem heightLoop_clamps (sin cos sqrt : ℝ → ℝ) (pow : ℝ → ℝ → ℝ) (position : List (Vertex ℝ)) :
    (createHeightLoop sqrt pow position).map Vertex.z =
        position.map (fun v => max (createHeight sqrt pow v.x v.y) 0) ∧
      (simpleHeightLoop sin cos sqrt position).map Vertex.z =
        position.map (fun v => max (simpleHeight sin cos sqrt v.x v.y) 0) ∧
      (∀ i : Fin (createHeightLoop sqrt pow position).length,
        0 ≤ ((createHeightLoop sqrt pow position).get i).z) ∧
      (∀ i : Fin (simpleHeightLoop sin cos sqrt position).length,
        0 ≤ ((simpleHeightLoop sin cos sqrt position).get i).z) := by
  refine ⟨?_, ?_, ?_, ?_⟩
  · simp [createHeightLoop]
  · simp [simpleHeightLoop]
  · intro i
    simp [createHeightLoop]
  · intro i
    simp [simpleHeightLoop]

/-- C18: the sharpening step `s(h) = (|h| / 100)^1.3 * 100 * sign(h)` keeps the
sign of `h`: `s(h) > 0` iff `h > 0`, `s(h) < 0` iff `h < 0`, `s(0) = 0`, and
`s(-h) = -s(h)`. -/
theorem sharpen_sign (h : ℝ) :
    (0 < sharpen (fun a b : ℝ => a ^ b) h ↔ 0 < h) ∧
      (sharpen (fun a b : ℝ => a ^ b) h < 0 ↔ h < 0) ∧
      sharpen (fun a b : ℝ => a ^ b) 0 = 0 ∧
      sharpen (fun a b : ℝ => a ^ b) (-h) = -sharpen (fun a b : ℝ => a ^ b) h := by
  refine ⟨?_, ?_, sharpen_zero, ?_⟩
  · constructor
    · intro hs
      rcases lt_trichotomy h 0 with hh | hh | hh
      · have := sharpen_neg_of_neg hh
        linarith
      · rw [hh, sharpen_zero] at hs
        exact absurd hs (lt_irrefl 0)
      · exact hh
    · exact sharpen_pos
  · constructor
    · intro hs
      rcases lt_trichotomy h 0 with hh | hh | hh
      · exact hh
      · rw [hh, sharpen_zero] at hs
        exact absurd hs (lt_irrefl 0)
      · have := sharpen_pos hh
        linarith
    · exact sharpen_neg_of_neg
  · have hsgn : sign (-h) = -sign h := by
      rcases lt_trichotomy h 0 with hh | hh | hh
      · rw [sign_neg hh, sign_pos (neg_pos.mpr hh)]
        ring
      · rw [hh, neg_zero, sign_zero, neg_zero]
      · rw [sign_pos hh, sign_neg (neg_lt_zero.mpr hh)]
    unfold sharpen
    rw [hsgn, abs_neg]
    ring

/-- C19: for a draw `r` in `[0, 1)` (exact arithmetic) the loop of
`getStarColor` always returns inside the loop: blue for `r < 0.1`, white for
`0.1 ≤ r < 0.6`, yellow for `0.6 ≤ r < 0.85`, orange for `0.85 ≤ r < 0.95`, red
for `0.95 ≤ r < 1`; the weights sum to `1` and white has the largest weight. -/
theorem getStarColor_bands (r : ℝ) (hr : r ∈ Set.Ico (0 : ℝ) 1) :
    (starLoop r starColors 0).map StarColor.temp =
        some (if r < 1 / 10 then Temp.blue else if r < 6 / 10 then Temp.white
          else if r < 17 / 20 then Temp.yellow else if r < 19 / 20 then Temp.orange
          else Temp.red) ∧
      getStarColor r =
        (if r < 1 / 10 then ⟨0.7, 0.8, 1.0⟩ else if r < 6 / 10 then ⟨1.0, 1.0, 1.0⟩
          else if r < 17 / 20 then ⟨1.0, 0.95, 0.8⟩ else if r < 19 / 20 then ⟨1.0, 0.8, 0.6⟩
          else ⟨1.0, 0.6, 0.4⟩) ∧
      ((starColors : List (StarColor ℝ)).map StarColor.weight).sum = 1 ∧
      (starColors : List (StarColor ℝ)).map StarColor.weight =
        [1 / 10, 1 / 2, 1 / 4, 1 / 10, 1 / 20] ∧
      (1 / 10 : ℝ) < 1 / 2 ∧ (1 / 4 : ℝ) < 1 / 2 ∧ (1 / 20 : ℝ) < 1 / 2 := by
  have h1 := hr.2
  have e1 : (0 : ℝ) + 0.1 = 1 / 10 := by norm_num
  have e2 : (1 / 10 : ℝ) + 0.5 = 6 / 10 := by norm_num
  have e3 : (6 / 10 : ℝ) + 0.25 = 17 / 20 := by norm_num
  have e4 : (17 / 20 : ℝ) + 0.1 = 19 / 20 := by norm_num
  have e5 : (19 / 20 : ℝ) + 0.05 = 1 := by norm_num
  have hloop : starLoop r starColors 0 =
      (if r < 1 / 10 then some { temp := Temp.blue, color := ⟨0.7, 0.8, 1.0⟩, weight := 0.1 }
        else if r < 6 / 10 then
          some { temp := Temp.white, color := ⟨1.0, 1.0, 1.0⟩, weight := 0.5 }
        else if r < 17 / 20 then
          some { temp := Temp.yellow, color := ⟨1.0, 0.95, 0.8⟩, weight := 0.25 }
        else if r < 19 / 20 then
          some { temp := Temp.orange, color := ⟨1.0, 0.8, 0.6⟩, weight := 0.1 }
        else some { temp := Temp.red, color := ⟨1.0, 0.6, 0.4⟩, weight := 0.05 }) := by
    simp only [starLoop, starColors, e1, e2, e3, e4, e5, if_pos h1]
  refine ⟨?_, ?_, ?_, ?_, by norm_num, by norm_num, by norm_num⟩
  · rw [hloop]
    split_ifs <;> rfl
  · unfold getStarColor
    rw [hloop]
    split_ifs <;> rfl
  · simp only [starColors, List.map, List.sum_cons, List.sum_nil]
    norm_num
  · simp only [starColors, List.map]
    norm_num

/-- Witness of C19 at the draw `r = 1/2`. -/
theorem getStarColor_bands_witness :
    (1 / 2 : ℝ) ∈ Set.Ico (0 : ℝ) 1 ∧
      (starLoop (1 / 2 : ℝ) starColors 0).map StarColor.temp = some Temp.white := by
  have hmem : (1 / 2 : ℝ) ∈ Set.Ico (0 : ℝ) 1 := by
    constructor <;> norm_num
  refine ⟨hmem, ?_⟩
  have h := (getStarColor_bands (1 / 2) hmem).1
  rw [h]
  norm_num

/-- C20: across every lattice line that is not a multiple of 256 `noise2D` is
continuous: for an integer `n` with `n mod 256 ≠ 0` and every real `t`, the
left and right limits of `noise2D(., t)` at `x = n` equal `noise2D(n, t)`, and
likewise for `noise2D(t, .)` at `y = n`; the cell on the lower side reads the
shared corners at the same table indices as the cell on the upper side. -/
theorem noise2D_continuous_inside_period (n : ℤ) (hn : n % 256 ≠ 0) (t : ℝ) :
    Filter.Tendsto (fun x : ℝ => noise2D x t) (nhdsWithin (n : ℝ) (Set.Iio (n : ℝ)))
        (nhds (noise2D (n : ℝ) t)) ∧
      Filter.Tendsto (fun x : ℝ => noise2D x t) (nhdsWithin (n : ℝ) (Set.Ioi (n : ℝ)))
        (nhds (noise2D (n : ℝ) t)) ∧
      Filter.Tendsto (fun y : ℝ => noise2D t y) (nhdsWithin (n : ℝ) (Set.Iio (n : ℝ)))
        (nhds (noise2D t (n : ℝ))) ∧
      Filter.Tendsto (fun y : ℝ => noise2D t y) (nhdsWithin (n : ℝ) (Set.Ioi (n : ℝ)))
        (nhds (noise2D t (n : ℝ))) ∧
      indexB ((n : ℝ) - 1 / 2) t = indexA (n : ℝ) t ∧
      (indexA t ((n : ℝ) - 1 / 2)).add 1 = indexA t (n : ℝ) ∧
      (indexB t ((n : ℝ) - 1 / 2)).add 1 = indexB t (n : ℝ) := by
  have hfl : ⌊(n : ℝ) - 1 / 2⌋ = n - 1 := by
    rw [Int.floor_eq_iff]
    push_cast
    constructor <;> linarith
  have hidx : (n - 1) % 256 + 1 = n % 256 := by omega
  refine ⟨noise2D_tendsto_left_x n hn t, noise2D_tendsto_right_x n t,
    noise2D_tendsto_left_y n hn t, noise2D_tendsto_right_y n t, ?_, ?_, ?_⟩
  · unfold indexB indexA
    rw [cellIndex_of_floor hfl, hidx, cellIndex_intCast]
  · unfold indexA
    rw [cellIndex_of_floor hfl, Val.add_add_one, hidx, cellIndex_intCast]
  · unfold indexB
    rw [cellIndex_of_floor hfl, Val.add_add_one, hidx, cellIndex_intCast]

/-- Witness of C20 at the line `n = 1` and `t = 1/2`. -/
theorem noise2D_continuous_inside_period_witness :
    (1 : ℤ) % 256 ≠ 0 ∧
      Filter.Tendsto (fun x : ℝ => noise2D x (1 / 2)) (nhdsWithin ((1 : ℤ) : ℝ)
        (Set.Iio ((1 : ℤ) : ℝ))) (nhds (noise2D ((1 : ℤ) : ℝ) (1 / 2))) :=
  ⟨by decide, (noise2D_continuous_inside_period 1 (by decide) (1 / 2)).1⟩

/-- C21: when the reads are in range (`X ≤ 254`, `p[X] + Y ≤ 254`,
`p[X + 1] + Y ≤ 254`) `noise2D` equals the reference noise with table reads
modulo 256; and a corner whose read index `v` is outside the table is
evaluated with the gradient of hash `0`, `a + 2 b`. -/
theorem noise2D_refines_reference (x y : ℝ) (hX : cellIndex x ≤ 254)
    (hA : tableMod (cellIndex x) + cellIndex y ≤ 254)
    (hB : tableMod (cellIndex x + 1) + cellIndex y ≤ 254)
    (v : Val) (hv : ¬ v.InBounds) (a b : ℝ) :
    noise2D x y = noise2DRef x y ∧
      (∀ i ∈ tableReads x y, i.InBounds) ∧
      pAt v = Val.undefined ∧
      grad2D (pAt v) a b = a + 2 * b ∧
      grad2D (pAt v) a b = grad2D (Val.int 0) a b := by
  have hu : pAt v = Val.undefined := pAt_of_not_inBounds hv
  have e0 : Val.undefined.and 3 = 0 := by decide
  have e0' : (Val.int 0).and 3 = 0 := by decide
  have hx := cellIndex_eq x
  have hy := cellIndex_eq y
  have tA := tableMod_nonneg (cellIndex x)
  have tB := tableMod_nonneg (cellIndex x + 1)
  have hpX := pAt_eq_tableMod (i := cellIndex x) (by omega) (by omega)
  have hpX1 := pAt_eq_tableMod (i := cellIndex x + 1) (by omega) (by omega)
  have hiA : indexA x y = Val.int (tableMod (cellIndex x) + cellIndex y) := by
    unfold indexA
    rw [hpX]
    rfl
  have hiB : indexB x y = Val.int (tableMod (cellIndex x + 1) + cellIndex y) := by
    unfold indexB
    rw [hpX1]
    rfl
  refine ⟨noise2D_eq_ref_of_inBounds hX hA hB, ?_, hu, ?_, ?_⟩
  · intro i hi
    simp only [tableReads, hiA, hiB, List.mem_cons, List.mem_singleton, List.not_mem_nil,
      or_false] at hi
    have hlen : (p.length : ℤ) = 256 := by rw [p_length]; rfl
    rcases hi with h | h | h | h | h | h <;> rw [h] <;>
      (show 0 ≤ _ ∧ _ < (p.length : ℤ); rw [hlen]; constructor <;> omega)
  · rw [hu, grad2D_and0 e0]
  · rw [hu, grad2D_and0 e0, grad2D_and0 e0']

set_option maxRecDepth 100000 in
/-- Witness of C21 at `(x, y) = (5/2, 3/4)` (cell `X = 2`, `Y = 0`) and the read
index `256`. -/
theorem noise2D_refines_reference_witness :
    cellIndex (5 / 2 : ℝ) ≤ 254 ∧ ¬ (Val.int 256).InBounds ∧
      noise2D (5 / 2 : ℝ) (3 / 4) = noise2DRef (5 / 2) (3 / 4) ∧
      grad2D (pAt (Val.int 256)) (1 : ℝ) 1 = 1 + 2 * 1 := by
  have hX : cellIndex (5 / 2 : ℝ) = 2 := by
    rw [cellIndex_of_floor floor_five_halves]; decide
  have hY : cellIndex (3 / 4 : ℝ) = 0 := by
    rw [cellIndex_of_floor floor_three_quarters]; decide
  have hv : ¬ (Val.int 256).InBounds := by decide
  have h := noise2D_refines_reference (5 / 2) (3 / 4) (by rw [hX]; decide)
    (by rw [hX, hY]; decide) (by rw [hX, hY]; decide) (Val.int 256) hv 1 1
  exact ⟨by rw [hX]; decide, hv, h.1, h.2.2.2.1⟩

/-- C22: in main.js the vertex at the origin gets height exactly 100: the
three octaves are `0` there, the centre peak is `100`, the sharpening step
maps `100` to `100` and the clamp keeps it. -/
theorem origin_height :
    noise2D ((0 : ℝ) * 0.005) (0 * 0.005) = 0 ∧
      noise2D ((0 : ℝ) * (0.005 * 2)) (0 * (0.005 * 2)) = 0 ∧
      noise2D ((0 : ℝ) * (0.005 * 2 * 3)) (0 * (0.005 * 2 * 3)) = 0 ∧
      centerPeak Real.sqrt 0 0 = 100 ∧
      sharpen (fun a b : ℝ => a ^ b) 100 = 100 ∧
      createHeight Real.sqrt (fun a b : ℝ => a ^ b) 0 0 = 100 ∧
      max (createHeight Real.sqrt (fun a b : ℝ => a ^ b) 0 0) 0 = 100 ∧
      createHeightLoop Real.sqrt (fun a b : ℝ => a ^ b) [⟨0, 0, 0⟩] = [⟨0, 0, 100⟩] := by
  have hn : ∀ f : ℝ, noise2D ((0 : ℝ) * f) (0 * f) = 0 := by
    intro f
    rw [zero_mul]
    exact noise2D_origin
  have hp : centerPeak Real.sqrt 0 0 = 100 := by
    rw [centerPeak_eq]
    norm_num
  have hs : sharpen (fun a b : ℝ => a ^ b) 100 = 100 := by
    have hsg : sign (100 : ℝ) = 1 := sign_pos (by norm_num)
    unfold sharpen
    rw [hsg]
    norm_num
  have hh : createHeight Real.sqrt (fun a b : ℝ => a ^ b) 0 0 = 100 := by
    unfold createHeight
    simp only [hn, hp]
    norm_num
    exact hs
  refine ⟨hn _, hn _, hn _, hp, hs, hh, ?_, ?_⟩
  · rw [hh]
    norm_num
  · simp only [createHeightLoop, List.map, hh]
    norm_num

/-- C23: the centre peak `max(0, 100 - 0.3 sqrt(x^2 + y^2))` lies in
`[0, 100]`, is `100` only at the origin, and does not increase with the
distance from the origin, for any two points of the plane; on the mesh
(`|x| ≤ 200`, `|y| ≤ 200`) it is `100 - 0.3 sqrt(x^2 + y^2) ≥ 100 - 60 sqrt 2 >
15`, so the `max` with `0` is idle there. -/
theorem centerPeak_spec (x y x' y' : ℝ) :
    0 ≤ centerPeak Real.sqrt x y ∧ centerPeak Real.sqrt x y ≤ 100 ∧
      (centerPeak Real.sqrt x y = 100 ↔ x = 0 ∧ y = 0) ∧
      (Real.sqrt (x * x + y * y) ≤ Real.sqrt (x' * x' + y' * y') →
        centerPeak Real.sqrt x' y' ≤ centerPeak Real.sqrt x y) ∧
      (|x| ≤ 200 → |y| ≤ 200 →
        centerPeak Real.sqrt x y = 100 - Real.sqrt (x * x + y * y) * 0.3 ∧
        100 - 60 * Real.sqrt 2 ≤ centerPeak Real.sqrt x y ∧
        0 < centerPeak Real.sqrt x y) ∧
      15 < 100 - 60 * Real.sqrt 2 := by
  have hd := Real.sqrt_nonneg (x * x + y * y)
  have h2 := sqrt_two_lt
  have h15 : (15 : ℝ) < 100 - 60 * Real.sqrt 2 := by
    norm_num at h2 ⊢
    linarith
  refine ⟨(centerPeak_range x y).1, (centerPeak_range x y).2, ?_, centerPeak_antitone, ?_, h15⟩
  · rw [centerPeak_eq]
    constructor
    · intro h
      have hle : (100 : ℝ) ≤ 100 - Real.sqrt (x * x + y * y) * 0.3 := by
        rcases max_cases (0 : ℝ) (100 - Real.sqrt (x * x + y * y) * 0.3) with hc | hc
        · rw [hc.1] at h
          norm_num at h
        · rw [hc.1] at h
          exact h.ge
      have hz : Real.sqrt (x * x + y * y) = 0 := by
        norm_num at hle
        linarith
      have hsum : x * x + y * y = 0 := by
        have hnn : 0 ≤ x * x + y * y := by nlinarith [mul_self_nonneg x, mul_self_nonneg y]
        exact (Real.sqrt_eq_zero hnn).mp hz
      constructor
      · nlinarith [mul_self_nonneg x, mul_self_nonneg y]
      · nlinarith [mul_self_nonneg x, mul_self_nonneg y]
    · rintro ⟨rfl, rfl⟩
      norm_num
  · intro hx hy
    have hm := sqrt_mesh_le hx hy
    have hpos : 0 ≤ 100 - Real.sqrt (x * x + y * y) * 0.3 := by
      norm_num at h2 ⊢
      linarith
    have hval : centerPeak Real.sqrt x y = 100 - Real.sqrt (x * x + y * y) * 0.3 := by
      rw [centerPeak_eq, max_eq_right hpos]
    refine ⟨hval, ?_, ?_⟩
    · rw [hval]
      norm_num at hm ⊢
      linarith
    · rw [hval]
      norm_num at hm h2 ⊢
      linarith

/-- Witness of C23: the points `(180, 240)` and `(192, 256)`, both outside the
mesh, at distances `300` and `320`, and the mesh corner `(200, 200)`. -/
theorem centerPeak_spec_witness :
    Real.sqrt (180 * 180 + 240 * 240) ≤ Real.sqrt (192 * 192 + 256 * 256) ∧
      centerPeak Real.sqrt 192 256 ≤ centerPeak Real.sqrt 180 240 ∧
      |(200 : ℝ)| ≤ 200 ∧ 0 < centerPeak Real.sqrt 200 200 := by
  have ha : |(200 : ℝ)| ≤ 200 := by norm_num
  have hs : Real.sqrt (180 * 180 + 240 * 240) ≤ Real.sqrt (192 * 192 + 256 * 256) :=
    Real.sqrt_le_sqrt (by norm_num)
  exact ⟨hs, (centerPeak_spec 180 240 192 256).2.2.2.1 hs, ha,
    ((centerPeak_spec 200 200 0 0).2.2.2.2.1 ha ha).2.2⟩

/-- C24: for `n ≥ 1` sections and a scroll progress in `[0, 1]` the clamped
index `min(floor(progress n), n - 1)` lies in `0..n-1`, and exactly one of the
`n` dots is marked active. -/
theorem sectionIndexClamped_valid (n : ℕ) (hn : 1 ≤ n) (progress : ℝ)
    (hp : progress ∈ Set.Icc (0 : ℝ) 1) :
    0 ≤ sectionIndexClamped progress n ∧ sectionIndexClamped progress n ≤ (n : ℤ) - 1 ∧
      (activeDots n (sectionIndexClamped progress n)).count true = 1 := by
  obtain ⟨h0, -⟩ := floor_progress_bounds (n := n) hp
  have hlo : 0 ≤ sectionIndexClamped progress n := by
    unfold sectionIndexClamped
    exact le_min h0 (by omega)
  have hhi : sectionIndexClamped progress n ≤ (n : ℤ) - 1 := by
    unfold sectionIndexClamped
    exact min_le_right _ _
  exact ⟨hlo, hhi, activeDots_count_of_mem hlo (by omega)⟩

/-- Witness of C24 with five sections at half of the scroll range. -/
theorem sectionIndexClamped_valid_witness :
    1 ≤ 5 ∧ (1 / 2 : ℝ) ∈ Set.Icc (0 : ℝ) 1 ∧
      (activeDots 5 (sectionIndexClamped (1 / 2 : ℝ) 5)).count true = 1 := by
  have hp : (1 / 2 : ℝ) ∈ Set.Icc (0 : ℝ) 1 := by
    constructor <;> norm_num
  exact ⟨by decide, hp, (sectionIndexClamped_valid 5 (by decide) (1 / 2) hp).2.2⟩

/-- C25 (evaluation at the failing input): at the end of the scroll range
(`progress = 1`) main.js computes the index `n`, one past the last dot, where
the other variants compute `n - 1`; no dot is marked active. -/
theorem sectionIndexMain_at_end (n : ℕ) :
    sectionIndexMain (1 : ℝ) n = n ∧ sectionIndexClamped (1 : ℝ) (n + 1) = n ∧
      sectionIndexMain (1 : ℝ) (n + 1) ≠ sectionIndexClamped (1 : ℝ) (n + 1) ∧
      (activeDots n (sectionIndexMain (1 : ℝ) n)).count true = 0 ∧
      sectionIndexMain (1 : ℝ) 5 = 5 ∧ sectionIndexClamped (1 : ℝ) 5 = 4 := by
  have hm : ∀ k : ℕ, sectionIndexMain (1 : ℝ) k = k := by
    intro k
    unfold sectionIndexMain
    rw [one_mul, Int.floor_natCast]
  have hc : ∀ k : ℕ, sectionIndexClamped (1 : ℝ) (k + 1) = k := by
    intro k
    unfold sectionIndexClamped
    rw [one_mul, Int.floor_natCast]
    push_cast
    rw [min_eq_right (by omega)]
    ring
  refine ⟨hm n, hc n, ?_, ?_, ?_, ?_⟩
  · rw [hm, hc]
    push_cast
    omega
  · rw [hm]
    exact activeDots_count_of_ge le_rfl
  · exact hm 5
  · exact hc 4

/-- C26: whatever the state of `mouse` was, the `mousemove` handler sets the
targets to `clientX / innerWidth * 2 - 1` and `-(clientY / innerHeight) * 2 + 1`,
which lie in `[-1, 1]` for a pointer inside the window (the corners of the
window give `-1` and `1`), and it leaves `x` and `y` alone; a step of the
smooth follow keeps `x` in `[-1, 1]` when `x` and the target are there, keeps
the targets, and leaves exactly `0.95` of the distance to the target; a step
after the handler has all four values in `[-1, 1]` when `x` and `y` were. -/
theorem mouse_normalised (clientX clientY innerWidth innerHeight : ℝ) (mouse : Mouse ℝ)
    (hw : 0 < innerWidth) (hh : 0 < innerHeight)
    (hcx : clientX ∈ Set.Icc 0 innerWidth) (hcy : clientY ∈ Set.Icc 0 innerHeight) :
    (onMouseMove clientX clientY innerWidth innerHeight mouse).targetX =
        clientX / innerWidth * 2 - 1 ∧
      (onMouseMove clientX clientY innerWidth innerHeight mouse).targetY =
        -(clientY / innerHeight) * 2 + 1 ∧
      (onMouseMove clientX clientY innerWidth innerHeight mouse).targetX ∈ Set.Icc (-1 : ℝ) 1 ∧
      (onMouseMove clientX clientY innerWidth innerHeight mouse).targetY ∈ Set.Icc (-1 : ℝ) 1 ∧
      (onMouseMove clientX clientY innerWidth innerHeight mouse).x = mouse.x ∧
      (onMouseMove clientX clientY innerWidth innerHeight mouse).y = mouse.y ∧
      (onMouseMove 0 0 innerWidth innerHeight mouse).targetX = -1 ∧
      (onMouseMove 0 0 innerWidth innerHeight mouse).targetY = 1 ∧
      (onMouseMove innerWidth innerHeight innerWidth innerHeight mouse).targetX = 1 ∧
      (onMouseMove innerWidth innerHeight innerWidth innerHeight mouse).targetY = -1 ∧
      (mouse.x ∈ Set.Icc (-1 : ℝ) 1 → mouse.targetX ∈ Set.Icc (-1 : ℝ) 1 →
        (smoothFollow mouse).x ∈ Set.Icc (-1 : ℝ) 1) ∧
      (mouse.y ∈ Set.Icc (-1 : ℝ) 1 → mouse.targetY ∈ Set.Icc (-1 : ℝ) 1 →
        (smoothFollow mouse).y ∈ Set.Icc (-1 : ℝ) 1) ∧
      (smoothFollow mouse).targetX = mouse.targetX ∧
      (smoothFollow mouse).targetY = mouse.targetY ∧
      |mouse.targetX - (smoothFollow mouse).x| = 0.95 * |mouse.targetX - mouse.x| ∧
      |mouse.targetY - (smoothFollow mouse).y| = 0.95 * |mouse.targetY - mouse.y| ∧
      (mouse.x ∈ Set.Icc (-1 : ℝ) 1 → mouse.y ∈ Set.Icc (-1 : ℝ) 1 →
        (smoothFollow (onMouseMove clientX clientY innerWidth innerHeight mouse)).x ∈
          Set.Icc (-1 : ℝ) 1 ∧
        (smoothFollow (onMouseMove clientX clientY innerWidth innerHeight mouse)).y ∈
          Set.Icc (-1 : ℝ) 1 ∧
        (smoothFollow (onMouseMove clientX clientY innerWidth innerHeight mouse)).targetX ∈
          Set.Icc (-1 : ℝ) 1 ∧
        (smoothFollow (onMouseMove clientX clientY innerWidth innerHeight mouse)).targetY ∈
          Set.Icc (-1 : ℝ) 1) := by
  have hqx0 : 0 ≤ clientX / innerWidth := div_nonneg hcx.1 hw.le
  have hqx1 : clientX / innerWidth ≤ 1 := (div_le_one hw).2 hcx.2
  have hqy0 : 0 ≤ clientY / innerHeight := div_nonneg hcy.1 hh.le
  have hqy1 : clientY / innerHeight ≤ 1 := (div_le_one hh).2 hcy.2
  have htx : clientX / innerWidth * 2 - 1 ∈ Set.Icc (-1 : ℝ) 1 := by
    constructor <;> linarith
  have hty : -(clientY / innerHeight) * 2 + 1 ∈ Set.Icc (-1 : ℝ) 1 := by
    constructor <;> linarith
  refine ⟨rfl, rfl, htx, hty, rfl, rfl, ?_, ?_, ?_, ?_, ?_, ?_, rfl, rfl, ?_, ?_, ?_⟩
  · show (0 : ℝ) / innerWidth * 2 - 1 = -1
    rw [zero_div]
    norm_num
  · show -((0 : ℝ) / innerHeight) * 2 + 1 = 1
    rw [zero_div]
    norm_num
  · show innerWidth / innerWidth * 2 - 1 = 1
    rw [div_self hw.ne']
    norm_num
  · show -(innerHeight / innerHeight) * 2 + 1 = -1
    rw [div_self hh.ne']
    norm_num
  · intro hx ht
    exact smoothFollow_stays hx ht
  · intro hy ht
    exact smoothFollow_stays hy ht
  · exact smoothFollow_gap mouse.x mouse.targetX
  · exact smoothFollow_gap mouse.y mouse.targetY
  · intro hx hy
    exact ⟨smoothFollow_stays hx htx, smoothFollow_stays hy hty, htx, hty⟩

/-- Witness of C26: a 1920 by 1080 window, the pointer at `(1440, 270)`, and a
state of `mouse` whose old targets `5` and `-7` are outside `[-1, 1]`. -/
theorem mouse_normalised_witness :
    (0 : ℝ) < 1920 ∧ (1440 : ℝ) ∈ Set.Icc (0 : ℝ) 1920 ∧ (270 : ℝ) ∈ Set.Icc (0 : ℝ) 1080 ∧
      (onMouseMove 1440 270 1920 1080 (Mouse.mk (-1 : ℝ) (1 / 2) 5 (-7))).targetX =
        1440 / 1920 * 2 - 1 ∧
      (onMouseMove 1440 270 1920 1080 (Mouse.mk (-1 : ℝ) (1 / 2) 5 (-7))).targetX ∈
        Set.Icc (-1 : ℝ) 1 ∧
      (onMouseMove 1440 270 1920 1080 (Mouse.mk (-1 : ℝ) (1 / 2) 5 (-7))).targetY ∈
        Set.Icc (-1 : ℝ) 1 ∧
      (smoothFollow (onMouseMove 1440 270 1920 1080 (Mouse.mk (-1 : ℝ) (1 / 2) 5 (-7)))).x ∈
        Set.Icc (-1 : ℝ) 1 := by
  have hw : (0 : ℝ) < 1920 := by norm_num
  have hh : (0 : ℝ) < 1080 := by norm_num
  have hcx : (1440 : ℝ) ∈ Set.Icc (0 : ℝ) 1920 := by constructor <;> norm_num
  have hcy : (270 : ℝ) ∈ Set.Icc (0 : ℝ) 1080 := by constructor <;> norm_num
  have hx : (-1 : ℝ) ∈ Set.Icc (-1 : ℝ) 1 := by constructor <;> norm_num
  have hy : (1 / 2 : ℝ) ∈ Set.Icc (-1 : ℝ) 1 := by constructor <;> norm_num
  have h := mouse_normalised 1440 270 1920 1080 (Mouse.mk (-1 : ℝ) (1 / 2) 5 (-7)) hw hh hcx hcy
  exact ⟨hw, hcx, hcy, h.1, h.2.2.1, h.2.2.2.1, (h.2.2.2.2.2.2.2.2.2.2.2.2.2.2.2.2 hx hy).1⟩

/-- C27: the easing `e(t) = min(1, 1.001 - 2^(-10 t))` maps `[0, 1]` into
`(0, 1]`, does not decrease on `[0, 1]`, is exactly `1` at `t = 1` and `0.001`
at `t = 0`. -/
theorem easing_spec (s t : ℝ) (hs : s ∈ Set.Icc (0 : ℝ) 1) (ht : t ∈ Set.Icc (0 : ℝ) 1)
    (hst : s ≤ t) :
    0 < easing (fun a b : ℝ => a ^ b) t ∧ easing (fun a b : ℝ => a ^ b) t ≤ 1 ∧
      easing (fun a b : ℝ => a ^ b) s ≤ easing (fun a b : ℝ => a ^ b) t ∧
      easing (fun a b : ℝ => a ^ b) 0 ≤ easing (fun a b : ℝ => a ^ b) s ∧
      easing (fun a b : ℝ => a ^ b) 1 = 1 ∧
      easing (fun a b : ℝ => a ^ b) 0 = 0.001 := by
  have hpow : ∀ a b : ℝ, a ≤ b → (2 : ℝ) ^ (-10 * b) ≤ (2 : ℝ) ^ (-10 * a) := by
    intro a b hab
    exact Real.rpow_le_rpow_of_exponent_le (by norm_num) (by linarith)
  have h0 : (2 : ℝ) ^ (-10 * (0 : ℝ)) = 1 := by
    rw [mul_zero, Real.rpow_zero]
  have h1 : (2 : ℝ) ^ (-10 * (1 : ℝ)) = 1 / 1024 := by
    rw [mul_one, Real.rpow_neg (by norm_num)]
    have : (2 : ℝ) ^ (10 : ℝ) = 1024 := by
      rw [show (10 : ℝ) = ((10 : ℕ) : ℝ) by norm_num, Real.rpow_natCast]
      norm_num
    rw [this]
    norm_num
  have ht1 : (2 : ℝ) ^ (-10 * t) ≤ 1 := by
    have := hpow 0 t ht.1
    rw [h0] at this
    exact this
  have hmono : ∀ a b : ℝ, a ≤ b →
      easing (fun a b : ℝ => a ^ b) a ≤ easing (fun a b : ℝ => a ^ b) b := by
    intro a b hab
    rw [easing_eq, easing_eq]
    apply min_le_min le_rfl
    have := hpow a b hab
    linarith
  refine ⟨?_, ?_, hmono s t hst, hmono 0 s hs.1, ?_, ?_⟩
  · rw [easing_eq]
    apply lt_min
    · norm_num
    · have h : (1 : ℝ) < 1.001 := by norm_num
      linarith
  · rw [easing_eq]
    exact min_le_left _ _
  · rw [easing_eq, h1]
    norm_num
  · rw [easing_eq, h0]
    norm_num

/-- Witness of C27 at `s = 0`, `t = 1`. -/
theorem easing_spec_witness :
    (0 : ℝ) ∈ Set.Icc (0 : ℝ) 1 ∧ (1 : ℝ) ∈ Set.Icc (0 : ℝ) 1 ∧ (0 : ℝ) ≤ 1 ∧
      easing (fun a b : ℝ => a ^ b) 0 ≤ easing (fun a b : ℝ => a ^ b) 1 := by
  have h0 : (0 : ℝ) ∈ Set.Icc (0 : ℝ) 1 := by constructor <;> norm_num
  have h1 : (1 : ℝ) ∈ Set.Icc (0 : ℝ) 1 := by constructor <;> norm_num
  have h01 : (0 : ℝ) ≤ 1 := by norm_num
  exact ⟨h0, h1, h01, (easing_spec 0 1 h0 h1 h01).2.2.1⟩

end ProceduralMountain
